import Mathlib

/-!
# Shared helper routines of the Alibaba Cloud Terraform provider

A shallow embedding of the polling, retry, pagination and resource-ID helpers
found in the `alicloud` package, together with theorems about them.

Conventions of the embedding:

* a Go `error` is `Option GoError` (`none` is `nil`);
* a Go pointer result is an `Option` (`none` is the `nil` pointer);
* a Go function that can hit a run-time panic returns `Go α`;
* calls to the cloud API are oracles indexed by a call counter, so that a
  function making several calls is a pure function of the oracle.
-/

namespace Alicloud

/-! ## Errors -/

/-- Message templates of the package (`errors.go`), all of them non-blank. -/
inductive MsgTemplate where
  | DefaultErrorMsg
  | DataDefaultErrorMsg
  | NotFoundMsg
  | ResourceNotfound
  | WaitTimeoutMsg
  | IdMsg
  | FailedGetAttributeMsg
  | FailedToReachTargetStatus
  | FailedToReachTargetStatusWithResponse
  deriving DecidableEq, Repr

/-- Non-nil Go error values that the modelled code handles or builds. -/
inductive GoError where
  /-- an error returned by an SDK or API call, with its error code -/
  | sdk (code : String) (message : String)
  /-- the result of `fmt.Errorf`, `Error(...)` or `NotFoundErr(...)` -/
  | text (msg : String)
  /-- the timeout error of `resource.Retry` / `WaitForState` -/
  | timeout
  /-- a `ComplexError` around a cause (`WrapError`, `WrapErrorf`) -/
  | complex (cause : GoError) (msg : Option MsgTemplate)
  /-- a `ComplexError` without a cause (`WrapErrorf(nil, msg, ...)`) -/
  | complexNoCause (msg : MsgTemplate)
  deriving DecidableEq, Repr

/-- The Go `error` interface: `none` is `nil`. -/
abbrev error := Option GoError

/-- Modelled from the spec: `WrapError` of `errors.go` is not among the sources;
a nil cause stays nil, any other cause is wrapped into a `ComplexError`. -/
def WrapError (cause : error) : error :=
  cause.map fun e => GoError.complex e none

/-- Modelled from the spec: `WrapErrorf` of `errors.go` is not among the sources;
with a non-blank message template it always builds a `ComplexError`. -/
def WrapErrorf (cause : error) (msg : MsgTemplate) : error :=
  match cause with
  | some e => some (GoError.complex e (some msg))
  | none => some (GoError.complexNoCause msg)

/-- Modelled from the spec: `Error(msg, args...)` of `errors.go` is not among
the sources; it builds a non-nil error from a format string. -/
def Error (msg : String) : error := some (GoError.text msg)

/-- Modelled from the spec: `NotFoundErr(resource, id)` of `errors.go` is not
among the sources; it builds a non-nil error naming the missing resource. -/
def NotFoundErr (resource id : String) : error :=
  some (GoError.text ("ResourceNotfound " ++ resource ++ " " ++ id))

/-- The error classifiers of `errors.go`, which are not among the sources:
they are parameters of every modelled function that consults them. -/
structure Classifiers where
  NotFoundError : GoError → Bool
  NeedRetry : GoError → Bool
  IsExpectedErrors : GoError → List String → Bool

/-- A concrete classifier set used to run the model: not-found is recognised by
the `ResourceNotfound` / `NotFoundMsg` templates or a not-found SDK code through
any wrapping, retry by throttling codes, expected errors by the SDK code. -/
def GoError.isNotFound : GoError → Bool
  | .sdk code _ => code == "InstanceNotFound" || code == "NotFound"
  | .text _ => false
  | .timeout => false
  | .complex cause msg =>
      msg == some MsgTemplate.ResourceNotfound || msg == some MsgTemplate.NotFoundMsg
        || cause.isNotFound
  | .complexNoCause msg =>
      msg == MsgTemplate.ResourceNotfound || msg == MsgTemplate.NotFoundMsg

/-- The SDK error code found under any wrapping, if there is one. -/
def GoError.code? : GoError → Option String
  | .sdk code _ => some code
  | .text _ => none
  | .timeout => none
  | .complex cause _ => cause.code?
  | .complexNoCause _ => none

/-- Sample classifiers for running the model on concrete inputs. -/
def sampleClassifiers : Classifiers where
  NotFoundError := GoError.isNotFound
  NeedRetry := fun e => e.code? == some "Throttling" || e.code? == some "ServiceUnavailable"
  IsExpectedErrors := fun e codes =>
    match e.code? with
    | some c => codes.contains c
    | none => false

/-! ## Run-time panics -/

/-- Result of a Go function that may panic (nil dereference, failed type
assertion, index out of range) instead of returning. -/
inductive Go (α : Type) where
  | ret (v : α)
  | panic
  deriving DecidableEq, Repr

namespace Go

/-- Sequencing of computations that may panic. -/
def bind {α β : Type} (x : Go α) (f : α → Go β) : Go β :=
  match x with
  | ret v => f v
  | panic => panic

instance : Monad Go where
  pure := ret
  bind := bind

end Go

/-! ## Dynamically typed values -/

/-- A Go `interface{}` value as decoded from JSON or stored in a request map. -/
inductive Json where
  /-- the nil interface -/
  | null
  | bool (b : Bool)
  /-- a Go `int` -/
  | int (n : Int)
  /-- a `json.Number`, kept as its decimal text -/
  | num (text : String)
  | str (s : String)
  /-- a `[]interface{}` -/
  | arr (items : List Json)
  /-- a `map[string]interface{}` -/
  | obj (fields : List (String × Json))

/-- A `map[string]interface{}`. -/
abbrev GoMap := List (String × Json)

namespace Json

/-- Indexing a map: a missing key yields the nil interface. -/
def index (m : GoMap) (key : String) : Json :=
  (m.lookup key).getD null

/-- The type assertion `v.(map[string]interface{})`. -/
def asMap : Json → Go GoMap
  | obj fields => .ret fields
  | _ => .panic

/-- The type assertion `v.([]interface{})`. -/
def asSlice : Json → Go (List Json)
  | arr items => .ret items
  | _ => .panic

/-- The type assertion `v.(string)`. -/
def asString : Json → Go String
  | str s => .ret s
  | _ => .panic

/-- The type assertion `v.(bool)`. -/
def asBool : Json → Go Bool
  | bool b => .ret b
  | _ => .panic

/-- The type assertion `v.(int)`. -/
def asInt : Json → Go Int
  | int n => .ret n
  | _ => .panic

mutual
/-- The text `fmt.Sprint` gives for one operand (maps are printed in the order
in which the model stores their fields). -/
def sprint : Json → String
  | null => "<nil>"
  | bool b => if b then "true" else "false"
  | int n => toString n
  | num t => t
  | str s => s
  | arr xs => "[" ++ sprintList xs ++ "]"
  | obj fs => "map[" ++ sprintFields fs ++ "]"
/-- The elements of a slice, separated by blanks. -/
def sprintList : List Json → String
  | [] => ""
  | [x] => sprint x
  | x :: xs => sprint x ++ " " ++ sprintList xs
/-- The entries of a map, separated by blanks. -/
def sprintFields : List (String × Json) → String
  | [] => ""
  | [(k, v)] => k ++ ":" ++ sprint v
  | (k, v) :: fs => k ++ ":" ++ sprint v ++ " " ++ sprintFields fs
end

end Json

/-- The call `fmt.Sprint(a, ":", b, ":", c)`: every second operand is a string,
so no blank is inserted between operands. -/
def Sprint3 (a b c : Json) : String :=
  a.sprint ++ ":" ++ b.sprint ++ ":" ++ c.sprint

/-- The assignment `m[key] = value` on a map kept as a list of entries. -/
def mapAssign (m : GoMap) (key : String) (value : Json) : GoMap :=
  match m with
  | [] => [(key, value)]
  | (k, v) :: rest =>
      if k = key then (key, value) :: rest else (k, v) :: mapAssign rest key value

/-! ## Retrying an API call -/

/-- What is left after `resource.Retry` has run the usual closure
`response, err = call(); if err != nil { if retryable(err) {...} ... }`. -/
structure RetryOutcome (α : Type) where
  /-- index of the next call, that is, the number of calls made so far -/
  next : Nat
  /-- the variable `response` as the last attempt left it -/
  response : Option α
  /-- the error returned by `resource.Retry` -/
  err : error

/-- The retry loop of `resource.Retry` (terraform-plugin-sdk), with the timeout
expressed as the number of attempts that fit in it: attempt `n` is `call n`; a
success or a non-retryable error ends the loop, a retryable error starts
another attempt while budget remains; when the budget is used up the last error
is returned, or the timeout error if no attempt was made. -/
def Retry {α : Type} (retryable : GoError → Bool) (call : Nat → Option α × error) :
    (budget : Nat) → (n : Nat) → (response : Option α) → (last : error) → RetryOutcome α
  | 0, n, response, last => ⟨n, response, some (last.getD GoError.timeout)⟩
  | budget + 1, n, _, _ =>
      match call n with
      | (r, none) => ⟨n + 1, r, none⟩
      | (r, some e) =>
          if retryable e then Retry retryable call budget (n + 1) r (some e)
          else ⟨n + 1, r, some e⟩

/-! ## State refresh functions -/

/-- The triple returned by a `resource.StateRefreshFunc`. -/
structure Refresh (α : Type) where
  result : Option α
  state : String
  err : error
  deriving DecidableEq, Repr

/-- The loop `for _, failState := range failStates` shared by the refresh
functions: the first fail state equal to the current state decides. -/
def failStateLoop {α : Type} (object : Option α) (current : String) (onFail : error) :
    List String → Refresh α
  | [] => ⟨object, current, none⟩
  | failState :: rest =>
      if current = failState then ⟨object, current, onFail⟩
      else failStateLoop object current onFail rest

/-- The fields of `cs.KubernetesClusterDetail` that the modelled code reads. -/
structure KubernetesClusterDetail where
  ClusterId : String
  Name : String
  State : String
  MetaData : String
  deriving DecidableEq, Repr

/-- The fields of `cs.NodePoolDetail` that the modelled code reads. -/
structure NodePoolDetail where
  NodePoolId : String
  State : String
  deriving DecidableEq, Repr

/-- `CsService.CsKubernetesInstanceStateRefreshFunc`; `DescribeCsKubernetes id`
is what the describe call of this poll returns. -/
def CsKubernetesInstanceStateRefreshFunc (c : Classifiers)
    (DescribeCsKubernetes : String → Option KubernetesClusterDetail × error)
    (id : String) (failStates : List String) : Go (Refresh KubernetesClusterDetail) :=
  match DescribeCsKubernetes id with
  | (_, some err) =>
      if c.NotFoundError err then .ret ⟨none, "", none⟩
      else .ret ⟨none, "", WrapError (some err)⟩
  | (none, none) => .panic
  | (some object, none) =>
      .ret (failStateLoop (some object) object.State
        (WrapError (Error ("FailedToReachTargetStatus " ++ object.State))) failStates)

/-- `CsService.CsKubernetesNodePoolStateRefreshFunc`; `DescribeCsKubernetesNodePool id`
is what the describe call of this poll returns. -/
def CsKubernetesNodePoolStateRefreshFunc (c : Classifiers)
    (DescribeCsKubernetesNodePool : String → Option NodePoolDetail × error)
    (id : String) (failStates : List String) : Go (Refresh NodePoolDetail) :=
  match DescribeCsKubernetesNodePool id with
  | (_, some err) =>
      if c.NotFoundError err then .ret ⟨none, "", none⟩
      else .ret ⟨none, "", WrapError (some err)⟩
  | (none, none) => .panic
  | (some object, none) =>
      .ret (failStateLoop (some object) object.State
        (WrapError (Error ("FailedToReachTargetStatus " ++ object.State))) failStates)

/-! ## Kubernetes addons -/

/-- The struct `Component` of `service_alicloud_cs.go`. -/
structure Component where
  ComponentName : String := ""
  Version : String := ""
  NextVersion : String := ""
  CanUpgrade : Bool := false
  Required : Bool := false
  Status : String := ""
  ErrMessage : String := ""
  Config : String := ""
  ConfigSchema : String := ""
  Error : Json := Json.null
  SupportedActions : List String := []

/-- The body of a `DescribeClusterAddonInstanceResponse`: optional strings. -/
structure AddonInstanceBody where
  Name : Option String
  Version : Option String
  State : Option String
  Config : Option String

/-- The two API calls behind the addon describe functions; the argument is the
attempt number inside the retry loop that makes the call. -/
structure CsAddonApi where
  DescribeClusterAddonInstance : Nat → Option AddonInstanceBody × error
  DescribeClusterAddonsUpgradeStatus : Nat → Option GoMap × error

/-- The optional assignment `if v, ok := tasks["message"]; ok { ... v.(string) }`. -/
def optMessage (tasks : GoMap) (dflt : String) : Go String :=
  match tasks.lookup "message" with
  | some message => message.asString
  | none => .ret dflt

/-- `CsClient.DescribeCsKubernetesAddonStatus`; `budget` is the number of
attempts that fit in the five minutes given to `resource.Retry`. -/
def DescribeCsKubernetesAddonStatus (c : Classifiers) (api : CsAddonApi) (budget : Nat)
    (addonName : String) : Go (Option Component × error) :=
  let r := Retry c.NeedRetry api.DescribeClusterAddonsUpgradeStatus budget 0 none none
  match r.err with
  | some err => .ret (none, WrapErrorf (some err) MsgTemplate.DefaultErrorMsg)
  | none =>
      match r.response with
      | none => .panic
      | some body =>
          match body.lookup addonName with
          | none =>
              .ret (none, WrapErrorf (NotFoundErr "alicloud_cs_kubernetes_addon" addonName)
                MsgTemplate.ResourceNotfound)
          | some addon => do
              let addonMap ← addon.asMap
              let addonInfo := Json.index addonMap "addon_info"
              let tasks := Json.index addonMap "tasks"
              let infoMap ← addonInfo.asMap
              let version ← (Json.index infoMap "version").asString
              let canUpgrade ← (Json.index addonMap "can_upgrade").asBool
              let tasksMap ← tasks.asMap
              let status ← (Json.index tasksMap "status").asString
              let tErr := (tasksMap.lookup "error").getD Json.null
              let message ← optMessage tasksMap ""
              pure (some { Version := version, CanUpgrade := canUpgrade, Status := status,
                           Error := tErr, ErrMessage := message }, none)

/-- `CsClient.DescribeCsKubernetesAddonInstance`. -/
def DescribeCsKubernetesAddonInstance (c : Classifiers) (api : CsAddonApi) (budget : Nat)
    (addonName : String) : Go (Option Component × error) :=
  let r := Retry c.NeedRetry api.DescribeClusterAddonInstance budget 0 none none
  match r.err with
  | some err =>
      if c.IsExpectedErrors err ["AddonNotFound"] then
        .ret (some {}, WrapErrorf (NotFoundErr "alicloud_cs_kubernetes_addon" addonName)
          MsgTemplate.ResourceNotfound)
      else .ret (none, some err)
  | none =>
      match r.response with
      | none => .panic
      | some body =>
          if body.State = none ∨ body.State = some "" then
            DescribeCsKubernetesAddonStatus c api budget addonName
          else
            .ret (some { ComponentName := body.Name.getD "", Version := body.Version.getD "",
                         Status := body.State.getD "", Config := body.Config.getD "" }, none)

/-- `CsClient.CsKubernetesAddonTaskRefreshFunc`. -/
def CsKubernetesAddonTaskRefreshFunc (c : Classifiers) (api : CsAddonApi) (budget : Nat)
    (clusterId addonName : String) (failStates : List String) : Go (Refresh Component) := do
  let describe ← DescribeCsKubernetesAddonStatus c api budget addonName
  match describe with
  | (_, some err) =>
      if c.NotFoundError err then pure ⟨none, "", none⟩
      else pure ⟨none, "", WrapError (some err)⟩
  | (none, none) => .panic
  | (some object, none) =>
      pure (failStateLoop (some object) object.Status
        (WrapError (Error ("FailedToReachTargetStatusWithResponse " ++ clusterId ++ " "
          ++ object.ErrMessage))) failStates)

/-- `CsClient.CsKubernetesAddonStateRefreshFunc`. -/
def CsKubernetesAddonStateRefreshFunc (c : Classifiers) (api : CsAddonApi) (budget : Nat)
    (clusterId addonName : String) (failStates : List String) : Go (Refresh Component) := do
  let describe ← DescribeCsKubernetesAddonInstance c api budget addonName
  match describe with
  | (_, some err) =>
      if c.NotFoundError err then pure ⟨none, "", none⟩
      else pure ⟨none, "", WrapError (some err)⟩
  | (none, none) => .panic
  | (some object, none) =>
      pure (failStateLoop (some object) object.Status
        (WrapError (Error ("FailedToReachTargetStatusWithResponse " ++ clusterId ++ " "
          ++ object.ErrMessage))) failStates)

/-- `CsClient.CsKubernetesAddonExistRefreshFunc`. -/
def CsKubernetesAddonExistRefreshFunc (c : Classifiers) (api : CsAddonApi) (budget : Nat)
    (addonName : String) : Go (Refresh Component) := do
  let describe ← DescribeCsKubernetesAddonInstance c api budget addonName
  match describe with
  | (object, some err) =>
      if c.NotFoundError err then pure ⟨object, "deleted", none⟩
      else pure ⟨none, "", WrapError (some err)⟩
  | (none, none) => .panic
  | (some object, none) => pure ⟨some object, object.Status, none⟩

/-! ## Log service projects -/

/-- The fields of `sls.LogProject` that the modelled code reads. -/
structure LogProject where
  Name : String := ""
  Description : String := ""
  Status : String := ""
  deriving DecidableEq, Repr

/-- The constant `LogClientTimeout` of `errors.go`, only ever handed to
`IsExpectedErrors`. -/
def LogClientTimeout : String := "Client.Timeout exceeded while awaiting headers"

/-- `LogService.DescribeLogProject`: `getProject n` is what attempt `n` of
`slsClient.GetProject(id)` yields, `budget` the number of attempts that fit in
the two minutes given to `resource.Retry`. -/
def DescribeLogProject (c : Classifiers) (getProject : Nat → Option LogProject × error)
    (budget : Nat) (id : String) : Option LogProject × error :=
  let r := Retry (fun e => c.IsExpectedErrors e [LogClientTimeout, "ProjectForbidden"])
    getProject budget 0 none none
  match r.err with
  | some err =>
      -- `project` still is the initial `&sls.LogProject{}`
      if c.IsExpectedErrors err ["ProjectNotExist"] then
        (some {}, WrapErrorf (some err) MsgTemplate.NotFoundMsg)
      else (some {}, WrapErrorf (some err) MsgTemplate.DefaultErrorMsg)
  | none =>
      match r.response with
      | none => (none, WrapErrorf (NotFoundErr "LogProject" id) MsgTemplate.NotFoundMsg)
      | some project =>
          if project.Name = "" then
            (some project, WrapErrorf (NotFoundErr "LogProject" id) MsgTemplate.NotFoundMsg)
          else (some project, none)

/-- The status constant `Deleted` of `common.go`. -/
def Deleted : String := "Deleted"

/-- One iteration of the loop of `LogService.WaitForLogProject`: `some r` when
the iteration returns `r` (or panics), `none` when the loop goes round again.
`describe` is what `DescribeLogProject(id)` returned at this poll and `late`
the value of `time.Now().After(deadline)` after it. -/
def waitForLogProjectStep (c : Classifiers) (id status : String)
    (describe : Option LogProject × error) (late : Bool) : Option (Go error) :=
  -- the block `if err != nil { ... }`
  let onError : Option (Go error) :=
    match describe.2 with
    | some err =>
        if c.NotFoundError err then
          if status = Deleted then some (.ret none) else none
        else some (.ret (WrapError (some err)))
    | none => none
  match onError with
  | some r => some r
  | none =>
      match describe.1 with
      | none => some .panic
      | some object =>
          if object.Name = id ∧ status ≠ Deleted then some (.ret none)
          else if late then some (.ret (WrapErrorf describe.2 MsgTemplate.WaitTimeoutMsg))
          else none

/-- `LogService.WaitForLogProject` as a function of the sequence of describe
results and clock readings, starting at poll `i`: the result and the number of
polls made, or `none` when `fuel` polls were not enough to end the loop. -/
def WaitForLogProject (c : Classifiers) (id status : String)
    (describe : Nat → Option LogProject × error) (late : Nat → Bool) :
    (fuel : Nat) → (i : Nat) → Option (Go error × Nat)
  | 0, _ => none
  | fuel + 1, i =>
      match waitForLogProjectStep c id status (describe i) (late i) with
      | some r => some (r, i + 1)
      | none => WaitForLogProject c id status describe late fuel (i + 1)

/-- A poll that gives `WaitForLogProject` nothing to return: the describe call
did not fail with an error other than not-found, did not report not-found
while the awaited status is `Deleted`, returned a project that is not the
awaited one (its name differs from `id`, or the awaited status is `Deleted`),
and the deadline has not passed. -/
def quietPoll (c : Classifiers) (id status : String)
    (describe : Option LogProject × error) (late : Bool) : Prop :=
  (∀ e, describe.2 = some e → c.NotFoundError e = true ∧ status ≠ Deleted) ∧
  (∃ object, describe.1 = some object ∧ ¬ (object.Name = id ∧ status ≠ Deleted)) ∧
  late = false

/-- `LogService.LogProjectStateRefreshFunc`; `DescribeLogProject id` is what the
describe call of this poll returns. -/
def LogProjectStateRefreshFunc (c : Classifiers)
    (DescribeLogProject : String → Option LogProject × error)
    (id : String) (failStates : List String) : Go (Refresh LogProject) :=
  match DescribeLogProject id with
  | (_, some err) =>
      if c.NotFoundError err then .ret ⟨none, "", none⟩
      else .ret ⟨none, "", WrapError (some err)⟩
  | (none, none) => .panic
  | (some object, none) =>
      .ret (failStateLoop (some object) object.Status
        (WrapError (Error ("FailedToReachTargetStatus " ++ object.Status))) failStates)

/-! ## Resource identifiers -/

/-- The pieces of a character list between occurrences of `sep`, as
`strings.Split` cuts them: one more piece than there are separators. -/
def splitChars (sep : Char) : List Char → List (List Char)
  | [] => [[]]
  | ch :: rest =>
      if ch = sep then [] :: splitChars sep rest
      else
        match splitChars sep rest with
        | [] => [[ch]]
        | part :: parts => (ch :: part) :: parts

/-- The call `strings.Split(s, ":")`. -/
def stringsSplitColon (s : String) : List String :=
  (splitChars ':' s.data).map String.mk

/-- Modelled from the spec: `ParseResourceId` of `common.go` is not among the
sources; it decomposes a resource ID by splitting it on `:` and reports an
error unless the number of parts is `length` (the parts are returned either
way), as the inlined copy in `DescribeAckNodepool` does. -/
def ParseResourceId (id : String) (length : Nat) : List String × error :=
  let parts := stringsSplitColon id
  if parts.length ≠ length then
    (parts, WrapError (some (GoError.text ("Invalid Resource Id " ++ id))))
  else (parts, none)

/-! ## Terraform resource data -/

/-- The part of `schema.ResourceData` the modelled code touches: the resource
ID, the new-resource mark and the attributes read by `Get` and written by `Set`. -/
structure ResourceData where
  Id : String
  IsNewResource : Bool
  attrs : String → Json

namespace ResourceData

/-- The method `d.Get(key)`. -/
def Get (d : ResourceData) (key : String) : Json := d.attrs key

/-- The method `d.Set(key, value)`. -/
def Set (d : ResourceData) (key : String) (value : Json) : ResourceData :=
  { d with attrs := fun k => if k = key then value else d.attrs k }

/-- The method `d.SetId(id)`. -/
def SetId (d : ResourceData) (id : String) : ResourceData :=
  { d with Id := id }

end ResourceData

/-! ## Resource `alicloud_resource_manager_shared_resource` -/

/-- The environment of the shared-resource functions: the `RpcPost` call
(attempt number and request), the state wait of `Create` as a function of the
resource ID, and `DescribeResourceManagerSharedResource`, which belongs to a
service file that is not among the sources. -/
structure SharedResourceApi where
  RpcPost : Nat → GoMap → Option GoMap × error
  WaitForState : String → error
  DescribeResourceManagerSharedResource : String → GoMap × error

/-- `resourceAliCloudResourceManagerSharedResourceRead`. -/
def resourceAliCloudResourceManagerSharedResourceRead (c : Classifiers)
    (api : SharedResourceApi) (d : ResourceData) : ResourceData × error :=
  match api.DescribeResourceManagerSharedResource d.Id with
  | (_, some err) =>
      if !d.IsNewResource && c.NotFoundError err then (d.SetId "", none)
      else (d, WrapError (some err))
  | (object, none) =>
      match ParseResourceId d.Id 3 with
      | (_, some err) => (d, WrapError (some err))
      | (parts, none) =>
          let d := d.Set "resource_id" (Json.str (parts.getD 1 ""))
          let d := d.Set "resource_share_id" (Json.str (parts.getD 0 ""))
          let d := d.Set "resource_type" (Json.str (parts.getD 2 ""))
          let d := d.Set "status" (Json.index object "AssociationStatus")
          (d, none)

/-- The request map that `Create` sends with every attempt. -/
def sharedResourceCreateRequest (d : ResourceData) : GoMap :=
  [("Resources.1.ResourceId", d.Get "resource_id"),
   ("ResourceShareId", d.Get "resource_share_id"),
   ("Resources.1.ResourceType", d.Get "resource_type")]

/-- The expression `response["ResourceShareAssociations"].([]interface{})[0].(map[string]interface{})`;
indexing a nil map yields nil, on which the first assertion panics. -/
def firstAssociation (response : Option GoMap) : Go GoMap := do
  let items ← (Json.index (response.getD []) "ResourceShareAssociations").asSlice
  match items with
  | [] => .panic
  | first :: _ => first.asMap

/-- What a run of `Create` leaves behind: the number of `AssociateResourceShare`
calls made, the resource data as the run left it (it is updated in place), and
the error returned (or a panic). -/
structure CreateRun where
  calls : Nat
  d : ResourceData
  out : Go error

/-- `resourceAliCloudResourceManagerSharedResourceCreate`; `budget` is the
number of attempts that fit in the retry timeout. -/
def resourceAliCloudResourceManagerSharedResourceCreate (c : Classifiers)
    (api : SharedResourceApi) (budget : Nat) (d : ResourceData) : CreateRun :=
  let request := sharedResourceCreateRequest d
  let r := Retry c.NeedRetry (fun n => api.RpcPost n request) budget 0 none none
  match r.err with
  | some err => ⟨r.next, d, .ret (WrapErrorf (some err) MsgTemplate.DefaultErrorMsg)⟩
  | none =>
      match firstAssociation r.response with
      | .panic => ⟨r.next, d, .panic⟩
      | .ret response =>
          let d := d.SetId (Sprint3 (Json.index response "ResourceShareId")
            (Json.index response "EntityId") (Json.index response "EntityType"))
          match api.WaitForState d.Id with
          | some err => ⟨r.next, d, .ret (WrapErrorf (some err) MsgTemplate.IdMsg)⟩
          | none =>
              let read := resourceAliCloudResourceManagerSharedResourceRead c api d
              ⟨r.next, read.1, .ret read.2⟩

/-! ## ACK node pools -/

/-- What a call of `DescribeAckNodepool` leaves behind: the paths of the API
requests it issued, in order, and what it returned (or a panic). -/
structure AckDescribeRun where
  requests : List String
  out : Go (Option GoMap × error)

/-- `AckServiceV2.DescribeAckNodepool`. `RoaGet n action` is what call number
`n` to the API answers for the path `action`, `budget` the number of attempts
that fit in the minute given to `resource.Retry`. The error assigned when the
ID does not have two parts is not returned: execution goes on to `parts[1]`,
which panics on a single part, and to the assignment of the result of
`resource.Retry` to the same variable. -/
def DescribeAckNodepool (c : Classifiers) (RoaGet : Nat → String → Option GoMap × error)
    (budget : Nat) (id : String) : AckDescribeRun :=
  let parts := stringsSplitColon id
  -- `if len(parts) != 2 { err = WrapError(...) }`; `err` is assigned again below
  let _err : error :=
    if parts.length ≠ 2 then WrapError (some (GoError.text ("invalid Resource Id " ++ id)))
    else none
  match parts with
  | ClusterId :: NodepoolId :: _ =>
      let action := "/clusters/" ++ ClusterId ++ "/nodepools/" ++ NodepoolId
      let r := Retry c.NeedRetry (fun n => RoaGet n action) budget 0 none none
      { requests := List.replicate r.next action
        out :=
          match r.err with
          | some err =>
              if c.IsExpectedErrors err ["ErrorNodePoolNotFound", "ErrorClusterNotFound"] then
                .ret (none, WrapErrorf (NotFoundErr "Nodepool" id) MsgTemplate.NotFoundMsg)
              else .ret (none, WrapErrorf (some err) MsgTemplate.DefaultErrorMsg)
          | none => .ret (r.response, none) }
  | _ => { requests := [], out := .panic }

/-! ## Resource `alicloud_kms_ciphertext` -/

/-- The digit table of `strconv`. -/
def strconvDigits : List Char := "0123456789abcdefghijklmnopqrstuvwxyz".toList

/-- The character `digits[d]`. -/
def strconvDigit (d : Nat) : Char := strconvDigits.getD d '0'

/-- The loop of `strconv.formatBits` for base 16: while `u >= 16` the digit for
`u & 15` is written in front of what is already there and `u` is shifted right
by 4; the last digit is that of `u`. `fuel` bounds the number of rounds. -/
def formatBits16 : (fuel : Nat) → (u : Nat) → (acc : List Char) → List Char
  | 0, u, acc => strconvDigit u :: acc
  | fuel + 1, u, acc =>
      if u ≥ 16 then formatBits16 fuel (u / 16) (strconvDigit (u % 16) :: acc)
      else strconvDigit u :: acc

/-- The call `strconv.FormatInt(i, 16)`: the digits of the magnitude, after a
minus sign when `i` is negative. -/
def strconvFormatInt16 (i : Int) : String :=
  if i < 0 then String.mk ('-' :: formatBits16 i.natAbs i.natAbs [])
  else String.mk (formatBits16 i.natAbs i.natAbs [])

/-- The lower-case hexadecimal digits. -/
def lowerHexDigits : List Char := "0123456789abcdef".toList

/-- The value of a lower-case hexadecimal digit (0 for any other character). -/
def lowerHexValue (ch : Char) : Nat := lowerHexDigits.indexOf ch % 16

/-- The number that a string of hexadecimal digits denotes, most significant
digit first. -/
def hexNumber (digits : List Char) : Nat :=
  digits.foldl (fun value ch => 16 * value + lowerHexValue ch) 0

/-- `resourceAlicloudKmsCiphertextCreate`: the resource data as the run leaves
it (it is updated in place) and the error returned (or a panic). `now` is
`time.Now().Unix()`, `RpcPost n request` what attempt `n` of the `Encrypt`
call answers, `budget` the number of attempts that fit in the retry timeout,
and `convertMaptoJsonString` the helper of `common.go`. -/
def resourceAlicloudKmsCiphertextCreate (c : Classifiers)
    (RpcPost : Nat → GoMap → Option GoMap × error) (budget : Nat)
    (convertMaptoJsonString : GoMap → String × error) (RegionId : String) (now : Int)
    (d : ResourceData) : ResourceData × Go error :=
  let d := d.SetId (strconvFormatInt16 now)
  let request : GoMap :=
    [("Plaintext", d.Get "plaintext"), ("KeyId", d.Get "key_id"),
     ("RegionId", Json.str RegionId)]
  -- the block `if context := d.Get("encryption_context"); context != nil { ... }`
  let withContext : Go (GoMap × error) :=
    match d.Get "encryption_context" with
    | Json.null => .ret (request, none)
    | context => do
        let cm ← context.asMap
        match convertMaptoJsonString cm with
        | (_, some err) => pure (request, some err)
        | (contextJson, none) =>
            pure (mapAssign request "EncryptionContext" (Json.str contextJson), none)
  match withContext with
  | .panic => (d, .panic)
  | .ret (_, some err) => (d, .ret (WrapErrorf (some err) MsgTemplate.DefaultErrorMsg))
  | .ret (request, none) =>
      let r := Retry c.NeedRetry (fun n => RpcPost n request) budget 0 none none
      match r.err with
      | some err => (d, .ret (WrapErrorf (some err) MsgTemplate.DefaultErrorMsg))
      | none =>
          match (r.response.getD []).lookup "CiphertextBlob" with
          | none =>
              (d, .ret (WrapErrorf (some (GoError.text "unknown key CiphertextBlob"))
                MsgTemplate.FailedGetAttributeMsg))
          | some resp => (d.Set "ciphertext_blob" resp, .ret none)

/-! ## Paginated data sources -/

/-- What a run of a paginated data-source read leaves behind: the requests
sent to the API, in order, and what the function returned: `none` while the
loop is still running when the fuel (a bound on the number of pages) is used
up, otherwise the outputs it set (if it got that far) and its error, or a panic. -/
structure ReadRun (ω : Type) where
  requests : List GoMap
  out : Option (Go (Option ω × error))

/-- The conversion `result, _ := resp.([]interface{})`: nil when the assertion fails. -/
def sliceOrNil : Json → List Json
  | Json.arr items => items
  | _ => []

/-- The map built from the `ids` argument: nil elements are skipped. Only
membership and emptiness of the map are used, so it is kept as a list of keys. -/
def idsMapOf (ids : List (Option String)) : List String :=
  ids.filterMap fun vv => vv

/-- The arguments of `alicloud_cr_chart_repositories`. `name_regex` is the
compiled expression as a predicate on strings, `none` when the argument is unset. -/
structure ChartRepositoriesArgs where
  instance_id : Json
  RegionId : String
  ids : List (Option String)
  name_regex : Option (String → Bool)

/-- The request map of `dataSourceAlicloudCrChartRepositoriesRead`. -/
def chartRepositoriesRequest (a : ChartRepositoriesArgs) : GoMap :=
  [("InstanceId", a.instance_id), ("RegionId", Json.str a.RegionId)]

/-- The body of `for _, v := range result` for one item: whether the item is
appended to `objects`. -/
def chartRepositoryKept (a : ChartRepositoriesArgs) (v : Json) : Go (Option GoMap) := do
  let item ← v.asMap
  let rejectedByName :=
    match a.name_regex with
    | some nameRegex => !nameRegex (Json.index item "RepoName").sprint
    | none => false
  if rejectedByName then pure none
  else if (idsMapOf a.ids).length > 0 ∧
      ¬ (Sprint3 (Json.index item "InstanceId") (Json.index item "RepoNamespaceName")
          (Json.index item "RepoName")) ∈ idsMapOf a.ids then pure none
  else pure (some item)

/-- The loop `for _, v := range result` appending the kept items to `objects`. -/
def chartRepositoriesAppend (a : ChartRepositoriesArgs) :
    List Json → List GoMap → Go (List GoMap)
  | [], objects => .ret objects
  | v :: rest, objects =>
      match chartRepositoryKept a v with
      | .panic => .panic
      | .ret none => chartRepositoriesAppend a rest objects
      | .ret (some item) => chartRepositoriesAppend a rest (objects ++ [item])

/-- The outputs set by `dataSourceAlicloudCrChartRepositoriesRead`. -/
structure ChartRepositoriesOutput where
  ids : List String
  names : List Json
  repositories : List GoMap

/-- The `mapping` built for one object. -/
def chartRepositoryMapping (object : GoMap) : GoMap :=
  [("chart_repository_id", Json.index object "RepoId"),
   ("create_time", Json.str (Json.index object "CreateTime").sprint),
   ("instance_id", Json.index object "InstanceId"),
   ("id", Json.str (Sprint3 (Json.index object "InstanceId")
      (Json.index object "RepoNamespaceName") (Json.index object "RepoName"))),
   ("repo_name", Json.str (Json.index object "RepoName").sprint),
   ("repo_namespace_name", Json.index object "RepoNamespaceName"),
   ("repo_type", Json.index object "RepoType"),
   ("summary", Json.index object "Summary")]

/-- The part of the read after the page loop: the three outputs. -/
def chartRepositoriesOutput (objects : List GoMap) : ChartRepositoriesOutput where
  ids := objects.map fun object => (Json.index (chartRepositoryMapping object) "id").sprint
  names := objects.map fun object => Json.index (chartRepositoryMapping object) "repo_name"
  repositories := objects.map chartRepositoryMapping

/-- The page loop of `dataSourceAlicloudCrChartRepositoriesRead` followed by the
output section. `RpcPost n request` is what call number `n` to the API
answers, `budget` the number of attempts that fit in the retry timeout,
`pageSize` the constant `PageSizeLarge`. The state of the loop is the local
`pageNo`, the call counter, `objects` and the requests sent so far; the
variable `request` is not assigned in the loop. -/
def chartRepositoriesLoop (c : Classifiers) (RpcPost : Nat → GoMap → Option GoMap × error)
    (budget pageSize : Nat) (a : ChartRepositoriesArgs) (request : GoMap) :
    (fuel : Nat) → (pageNo : Nat) → (call : Nat) → (objects : List GoMap) →
    (sent : List GoMap) → ReadRun ChartRepositoriesOutput
  | 0, _, _, _, sent => ⟨sent, none⟩
  | fuel + 1, pageNo, call, objects, sent =>
      let r := Retry c.NeedRetry (fun n => RpcPost n request) budget call none none
      let sent := sent ++ List.replicate (r.next - call) request
      match r.err with
      | some err =>
          ⟨sent, some (.ret (none, WrapErrorf (some err) MsgTemplate.DataDefaultErrorMsg))⟩
      | none =>
          match (r.response.getD []).lookup "Repositories" with
          | none =>
              ⟨sent, some (.ret (none,
                WrapErrorf (some (GoError.text "unknown key Repositories"))
                  MsgTemplate.FailedGetAttributeMsg))⟩
          | some resp =>
              let result := sliceOrNil resp
              match chartRepositoriesAppend a result objects with
              | .panic => ⟨sent, some .panic⟩
              | .ret objects =>
                  if result.length < pageSize then
                    ⟨sent, some (.ret (some (chartRepositoriesOutput objects), none))⟩
                  else
                    chartRepositoriesLoop c RpcPost budget pageSize a request fuel (pageNo + 1)
                      r.next objects sent

/-- `dataSourceAlicloudCrChartRepositoriesRead`. -/
def dataSourceAlicloudCrChartRepositoriesRead (c : Classifiers)
    (RpcPost : Nat → GoMap → Option GoMap × error) (budget pageSize : Nat)
    (a : ChartRepositoriesArgs) (fuel : Nat) : ReadRun ChartRepositoriesOutput :=
  chartRepositoriesLoop c RpcPost budget pageSize a (chartRepositoriesRequest a) fuel 1 0 [] []

/-- The call `jsonpath.Get("$.a.b", response)`: `none` stands for its error
(a missing key, or a value under `a` that is not a map). -/
def jsonpathGet2 (response : Option GoMap) (a b : String) : Option Json :=
  match (response.getD []).lookup a with
  | some (Json.obj inner) => inner.lookup b
  | _ => none

/-- The arguments of `alicloud_pvtz_zone_records`; an optional argument is
`none` when `d.GetOk` reports it unset. -/
structure PvtzZoneRecordsArgs where
  zone_id : Json
  keyword : Option Json
  user_client_ip : Option Json
  tag : Option Json
  search_mode : Option Json
  lang : Option Json
  status : Option String
  ids : List (Option String)

/-- The map entry for an optional argument, if it is set. -/
def optionalEntry (key : String) : Option Json → GoMap
  | some v => [(key, v)]
  | none => []

/-- The request map of `dataSourceAliCloudPvtzZoneRecordsRead` with its
`PageNumber` entry holding `page`; the read starts with page 1. -/
def pvtzZoneRecordsRequest (a : PvtzZoneRecordsArgs) (pageSize : Nat) (page : Int) : GoMap :=
  [("PageSize", Json.int pageSize), ("PageNumber", Json.int page), ("ZoneId", a.zone_id)]
    ++ optionalEntry "Keyword" a.keyword
    ++ optionalEntry "UserClientIp" a.user_client_ip
    ++ optionalEntry "Tag" a.tag
    ++ optionalEntry "SearchMode" a.search_mode
    ++ optionalEntry "Lang" a.lang

/-- The test `statusOk && status.(string) != "" && status.(string) != item["Status"].(string)`;
the item's status is asserted to be a string only when the first two hold. -/
def pvtzStatusDiffers (a : PvtzZoneRecordsArgs) (item : GoMap) : Go Bool :=
  match a.status with
  | none => .ret false
  | some status =>
      if status ≠ "" then do
        let itemStatus ← (Json.index item "Status").asString
        pure (decide (status ≠ itemStatus))
      else .ret false

/-- The body of `for _, v := range result` for one item: whether the item is
appended to `objects`. -/
def pvtzRecordKept (a : PvtzZoneRecordsArgs) (v : Json) : Go (Option GoMap) := do
  let item ← v.asMap
  if (idsMapOf a.ids).length > 0 ∧ ¬ (Json.index item "RecordId").sprint ∈ idsMapOf a.ids then
    pure none
  else do
    let differs ← pvtzStatusDiffers a item
    if differs then pure none else pure (some item)

/-- The loop `for _, v := range result` appending the kept items to `objects`. -/
def pvtzRecordsAppend (a : PvtzZoneRecordsArgs) : List Json → List GoMap → Go (List GoMap)
  | [], objects => .ret objects
  | v :: rest, objects =>
      match pvtzRecordKept a v with
      | .panic => .panic
      | .ret none => pvtzRecordsAppend a rest objects
      | .ret (some item) => pvtzRecordsAppend a rest (objects ++ [item])

/-- The outputs set by `dataSourceAliCloudPvtzZoneRecordsRead`. -/
structure PvtzZoneRecordsOutput where
  ids : List String
  records : List GoMap

/-- The `mapping` built for one object; `formatInt` is a helper of `common.go`. -/
def pvtzRecordMapping (formatInt : Json → Json) (request : GoMap) (object : GoMap) : GoMap :=
  [("id", Json.str ((Json.index object "RecordId").sprint ++ ":"
      ++ (Json.index request "ZoneId").sprint)),
   ("record_id", Json.str (Json.index object "RecordId").sprint),
   ("priority", formatInt (Json.index object "Priority")),
   ("remark", Json.index object "Remark"),
   ("rr", Json.index object "Rr"),
   ("resource_record", Json.index object "Rr"),
   ("ttl", formatInt (Json.index object "Ttl")),
   ("type", Json.index object "Type"),
   ("value", Json.index object "Value"),
   ("status", Json.index object "Status")]

/-- The part of the read after the page loop: the two outputs. -/
def pvtzZoneRecordsOutput (formatInt : Json → Json) (request : GoMap)
    (objects : List GoMap) : PvtzZoneRecordsOutput where
  ids := objects.map fun object => (Json.index object "RecordId").sprint
  records := objects.map (pvtzRecordMapping formatInt request)

/-- The page loop of `dataSourceAliCloudPvtzZoneRecordsRead` followed by the
output section. `RpcPost n request` is what call number `n` to the API
answers, `budget` the number of attempts that fit in the retry timeout. The
state of the loop is `request`, the call counter, `objects` and the requests
sent so far. -/
def pvtzZoneRecordsLoop (c : Classifiers) (RpcPost : Nat → GoMap → Option GoMap × error)
    (budget : Nat) (formatInt : Json → Json) (a : PvtzZoneRecordsArgs) :
    (fuel : Nat) → (request : GoMap) → (call : Nat) → (objects : List GoMap) →
    (sent : List GoMap) → ReadRun PvtzZoneRecordsOutput
  | 0, _, _, _, sent => ⟨sent, none⟩
  | fuel + 1, request, call, objects, sent =>
      let r := Retry
        (fun e => c.IsExpectedErrors e ["System.Busy", "ServiceUnavailable"] || c.NeedRetry e)
        (fun n => RpcPost n request) budget call none none
      let sent := sent ++ List.replicate (r.next - call) request
      match r.err with
      | some err =>
          ⟨sent, some (.ret (none, WrapErrorf (some err) MsgTemplate.DataDefaultErrorMsg))⟩
      | none =>
          match jsonpathGet2 r.response "Records" "Record" with
          | none =>
              ⟨sent, some (.ret (none,
                WrapErrorf (some (GoError.text "unknown key")) MsgTemplate.FailedGetAttributeMsg))⟩
          | some resp =>
              let result := sliceOrNil resp
              match pvtzRecordsAppend a result objects with
              | .panic => ⟨sent, some .panic⟩
              | .ret objects =>
                  match (Json.index request "PageSize").asInt with
                  | .panic => ⟨sent, some .panic⟩
                  | .ret pageSize =>
                      if (result.length : Int) < pageSize then
                        ⟨sent, some (.ret
                          (some (pvtzZoneRecordsOutput formatInt request objects), none))⟩
                      else
                        match (Json.index request "PageNumber").asInt with
                        | .panic => ⟨sent, some .panic⟩
                        | .ret pageNumber =>
                            pvtzZoneRecordsLoop c RpcPost budget formatInt a fuel
                              (mapAssign request "PageNumber" (Json.int (pageNumber + 1)))
                              r.next objects sent

/-- `dataSourceAliCloudPvtzZoneRecordsRead`; `pageSize` is the constant
`PageSizeLarge`. -/
def dataSourceAliCloudPvtzZoneRecordsRead (c : Classifiers)
    (RpcPost : Nat → GoMap → Option GoMap × error) (budget pageSize : Nat)
    (formatInt : Json → Json) (a : PvtzZoneRecordsArgs) (fuel : Nat) :
    ReadRun PvtzZoneRecordsOutput :=
  pvtzZoneRecordsLoop c RpcPost budget formatInt a fuel (pvtzZoneRecordsRequest a pageSize 1)
    0 [] []

/-- Whether the `Status` field of a record is the string `status`. -/
def pvtzStatusIs (item : GoMap) (status : String) : Bool :=
  match Json.index item "Status" with
  | Json.str s => s == status
  | _ => false

/-- The filters of the zone-records read stated on their own: a record passes
the `ids` filter when `ids` names no record or names this one, and the
`status` filter when `status` is unset or is the record's status. -/
def pvtzPasses (a : PvtzZoneRecordsArgs) (item : GoMap) : Bool :=
  (idsMapOf a.ids = [] || (idsMapOf a.ids).contains (Json.index item "RecordId").sprint)
    && (a.status = none || a.status = some "" || pvtzStatusIs item (a.status.getD ""))

/-! ## ACK node pool refresh functions -/

/-- `AckServiceV2.DescribeAsyncDescribeTaskInfo`: what it returns and the paths
it requested. `id` is `d.Id()` and `taskId` is `res["task_id"]`; the error
assigned when the ID does not have two parts is overwritten by the result of
`resource.Retry`. -/
def DescribeAsyncDescribeTaskInfo (c : Classifiers)
    (RoaGet : Nat → String → Option GoMap × error) (budget : Nat) (id : String)
    (taskId : Json) : Option GoMap × error :=
  let parts := stringsSplitColon id
  let _err : error :=
    if parts.length ≠ 2 then WrapError (some (GoError.text ("invalid Resource Id " ++ id)))
    else none
  let action := "/tasks/" ++ taskId.sprint
  let r := Retry c.NeedRetry (fun n => RoaGet n action) budget 0 none none
  match r.err with
  | some err => (r.response, WrapErrorf (some err) MsgTemplate.DefaultErrorMsg)
  | none => (r.response, none)

/-- The status computed by the ACK refresh functions from `field` and `object`:
`fmt.Sprint` of the value under `field`, replaced by `#CHECKSET` when `field`
starts with `#` and the rest of it leads to a value that is not nil.
`jsonpathGet` is `jsonpath.Get`; its value is nil when it fails. -/
def ackCurrentStatus (jsonpathGet : String → Option GoMap → Json × error) (field : String)
    (object : Option GoMap) : String :=
  let currentStatus := (jsonpathGet field object).1.sprint
  match field.data with
  | '#' :: rest =>
      match (jsonpathGet (String.mk rest) object).1 with
      | Json.null => currentStatus
      | _ => "#CHECKSET"
  | _ => currentStatus

/-- A map returned as `interface{}`: the interface holds the map and is never
the nil interface, also when the map itself is nil; a nil map reads and prints
like an empty one. -/
def mapResult (object : Option GoMap) : Option Json := some (Json.obj (object.getD []))

/-- `AckServiceV2.AckNodepoolStateRefreshFunc`, as a function of what
`DescribeAckNodepool(id)` returns at this poll. -/
def AckNodepoolStateRefreshFunc (c : Classifiers)
    (jsonpathGet : String → Option GoMap → Json × error)
    (describe : Option GoMap × error) (field : String) (failStates : List String) :
    Refresh Json :=
  match describe with
  | (object, some err) =>
      if c.NotFoundError err then ⟨mapResult object, "", none⟩
      else ⟨none, "", WrapError (some err)⟩
  | (object, none) =>
      let currentStatus := ackCurrentStatus jsonpathGet field object
      failStateLoop (mapResult object) currentStatus
        (WrapError (Error ("FailedToReachTargetStatus " ++ currentStatus))) failStates

/-- The loop over `failStates` of `DescribeAsyncAckNodepoolStateRefreshFunc`: on
the first fail state equal to the current status it returns the `error` entry
of the object, if there is one, instead of the object. -/
def asyncFailStateLoop (object : Option GoMap) (currentStatus : String) :
    List String → Refresh Json
  | [] => ⟨mapResult object, currentStatus, none⟩
  | failState :: rest =>
      if currentStatus = failState then
        match (object.getD []).lookup "error" with
        | some _err =>
            ⟨some _err, currentStatus,
              WrapError (Error ("FailedToReachTargetStatus " ++ currentStatus))⟩
        | none =>
            ⟨mapResult object, currentStatus,
              WrapError (Error ("FailedToReachTargetStatus " ++ currentStatus))⟩
      else asyncFailStateLoop object currentStatus rest

/-- `AckServiceV2.DescribeAsyncAckNodepoolStateRefreshFunc`, as a function of
what `DescribeAsyncDescribeTaskInfo(d, res)` returns at this poll. The block
`if err != nil` returns only for a not-found error; after any other error
execution goes on with the object that came with it. -/
def DescribeAsyncAckNodepoolStateRefreshFunc (c : Classifiers)
    (jsonpathGet : String → Option GoMap → Json × error)
    (describe : Option GoMap × error) (field : String) (failStates : List String) :
    Refresh Json :=
  let notFound : Bool :=
    match describe.2 with
    | some err => c.NotFoundError err
    | none => false
  if notFound then ⟨mapResult describe.1, "", none⟩
  else
    let object := describe.1
    let currentStatus := ackCurrentStatus jsonpathGet field object
    asyncFailStateLoop object currentStatus failStates


/-! ## Cluster network addon -/

/-- The variable `NETWORK_ADDON_NAMES`. -/
def NETWORK_ADDON_NAMES : List String :=
  ["terway", "kube-flannel-ds", "terway-eni", "terway-eniip"]

/-- The loop `for _, name := range NETWORK_ADDON_NAMES` of
`GetKubernetesNetworkName` and the error after it. -/
def networkNameLoop (metadata : GoMap) : List String → String × error
  | [] => ("", some (GoError.text "no network addon found"))
  | name :: rest =>
      if (metadata.lookup (name ++ "Version")).isSome then (name, none)
      else networkNameLoop metadata rest

/-- `GetKubernetesNetworkName`. `jsonUnmarshal text` is the map that
`json.Unmarshal([]byte(text), &metadata)` fills, starting from an empty map, or
`none` when it reports an error. -/
def GetKubernetesNetworkName (jsonUnmarshal : String → Option GoMap)
    (cluster : Option KubernetesClusterDetail) : Go (String × error) :=
  match cluster with
  | none => .panic
  | some cluster =>
      match jsonUnmarshal cluster.MetaData with
      | none => .ret ("", some (GoError.text "unmarshal metaData failed"))
      | some metadata => .ret (networkNameLoop metadata NETWORK_ADDON_NAMES)


/-! ## Dashboard charts -/

/-- The fields of `sls.Chart` that `GetCharTitile` reads; `DisplayName` is
`Display.DisplayName`. -/
structure Chart where
  Title : String
  DisplayName : String
  deriving DecidableEq, Repr

/-- The loop `for _, v := range board.ChartList` of `GetCharTitile` and the
`return char` after it: both branches of the loop body return. -/
def charTitleLoop (char : String) : List Chart → String
  | [] => char
  | v :: _ => if v.DisplayName = char then v.Title else char

/-- `GetCharTitile`, as a function of what `client.GetDashboard(project, dashboard)`
returns: the chart list of the board, and the error. -/
def GetCharTitile (getDashboard : Option (List Chart) × error) (char : String) : Go String :=
  match getDashboard with
  | (_, some _) => .ret char
  | (none, none) => .panic
  | (some chartList, none) => .ret (charTitleLoop char chartList)


/-! ## Cluster tokens -/

/-- The fields of `cs.ClusterTokenResponse` that `GetPermanentToken` reads. -/
structure ClusterTokenResponse where
  Token : String
  Expired : Int
  IsActive : Int
  deriving DecidableEq, Repr

/-- The loop over `tokens` of `GetPermanentToken`: `permanentTokens` after it,
which holds the first token that has not expired and is active, if any (the
loop breaks after appending it). -/
def permanentTokensLoop : List ClusterTokenResponse → List String
  | [] => []
  | token :: rest =>
      if token.Expired = 0 ∧ token.IsActive = 1 then [token.Token]
      else permanentTokensLoop rest

/-- What a call of `GetPermanentToken` leaves behind: the `IsPermanently` flag
of every `CreateClusterToken` request it made, and what it returned. -/
structure TokenRun where
  creates : List Bool
  out : String × error

/-- `CsService.GetPermanentToken`. `describeClusterTokens` is what
`DescribeClusterTokens` returns and `createClusterToken isPermanently` what
`CreateClusterToken` returns; a value of `none` stands for a response that the
type assertion on it rejects. -/
def GetPermanentToken (describeClusterTokens : Option (List ClusterTokenResponse) × error)
    (createClusterToken : Bool → Option ClusterTokenResponse × error) : TokenRun :=
  match describeClusterTokens with
  | (_, some _) =>
      ⟨[], ("", WrapError (some (GoError.text "failed to get permanent token")))⟩
  | (none, none) =>
      ⟨[], ("", WrapError (some (GoError.text "failed to parse ClusterTokenResponse")))⟩
  | (some tokens, none) =>
      let permanentTokens := permanentTokensLoop tokens
      if permanentTokens.length = 0 then
        match createClusterToken true with
        | (_, some _) =>
            ⟨[true], ("", WrapError (some (GoError.text "failed to create permanent token")))⟩
        | (none, none) =>
            ⟨[true], ("", WrapError (some (GoError.text "failed to parse token")))⟩
        | (some token, none) => ⟨[true], (token.Token, none)⟩
      else ⟨[], (permanentTokens.headD "", none)⟩


/-! ## Container applications -/

/-- The call `strings.ToLower(s)`: the letters `A` to `Z` are mapped to `a` to
`z`, the other ASCII characters stay, and a character beyond ASCII is mapped by
`unicodeLower`, which stands for `unicode.ToLower`. -/
def stringsToLower (unicodeLower : Char → Char) (s : String) : String :=
  String.mk (s.data.map fun ch => if ch.val < 128 then ch.toLower else unicodeLower ch)

/-- Modelled from the spec: `GetTimeErrorFromString` of `errors.go` is not among
the sources; it builds the non-nil timeout error carrying the given message. -/
def GetTimeErrorFromString (msg : String) : error := some (GoError.text msg)

/-- The fields of `cs.GetProjectResponse` that the modelled code reads. -/
structure GetProjectResponse where
  Name : String
  CurrentState : String
  deriving DecidableEq, Repr

/-- The timeout error of `WaitForContainerApplication`. -/
def containerApplicationTimeout (status currentState : String) : error :=
  GetTimeErrorFromString ("Waitting for container application " ++ status
    ++ " is timeout and current status is " ++ currentState ++ ".")

/-- The loop of `CsService.WaitForContainerApplication` from poll `i` on, with
`timeout` as it stands at that point: the error returned and the number of
`DescribeContainerApplication` calls made, or `none` when `fuel` polls were not
enough. `describe i` is what the describe call of poll `i` returns and
`interval` is the constant `DefaultIntervalShort`. -/
def waitForContainerApplicationLoop (unicodeLower : Char → Char) (interval : Int)
    (status : String) (describe : Nat → GetProjectResponse × error) :
    (fuel : Nat) → (i : Nat) → (timeout : Int) → Option (error × Nat)
  | 0, _, _ => none
  | fuel + 1, i, timeout =>
      match describe i with
      | (_, some err) => some (some err, i + 1)
      | (app, none) =>
          if stringsToLower unicodeLower app.CurrentState = stringsToLower unicodeLower status
          then some (none, i + 1)
          else
            let timeout := timeout - interval
            if timeout ≤ 0 then
              some (containerApplicationTimeout status app.CurrentState, i + 1)
            else
              waitForContainerApplicationLoop unicodeLower interval status describe fuel
                (i + 1) timeout

/-- `CsService.WaitForContainerApplication`; `DefaultTimeout` and
`DefaultIntervalShort` are the constants of `common.go`. -/
def WaitForContainerApplication (unicodeLower : Char → Char)
    (DefaultTimeout DefaultIntervalShort : Int) (status : String)
    (describe : Nat → GetProjectResponse × error) (timeout : Int) (fuel : Nat) :
    Option (error × Nat) :=
  let timeout := if timeout ≤ 0 then DefaultTimeout else timeout
  waitForContainerApplicationLoop unicodeLower DefaultIntervalShort status describe fuel 0
    timeout

/-- The timeout in effect: `DefaultTimeout` when the argument is not positive. -/
def effectiveTimeout (DefaultTimeout timeout : Int) : Int :=
  if timeout ≤ 0 then DefaultTimeout else timeout

/-- The quotient of `a` by `b` rounded up, for positive `b`. -/
def ceilDiv (a b : Int) : Nat := ((a + b - 1) / b).toNat

/-- A poll of `WaitForContainerApplication` that succeeds without showing the
awaited status. -/
def stillWaiting (unicodeLower : Char → Char) (status : String)
    (poll : GetProjectResponse × error) : Prop :=
  poll.2 = none ∧
    stringsToLower unicodeLower poll.1.CurrentState ≠ stringsToLower unicodeLower status


/-! ## Addon description -/

/-- `CsClient.DescribeClusterAddonsMetadata`. `DescribeClusterAddonsVersion n`
is what attempt `n` of the API call answers; `decodeComponent addon` is the
component obtained by `json.Marshal` followed by `json.Unmarshal` into a
`Component`, or `none` when either step fails, in which case the entry is
left out. The result map is kept as the list of its entries. -/
def DescribeClusterAddonsMetadata (c : Classifiers)
    (DescribeClusterAddonsVersion : Nat → Option GoMap × error)
    (decodeComponent : Json → Option Component) (budget : Nat) :
    Go (Option (List (String × Component)) × error) :=
  let r := Retry c.NeedRetry DescribeClusterAddonsVersion budget 0 none none
  match r.err with
  | some err => .ret (none, WrapErrorf (some err) MsgTemplate.DefaultErrorMsg)
  | none =>
      match r.response with
      | none => .panic
      | some body =>
          .ret (some (body.filterMap fun entry =>
            (decodeComponent entry.2).map fun component => (entry.1, component)), none)

/-- The block `// Update some fields` of `DescribeCsKubernetesAddon`: five
fields of the metadata entry are assigned, from the addon status and the addon
instance. -/
def updateSomeFields (addon addonStatus addonInstance : Component) : Component :=
  { addon with
    Version := addonStatus.Version
    Status := addonStatus.Status
    CanUpgrade := addonStatus.CanUpgrade
    ErrMessage := addonStatus.ErrMessage
    Config := addonInstance.Config }

/-- `CsClient.DescribeCsKubernetesAddon`. -/
def DescribeCsKubernetesAddon (c : Classifiers) (api : CsAddonApi)
    (DescribeClusterAddonsVersion : Nat → Option GoMap × error)
    (decodeComponent : Json → Option Component) (budget : Nat) (id : String) :
    Go (Option Component × error) :=
  match ParseResourceId id 2 with
  | (_, some err) => .ret (none, WrapError (some err))
  | (parts, none) =>
      let addonName := parts.getD 1 ""
      match DescribeCsKubernetesAddonInstance c api budget addonName with
      | .panic => .panic
      | .ret (_, some err) =>
          if c.IsExpectedErrors err ["AddonNotFound", "ErrorClusterNotFound"]
              || c.NotFoundError err then
            .ret (none, WrapErrorf (NotFoundErr "alicloud_cs_kubernetes_addon" id)
              MsgTemplate.ResourceNotfound)
          else .ret (none, some err)
      | .ret (addonInstance, none) =>
          match DescribeClusterAddonsMetadata c DescribeClusterAddonsVersion decodeComponent
              budget with
          | .panic => .panic
          | .ret (_, some err) => .ret (none, some err)
          | .ret (addonsMetadata, none) =>
              match DescribeCsKubernetesAddonStatus c api budget addonName with
              | .panic => .panic
              | .ret (_, some err) => .ret (none, some err)
              | .ret (addonStatus, none) =>
                  match (addonsMetadata.getD []).lookup addonName with
                  | some addon =>
                      match addonStatus, addonInstance with
                      | some addonStatus, some addonInstance =>
                          .ret (some (updateSomeFields addon addonStatus addonInstance), none)
                      | _, _ => .panic
                  | none =>
                      .ret (none, WrapErrorf (NotFoundErr "alicloud_cs_kubernetes_addon" id)
                        MsgTemplate.ResourceNotfound)


/-! ## Sweeper of resource groups -/

/-- The call `strings.HasPrefix(s, p)`. -/
def stringsStartsWith (s p : String) : Bool := p.data.isPrefixOf s.data

/-- The name prefixes that `testSweepResourceManagerResourceGroup` sweeps. -/
def sweepPrefixes : List String := ["tf-", "tf-rd", "tf-testacc"]

/-- The loop over the prefixes: `skip` becomes false when the lower-cased name
starts with a lower-cased prefix, and is never set back. -/
def sweepSkipLoop (unicodeLower : Char → Char) (name : String) : List String → Bool → Bool
  | [], skip => skip
  | pre :: rest, skip =>
      if stringsStartsWith (stringsToLower unicodeLower name) (stringsToLower unicodeLower pre)
      then sweepSkipLoop unicodeLower name rest false
      else sweepSkipLoop unicodeLower name rest skip

/-- The body of `for _, v := range result` in the listing loop of the sweeper,
acting on `groupIds` and `defaultGroupId`; `sweepAll` is the value of `sweepAll()`. -/
def sweepGroupItem (sweepAll : Bool) (unicodeLower : Char → Char) (v : Json)
    (state : List String × String) : Go (List String × String) := do
  let item ← v.asMap
  let name ← (Json.index item "Name").asString
  if name = "default" then
    let id ← (Json.index item "Id").asString
    pure (state.1, id)
  else do
    let status ← (Json.index item "Status").asString
    if status ≠ "OK" then pure state
    else if !sweepAll && sweepSkipLoop unicodeLower name sweepPrefixes true then pure state
    else do
      let id ← (Json.index item "Id").asString
      pure (state.1 ++ [id], state.2)

/-- The loop `for _, v := range result` of the listing loop. -/
def sweepGroupItems (sweepAll : Bool) (unicodeLower : Char → Char) :
    List Json → List String × String → Go (List String × String)
  | [], state => .ret state
  | v :: rest, state =>
      match sweepGroupItem sweepAll unicodeLower v state with
      | .panic => .panic
      | .ret state => sweepGroupItems sweepAll unicodeLower rest state

/-- The request of the listing loop with its `PageNumber` entry holding `page`. -/
def sweepListRequest (pageSize : Nat) (page : Int) : GoMap :=
  [("PageSize", Json.int pageSize), ("PageNumber", Json.int page)]

/-- How the listing loop of the sweeper ends: the function returns (nil after a
failed `ListResourceGroups` call, an error when the response has no group
list), it panics, or the loop is left with the groups selected for deletion
and the ID of the default group. -/
inductive SweepListing where
  | returned (err : error)
  | panicked
  | listed (groupIds : List String) (defaultGroupId : String)

/-- The listing loop of `testSweepResourceManagerResourceGroup`: `RpcPost n request`
is what call number `n` answers, `pageSize` the constant `PageSizeLarge`;
`none` when `fuel` pages were not enough. -/
def sweepListGroups (sweepAll : Bool) (unicodeLower : Char → Char)
    (RpcPost : Nat → GoMap → Option GoMap × error) (pageSize : Nat) :
    (fuel : Nat) → (request : GoMap) → (call : Nat) → (state : List String × String) →
    Option SweepListing
  | 0, _, _, _ => none
  | fuel + 1, request, call, state =>
      match RpcPost call request with
      | (_, some _) => some (.returned none)
      | (response, none) =>
          match jsonpathGet2 response "ResourceGroups" "ResourceGroup" with
          | none =>
              some (.returned (WrapErrorf (some (GoError.text "unknown key"))
                MsgTemplate.FailedGetAttributeMsg))
          | some resp =>
              let result := sliceOrNil resp
              match sweepGroupItems sweepAll unicodeLower result state with
              | .panic => some .panicked
              | .ret state =>
                  if result.length < pageSize then some (.listed state.1 state.2)
                  else
                    match (Json.index request "PageNumber").asInt with
                    | .panic => some .panicked
                    | .ret pageNumber =>
                        sweepListGroups sweepAll unicodeLower RpcPost pageSize fuel
                          (mapAssign request "PageNumber" (Json.int (pageNumber + 1)))
                          (call + 1) state

/-- The string under `key` of a map, empty when there is none. -/
def stringField (item : GoMap) (key : String) : String :=
  match Json.index item key with
  | Json.str s => s
  | _ => ""

/-- The groups that the sweeper is meant to delete: not the group named
`default`, only groups with status `OK`, and, unless everything is swept, only
groups whose lower-cased name starts with `tf-`. -/
def sweepSelected (sweepAll : Bool) (unicodeLower : Char → Char) (item : GoMap) : Bool :=
  stringField item "Name" != "default" && stringField item "Status" == "OK"
    && (sweepAll
        || stringsStartsWith (stringsToLower unicodeLower (stringField item "Name")) "tf-")

/-- The call `delete(m, key)`. -/
def mapDelete (m : GoMap) (key : String) : GoMap :=
  m.filter fun entry => entry.1 ≠ key

/-- The resource as it is put into a `MoveResources` request: without its
`CreateDate` and `ResourceGroupId` entries. -/
def movedResource (r : GoMap) : Json :=
  Json.obj (mapDelete (mapDelete r "CreateDate") "ResourceGroupId")

/-- The `MoveResources` request for a batch of resources. -/
def moveResourcesRequest (defaultGroupId : String) (resources : List Json) : GoMap :=
  [("ResourceGroupId", Json.str defaultGroupId), ("Resources", Json.arr resources)]

/-- The loop `for i, item := range ...["Resource"].([]interface{})` of the
sweeper over the `total` resources of a group, from index `i` on, with the
batch `resources` as the previous round left it: the `MoveResources` requests
handed to `resource.Retry`, in order, and whether the loop ran through or
panicked on an item that is not a map. -/
def moveResourcesLoop (defaultGroupId : String) (total : Nat) :
    (i : Nat) → List Json → (resources : List Json) → List GoMap × Go Unit
  | _, [], _ => ([], .ret ())
  | i, item :: rest, resources =>
      match item.asMap with
      | .panic => ([], .panic)
      | .ret r =>
          let resources :=
            if resources.length ≥ 10 then [movedResource r]
            else resources ++ [movedResource r]
          if resources.length ≠ 10 ∧ i ≠ total - 1 then
            moveResourcesLoop defaultGroupId total (i + 1) rest resources
          else
            let later := moveResourcesLoop defaultGroupId total (i + 1) rest resources
            (moveResourcesRequest defaultGroupId resources :: later.1, later.2)

/-- The `MoveResources` requests that the sweeper makes for the resources
listed for one group. -/
def sweepMoveResources (defaultGroupId : String) (items : List Json) : List GoMap × Go Unit :=
  moveResourcesLoop defaultGroupId items.length 0 items []


/-! ## Filter of the chart repository listing -/

/-- The composite ID of a listed chart repository:
`InstanceId + ":" + RepoNamespaceName + ":" + RepoName`. -/
def chartRepositoryId (item : GoMap) : String :=
  Sprint3 (Json.index item "InstanceId") (Json.index item "RepoNamespaceName")
    (Json.index item "RepoName")

/-- The filter of the chart repository listing stated on its own: an item is
kept when `name_regex` is unset or matches its `RepoName`, and `ids` names no
repository (nil elements of `ids` are not IDs) or names this one by its
composite ID. -/
def chartRepositoryPasses (a : ChartRepositoriesArgs) (item : GoMap) : Bool :=
  (match a.name_regex with
    | some nameRegex => nameRegex (Json.index item "RepoName").sprint
    | none => true)
  && (idsMapOf a.ids = [] || (idsMapOf a.ids).contains (chartRepositoryId item))


/-- When a record's `Status` can be compared by the zone-records read: always
when no status filter is set, and otherwise when the `Status` is a string. -/
def pvtzStatusReadable (a : PvtzZoneRecordsArgs) (item : GoMap) : Prop :=
  a.status = none ∨ a.status = some "" ∨ ∃ s, Json.index item "Status" = Json.str s


/-! ## Sample inputs -/

/-- The error `DescribeCsKubernetesAddonInstance` builds for a missing addon
called `nginx`. -/
def sampleAddonNotFound : GoError :=
  GoError.complex (GoError.text "ResourceNotfound alicloud_cs_kubernetes_addon nginx")
    (some MsgTemplate.ResourceNotfound)

/-- An API whose `DescribeClusterAddonInstance` always answers `AddonNotFound`. -/
def sampleAddonApiNotFound : CsAddonApi where
  DescribeClusterAddonInstance := fun _ => (none, some (GoError.sdk "AddonNotFound" ""))
  DescribeClusterAddonsUpgradeStatus := fun _ => (some [], none)

/-- Resource data of a shared resource about to be created. -/
def sampleSharedResourceData : ResourceData where
  Id := ""
  IsNewResource := true
  attrs := fun k =>
    if k = "resource_id" then Json.str "vsw-1"
    else if k = "resource_share_id" then Json.str "rs-1"
    else if k = "resource_type" then Json.str "VSwitch"
    else Json.null

/-- An API that throttles the first `AssociateResourceShare` attempt and
rejects the second one. -/
def sampleSharedResourceApiRejecting : SharedResourceApi where
  RpcPost := fun n _ =>
    if n = 0 then (none, some (GoError.sdk "Throttling" ""))
    else (none, some (GoError.sdk "Forbidden" ""))
  WaitForState := fun _ => none
  DescribeResourceManagerSharedResource := fun _ => ([], none)

/-- Arguments of a chart repository listing without filters. -/
def sampleChartRepositoriesArgs : ChartRepositoriesArgs where
  instance_id := Json.str "cri-1"
  RegionId := "cn-hangzhou"
  ids := []
  name_regex := none

/-- An API that answers the first `ListChartRepository` call with a full page of
50 repositories and every later call with an empty page. -/
def sampleChartRepositoriesApi : Nat → GoMap → Option GoMap × error :=
  fun n _ =>
    if n = 0 then
      (some [("Repositories",
        Json.arr (List.replicate 50 (Json.obj [("RepoName", Json.str "repo")])))], none)
    else (some [("Repositories", Json.arr [])], none)

/-- Arguments of a zone-records listing that keeps the records with status
`ENABLE` among the records 1 and 2; the first element of `ids` is nil. -/
def samplePvtzArgs : PvtzZoneRecordsArgs where
  zone_id := Json.str "zone-1"
  keyword := none
  user_client_ip := none
  tag := none
  search_mode := none
  lang := none
  status := some "ENABLE"
  ids := [none, some "1", some "2"]

/-- A zone record with the given ID and status. -/
def samplePvtzRecord (id status : String) : GoMap :=
  [("RecordId", Json.num id), ("Status", Json.str status), ("Rr", Json.str ("host" ++ id)),
   ("Value", Json.str ("10.0.0." ++ id))]

/-- The records of a zone, by page, for a page size of 2: a full page and a
short one. -/
def samplePvtzPages (j : Nat) : List GoMap :=
  if j = 1 then [samplePvtzRecord "1" "ENABLE", samplePvtzRecord "2" "DISABLE"]
  else if j = 2 then [samplePvtzRecord "3" "ENABLE"]
  else []

/-- An API that serves `samplePvtzPages` according to the `PageNumber` of the request. -/
def samplePvtzApi : Nat → GoMap → Option GoMap × error :=
  fun _ request =>
    match Json.index request "PageNumber" with
    | Json.int page =>
        (some [("Records", Json.obj
          [("Record", Json.arr ((samplePvtzPages page.toNat).map Json.obj))])], none)
    | _ => (none, some (GoError.sdk "InvalidParameter" ""))

/-- A sequence of describe results: two polls find the project still being
created under another name, the third finds it. -/
def sampleLogPolls (i : Nat) : Option LogProject × error :=
  if i < 2 then (some { Name := "pending" }, none) else (some { Name := "proj" }, none)

/-- Resource data of a ciphertext about to be created. -/
def sampleCiphertextData : ResourceData where
  Id := ""
  IsNewResource := true
  attrs := fun k =>
    if k = "plaintext" then Json.str "secret"
    else if k = "key_id" then Json.str "key-1"
    else if k = "encryption_context" then Json.obj []
    else Json.null

/-- An `Encrypt` API that answers every call with a ciphertext blob. -/
def sampleEncryptApi : Nat → GoMap → Option GoMap × error :=
  fun _ _ => (some [("CiphertextBlob", Json.str "blob")], none)

/-- A node pool API that answers every request with a node pool description. -/
def sampleNodepoolApi : Nat → String → Option GoMap × error :=
  fun _ _ => (some [("nodepool_info", Json.obj [("name", Json.str "default")])], none)

/-- A `jsonpath.Get` for paths of the form `$.key`. -/
def sampleJsonpathGet (path : String) (object : Option GoMap) : Json × error :=
  match path.data with
  | '$' :: '.' :: key =>
      match (object.getD []).lookup (String.mk key) with
      | some v => (v, none)
      | none => (Json.null, some (GoError.text "unknown key"))
  | _ => (Json.null, some (GoError.text "parsing error"))

/-- A task API that rejects every request. -/
def sampleTaskApiForbidden : Nat → String → Option GoMap × error :=
  fun _ _ => (none, some (GoError.sdk "Forbidden" ""))


/-- The metadata text of a cluster with the version keys of two network addons. -/
def sampleMetaData : String :=
  "\x7b\"terway-eniVersion\":\"1\",\"kube-flannel-dsVersion\":\"2\"\x7d"

/-- A `json.Unmarshal` that knows two texts and rejects every other one. -/
def sampleJsonUnmarshal (text : String) : Option GoMap :=
  if text = sampleMetaData then
    some [("terway-eniVersion", Json.str "1"), ("kube-flannel-dsVersion", Json.str "2")]
  else if text = "{}" then some []
  else none


/-- An API whose addon instance has no state yet and whose upgrade status
reports version 1.2 of `nginx` as running. -/
def sampleAddonApiNoState : CsAddonApi where
  DescribeClusterAddonInstance := fun n =>
    if n = 0 then (none, some (GoError.sdk "Throttling" ""))
    else (some ⟨some "nginx", some "1.2", none, none⟩, none)
  DescribeClusterAddonsUpgradeStatus := fun _ =>
    (some [("nginx", Json.obj
      [("addon_info", Json.obj [("version", Json.str "1.2")]),
       ("can_upgrade", Json.bool false),
       ("tasks", Json.obj [("status", Json.str "running")])])], none)


/-- An API whose describe call reports that the shared resource is gone. -/
def sampleSharedResourceApiGone : SharedResourceApi where
  RpcPost := fun _ _ => (none, some (GoError.sdk "Forbidden" ""))
  WaitForState := fun _ => none
  DescribeResourceManagerSharedResource := fun _ => ([], some sampleAddonNotFound)

/-- Resource data of a shared resource that is already in the state. -/
def sampleSharedResourceStored : ResourceData where
  Id := "rs-1:vsw-1:VSwitch"
  IsNewResource := false
  attrs := fun _ => Json.null


/-- Polls of a container application that shows `Running` from the third poll on. -/
def sampleApplicationPolls (i : Nat) : GetProjectResponse × error :=
  if i < 2 then (⟨"app", "starting"⟩, none) else (⟨"app", "Running"⟩, none)


/-- An API whose addon instance of `nginx` is running with configuration `cfg`
and whose upgrade status reports version 1.2 as running. -/
def sampleAddonApiRunning : CsAddonApi where
  DescribeClusterAddonInstance := fun _ =>
    (some ⟨some "nginx", some "1.1", some "active", some "cfg"⟩, none)
  DescribeClusterAddonsUpgradeStatus := fun _ =>
    (some [("nginx", Json.obj
      [("addon_info", Json.obj [("version", Json.str "1.2")]),
       ("can_upgrade", Json.bool true),
       ("tasks", Json.obj [("status", Json.str "running")])])], none)

/-- A decoder of addon metadata that reads the name and the next version. -/
def sampleDecodeComponent (addon : Json) : Option Component :=
  match addon with
  | Json.obj fields =>
      some { ComponentName := (Json.index fields "component_name").sprint
             NextVersion := (Json.index fields "next_version").sprint
             Required := true }
  | _ => none

/-- A version API that lists the addon `nginx` with next version 1.3. -/
def sampleAddonsVersionApi : Nat → Option GoMap × error :=
  fun _ => (some [("nginx", Json.obj
    [("component_name", Json.str "nginx"), ("next_version", Json.str "1.3")])], none)


/-- A resource group as the API lists it. -/
def sampleGroup (id name status : String) : GoMap :=
  [("Id", Json.str id), ("Name", Json.str name), ("Status", Json.str status)]

/-- The resource groups of an account, by page: a single short page. -/
def sampleGroupPages (j : Nat) : List GoMap :=
  if j = 1 then
    [sampleGroup "rg-1" "default" "OK", sampleGroup "rg-2" "TF-TestAcc1" "OK",
     sampleGroup "rg-3" "prod" "OK", sampleGroup "rg-4" "tf-old" "Deleting"]
  else []

/-- An API that serves `sampleGroupPages` according to the `PageNumber` of the request. -/
def sampleGroupsApi : Nat → GoMap → Option GoMap × error :=
  fun _ request =>
    match Json.index request "PageNumber" with
    | Json.int page =>
        (some [("ResourceGroups", Json.obj
          [("ResourceGroup", Json.arr ((sampleGroupPages page.toNat).map Json.obj))])], none)
    | _ => (none, some (GoError.sdk "InvalidParameter" ""))


/-- Twelve resources of a group, as `ListResources` lists them. -/
def sampleResources : List GoMap :=
  (List.range 12).map fun i =>
    [("ResourceId", Json.int i), ("CreateDate", Json.str "2024-01-01"),
     ("ResourceGroupId", Json.str "rg-2")]


/-- A chart repository of instance `cri-1` in namespace `ns`. -/
def sampleChartRepository (name : String) : GoMap :=
  [("InstanceId", Json.str "cri-1"), ("RepoNamespaceName", Json.str "ns"),
   ("RepoName", Json.str name), ("RepoId", Json.str ("id-" ++ name))]

/-- The responses of a chart repository listing, by call, for a page size of 2:
a full page and a short one. -/
def sampleChartPages (n : Nat) : List GoMap :=
  if n = 0 then [sampleChartRepository "app1", sampleChartRepository "app2"]
  else if n = 1 then [sampleChartRepository "app3"]
  else []

/-- An API that answers call `n` with `sampleChartPages n`. -/
def sampleChartPagesApi : Nat → GoMap → Option GoMap × error :=
  fun n _ => (some [("Repositories", Json.arr ((sampleChartPages n).map Json.obj))], none)

/-- Arguments of a chart repository listing that names two repositories, after
a nil element, and accepts names of four characters. -/
def sampleChartFilterArgs : ChartRepositoriesArgs where
  instance_id := Json.str "cri-1"
  RegionId := "cn-hangzhou"
  ids := [none, some "cri-1:ns:app1", some "cri-1:ns:app3"]
  name_regex := some fun name => name.length == 4


/-- An API that throttles the first `AssociateResourceShare` attempt, accepts
the second one and then reports the association of `vsw-1` to `rs-1`. -/
def sampleSharedResourceApiAccepting : SharedResourceApi where
  RpcPost := fun n _ =>
    if n = 0 then (none, some (GoError.sdk "Throttling" ""))
    else
      (some [("ResourceShareAssociations", Json.arr
        [Json.obj [("ResourceShareId", Json.str "rs-1"), ("EntityId", Json.str "vsw-1"),
                   ("EntityType", Json.str "VSwitch")]])], none)
  WaitForState := fun _ => none
  DescribeResourceManagerSharedResource := fun _ =>
    ([("AssociationStatus", Json.str "Associated")], none)

/-- Resource data of a new resource whose attributes are not set yet. -/
def sampleSharedResourceBlank : ResourceData where
  Id := ""
  IsNewResource := true
  attrs := fun _ => Json.null


/-! # Theorems -/

/-- The fail-state loop keeps the object and the current state. -/
theorem failStateLoop_result {α : Type} (object : Option α) (current : String)
    (onFail : error) (failStates : List String) :
    (failStateLoop object current onFail failStates).result = object ∧
      (failStateLoop object current onFail failStates).state = current := by
  induction failStates with
  | nil => simp [failStateLoop]
  | cons f rest ih =>
      unfold failStateLoop
      split
      · simp
      · exact ih

/-- The fail-state loop reports `onFail` exactly when the current state is one
of the fail states. -/
theorem failStateLoop_err {α : Type} (object : Option α) (current : String)
    (onFail : error) (failStates : List String) :
    (failStateLoop object current onFail failStates).err =
      if current ∈ failStates then onFail else none := by
  induction failStates with
  | nil => simp [failStateLoop]
  | cons f rest ih =>
      unfold failStateLoop
      by_cases h : current = f
      · simp [h]
      · simp [h, ih]

/-- C1: for every cluster id, every list of fail states and every successful
describe result with state `s`, the refresh function returns the described
object and the status `s`, and its error is non-nil exactly when `s` is one of
the fail states. -/
theorem CsKubernetesInstanceStateRefreshFunc_success (c : Classifiers)
    (describe : String → Option KubernetesClusterDetail × error) (id : String)
    (failStates : List String) (object : KubernetesClusterDetail)
    (h : describe id = (some object, none)) :
    ∃ r, CsKubernetesInstanceStateRefreshFunc c describe id failStates = Go.ret r ∧
      r.result = some object ∧ r.state = object.State ∧
      (r.err ≠ none ↔ object.State ∈ failStates) := by
  have hrun : CsKubernetesInstanceStateRefreshFunc c describe id failStates =
      Go.ret (failStateLoop (some object) object.State
        (WrapError (Error ("FailedToReachTargetStatus " ++ object.State))) failStates) := by
    simp only [CsKubernetesInstanceStateRefreshFunc, h]
  refine ⟨_, hrun, ?_, ?_, ?_⟩
  · exact (failStateLoop_result _ _ _ _).1
  · exact (failStateLoop_result _ _ _ _).2
  · rw [failStateLoop_err]
    by_cases hm : object.State ∈ failStates <;> simp [hm, WrapError, Error]

/-- C1 at a concrete cluster: state `failed` with fail states `deleting`, `failed`. -/
theorem CsKubernetesInstanceStateRefreshFunc_success_witness :
    ∃ r, CsKubernetesInstanceStateRefreshFunc sampleClassifiers
        (fun id => (some ⟨id, "demo", "failed", ""⟩, none)) "c-1" ["deleting", "failed"]
        = Go.ret r ∧
      r.result = some ⟨"c-1", "demo", "failed", ""⟩ ∧
      r.state = (⟨"c-1", "demo", "failed", ""⟩ : KubernetesClusterDetail).State ∧
      (r.err ≠ none ↔
        (⟨"c-1", "demo", "failed", ""⟩ : KubernetesClusterDetail).State
          ∈ ["deleting", "failed"]) :=
  CsKubernetesInstanceStateRefreshFunc_success sampleClassifiers
    (fun id => (some ⟨id, "demo", "failed", ""⟩, none)) "c-1" ["deleting", "failed"]
    ⟨"c-1", "demo", "failed", ""⟩ rfl

/-- C7: when the describe call fails with error `err`, each of the four refresh
functions returns a nil object and the empty status; the error it returns is
nil when `err` is a not-found error and non-nil otherwise. -/
theorem refreshFunc_describe_error (c : Classifiers) (failStates : List String)
    (id clusterId addonName : String) (err : GoError) :
    (∀ describe object, describe id = (object, some err) →
      ∃ r, CsKubernetesInstanceStateRefreshFunc c describe id failStates = Go.ret r ∧
        r.result = none ∧ r.state = "" ∧ (r.err = none ↔ c.NotFoundError err = true)) ∧
    (∀ describe object, describe id = (object, some err) →
      ∃ r, CsKubernetesNodePoolStateRefreshFunc c describe id failStates = Go.ret r ∧
        r.result = none ∧ r.state = "" ∧ (r.err = none ↔ c.NotFoundError err = true)) ∧
    (∀ api budget object,
      DescribeCsKubernetesAddonInstance c api budget addonName = Go.ret (object, some err) →
      ∃ r, CsKubernetesAddonStateRefreshFunc c api budget clusterId addonName failStates
          = Go.ret r ∧
        r.result = none ∧ r.state = "" ∧ (r.err = none ↔ c.NotFoundError err = true)) ∧
    (∀ describe object, describe id = (object, some err) →
      ∃ r, LogProjectStateRefreshFunc c describe id failStates = Go.ret r ∧
        r.result = none ∧ r.state = "" ∧ (r.err = none ↔ c.NotFoundError err = true)) := by
  refine ⟨?_, ?_, ?_, ?_⟩
  · intro describe object h
    by_cases hnf : c.NotFoundError err = true
    · exact ⟨⟨none, "", none⟩, by simp [CsKubernetesInstanceStateRefreshFunc, h, hnf],
        rfl, rfl, by simp [hnf]⟩
    · exact ⟨⟨none, "", WrapError (some err)⟩,
        by simp [CsKubernetesInstanceStateRefreshFunc, h, hnf], rfl, rfl,
        by simp [hnf, WrapError]⟩
  · intro describe object h
    by_cases hnf : c.NotFoundError err = true
    · exact ⟨⟨none, "", none⟩, by simp [CsKubernetesNodePoolStateRefreshFunc, h, hnf],
        rfl, rfl, by simp [hnf]⟩
    · exact ⟨⟨none, "", WrapError (some err)⟩,
        by simp [CsKubernetesNodePoolStateRefreshFunc, h, hnf], rfl, rfl,
        by simp [hnf, WrapError]⟩
  · intro api budget object h
    by_cases hnf : c.NotFoundError err = true
    · exact ⟨⟨none, "", none⟩,
        by simp [CsKubernetesAddonStateRefreshFunc, h, hnf, bind, Go.bind, pure],
        rfl, rfl, by simp [hnf]⟩
    · exact ⟨⟨none, "", WrapError (some err)⟩,
        by simp [CsKubernetesAddonStateRefreshFunc, h, hnf, bind, Go.bind, pure], rfl, rfl,
        by simp [hnf, WrapError]⟩
  · intro describe object h
    by_cases hnf : c.NotFoundError err = true
    · exact ⟨⟨none, "", none⟩, by simp [LogProjectStateRefreshFunc, h, hnf],
        rfl, rfl, by simp [hnf]⟩
    · exact ⟨⟨none, "", WrapError (some err)⟩,
        by simp [LogProjectStateRefreshFunc, h, hnf], rfl, rfl,
        by simp [hnf, WrapError]⟩

/-- C7 at a concrete not-found error, for the four refresh functions. -/
theorem refreshFunc_describe_error_witness :
    (∃ r, CsKubernetesInstanceStateRefreshFunc sampleClassifiers
          (fun _ => (none, some sampleAddonNotFound)) "c-1" ["failed"] = Go.ret r ∧
        r.result = none ∧ r.state = "" ∧
        (r.err = none ↔ sampleClassifiers.NotFoundError sampleAddonNotFound = true)) ∧
    (∃ r, CsKubernetesNodePoolStateRefreshFunc sampleClassifiers
          (fun _ => (none, some sampleAddonNotFound)) "c-1" ["failed"] = Go.ret r ∧
        r.result = none ∧ r.state = "" ∧
        (r.err = none ↔ sampleClassifiers.NotFoundError sampleAddonNotFound = true)) ∧
    (∃ r, CsKubernetesAddonStateRefreshFunc sampleClassifiers sampleAddonApiNotFound 1
          "c-1" "nginx" ["failed"] = Go.ret r ∧
        r.result = none ∧ r.state = "" ∧
        (r.err = none ↔ sampleClassifiers.NotFoundError sampleAddonNotFound = true)) ∧
    (∃ r, LogProjectStateRefreshFunc sampleClassifiers
          (fun _ => (none, some sampleAddonNotFound)) "c-1" ["failed"] = Go.ret r ∧
        r.result = none ∧ r.state = "" ∧
        (r.err = none ↔ sampleClassifiers.NotFoundError sampleAddonNotFound = true)) :=
  have h := refreshFunc_describe_error sampleClassifiers ["failed"] "c-1" "c-1" "nginx"
    sampleAddonNotFound
  ⟨h.1 _ none rfl, h.2.1 _ none rfl, h.2.2.1 sampleAddonApiNotFound 1 (some {}) rfl,
    h.2.2.2 _ none rfl⟩

/-- Every attempt of `Retry` that is followed by another one failed with a
retryable error. -/
theorem Retry_repeats_only_retryable {α : Type} (retryable : GoError → Bool)
    (call : Nat → Option α × error) (budget n : Nat) (response : Option α) (last : error)
    (j : Nat) (hn : n ≤ j)
    (hj : j + 1 < (Retry retryable call budget n response last).next) :
    ∃ r e, call j = (r, some e) ∧ retryable e = true := by
  induction budget generalizing n response last with
  | zero =>
      simp only [Retry] at hj
      omega
  | succ b ih =>
      unfold Retry at hj
      rcases hc : call n with ⟨r, _ | e⟩
      · simp only [hc] at hj
        omega
      · simp only [hc] at hj
        by_cases hr : retryable e = true
        · simp only [hr, if_true] at hj
          rcases Nat.eq_or_lt_of_le hn with heq | hlt
          · exact ⟨r, e, heq ▸ hc, hr⟩
          · exact ih (n + 1) r (some e) hlt hj
        · simp only [hr] at hj
          simp at hj
          omega

/-- A run of `Retry` whose attempts `n .. m-1` fail with retryable errors and
whose attempt `m` fails with an error that is not retryable stops at attempt
`m` and returns that error, provided the budget reaches that far. -/
theorem Retry_stops_at_hard_error {α : Type} (retryable : GoError → Bool)
    (call : Nat → Option α × error) (budget n m : Nat) (response : Option α) (last : error)
    (r : Option α) (e : GoError) (hnm : n ≤ m) (hb : m - n < budget)
    (hprev : ∀ j, n ≤ j → j < m → ∃ r' e', call j = (r', some e') ∧ retryable e' = true)
    (hm : call m = (r, some e)) (hhard : retryable e = false) :
    Retry retryable call budget n response last = ⟨m + 1, r, some e⟩ := by
  induction budget generalizing n response last with
  | zero => omega
  | succ b ih =>
      unfold Retry
      rcases Nat.eq_or_lt_of_le hnm with heq | hlt
      · subst heq
        simp [hm, hhard]
      · obtain ⟨r', e', hc, hr⟩ := hprev n (le_refl n) hlt
        simp only [hc, hr, if_true]
        exact ih (n + 1) r' (some e') hlt (by omega)
          (fun j hj1 hj2 => hprev j (by omega) hj2)

/-- C2: in `Create` an `AssociateResourceShare` attempt is followed by another
one only if it failed with an error for which `NeedRetry` holds; the first
error for which `NeedRetry` is false ends the attempts, and `Create` then
returns a non-nil error and leaves the resource data, hence the ID, as it was. -/
theorem sharedResourceCreate_retry (c : Classifiers) (api : SharedResourceApi)
    (budget : Nat) (d : ResourceData) :
    (∀ j, j + 1 < (resourceAliCloudResourceManagerSharedResourceCreate c api budget d).calls →
      ∃ r e, api.RpcPost j (sharedResourceCreateRequest d) = (r, some e) ∧
        c.NeedRetry e = true) ∧
    (∀ m r e, m < budget →
      (∀ j, j < m → ∃ r' e', api.RpcPost j (sharedResourceCreateRequest d) = (r', some e') ∧
        c.NeedRetry e' = true) →
      api.RpcPost m (sharedResourceCreateRequest d) = (r, some e) →
      c.NeedRetry e = false →
      (resourceAliCloudResourceManagerSharedResourceCreate c api budget d).calls = m + 1 ∧
      (resourceAliCloudResourceManagerSharedResourceCreate c api budget d).d = d ∧
      ∃ err, (resourceAliCloudResourceManagerSharedResourceCreate c api budget d).out
          = Go.ret (some err)) := by
  constructor
  · intro j hj
    refine Retry_repeats_only_retryable c.NeedRetry
      (fun n => api.RpcPost n (sharedResourceCreateRequest d)) budget 0 none none j
      (Nat.zero_le j) ?_
    unfold resourceAliCloudResourceManagerSharedResourceCreate at hj
    simp only at hj
    split at hj
    · exact hj
    · split at hj
      · exact hj
      · split at hj <;> exact hj
  · intro m r e hb hprev hm hhard
    have hrun := Retry_stops_at_hard_error c.NeedRetry
      (fun n => api.RpcPost n (sharedResourceCreateRequest d)) budget 0 m none none r e
      (Nat.zero_le m) (by omega) (fun j _ hj => hprev j hj) hm hhard
    have hcreate : resourceAliCloudResourceManagerSharedResourceCreate c api budget d
        = ⟨m + 1, d, Go.ret (WrapErrorf (some e) MsgTemplate.DefaultErrorMsg)⟩ := by
      simp only [resourceAliCloudResourceManagerSharedResourceCreate, hrun]
    rw [hcreate]
    exact ⟨rfl, rfl, GoError.complex e (some MsgTemplate.DefaultErrorMsg), rfl⟩

/-- C2 on an API that throttles the first attempt and rejects the second. -/
theorem sharedResourceCreate_retry_witness :
    (∃ r e, sampleSharedResourceApiRejecting.RpcPost 0
        (sharedResourceCreateRequest sampleSharedResourceData) = (r, some e) ∧
      sampleClassifiers.NeedRetry e = true) ∧
    (resourceAliCloudResourceManagerSharedResourceCreate sampleClassifiers
        sampleSharedResourceApiRejecting 5 sampleSharedResourceData).calls = 1 + 1 ∧
    (resourceAliCloudResourceManagerSharedResourceCreate sampleClassifiers
        sampleSharedResourceApiRejecting 5 sampleSharedResourceData).d
      = sampleSharedResourceData ∧
    ∃ err, (resourceAliCloudResourceManagerSharedResourceCreate sampleClassifiers
        sampleSharedResourceApiRejecting 5 sampleSharedResourceData).out
          = Go.ret (some err) :=
  ⟨(sharedResourceCreate_retry sampleClassifiers sampleSharedResourceApiRejecting 5
      sampleSharedResourceData).1 0 (by decide),
   (sharedResourceCreate_retry sampleClassifiers sampleSharedResourceApiRejecting 5
      sampleSharedResourceData).2 1 none (GoError.sdk "Forbidden" "") (by decide)
      (fun j hj => ⟨none, GoError.sdk "Throttling" "", by
        have : j = 0 := by omega
        subst this
        rfl, rfl⟩)
      rfl rfl⟩

/-- A piece without separator is the single part of its split. -/
theorem splitChars_no_sep (sep : Char) (a : List Char) (h : sep ∉ a) :
    splitChars sep a = [a] := by
  induction a with
  | nil => rfl
  | cons ch rest ih =>
      have hne : ch ≠ sep := fun heq => h (heq ▸ List.mem_cons_self _ _)
      have hrest : sep ∉ rest := fun hm => h (List.mem_cons_of_mem _ hm)
      simp [splitChars, hne, ih hrest]

/-- A piece without separator, followed by a separator, is the first part of
the split. -/
theorem splitChars_append_sep (sep : Char) (a rest : List Char) (h : sep ∉ a) :
    splitChars sep (a ++ sep :: rest) = a :: splitChars sep rest := by
  induction a with
  | nil => simp [splitChars]
  | cons ch tail ih =>
      have hne : ch ≠ sep := fun heq => h (heq ▸ List.mem_cons_self _ _)
      have htail : sep ∉ tail := fun hm => h (List.mem_cons_of_mem _ hm)
      simp [splitChars, hne, ih htail]

/-- Splitting `a:b:c` on `:` gives `a`, `b`, `c` when none of them holds a colon. -/
theorem stringsSplitColon_three (a b c : String)
    (ha : ':' ∉ a.data) (hb : ':' ∉ b.data) (hc : ':' ∉ c.data) :
    stringsSplitColon (a ++ ":" ++ b ++ ":" ++ c) = [a, b, c] := by
  have hdata : (a ++ ":" ++ b ++ ":" ++ c).data = a.data ++ ':' :: (b.data ++ ':' :: c.data) := by
    simp [String.data_append]
  simp [stringsSplitColon, hdata, splitChars_append_sep, splitChars_no_sep, ha, hb, hc]

/-- C4: after a first response holding a full page of 50 repositories the read
sends a second request, and that request is the first one again: it carries no
page number at all, so the page already listed is requested a second time. -/
theorem chartRepositories_second_request_same_page :
    (dataSourceAlicloudCrChartRepositoriesRead sampleClassifiers sampleChartRepositoriesApi
        3 50 sampleChartRepositoriesArgs 5).requests
      = [chartRepositoriesRequest sampleChartRepositoriesArgs,
         chartRepositoriesRequest sampleChartRepositoriesArgs] ∧
    (chartRepositoriesRequest sampleChartRepositoriesArgs).lookup "PageNo" = none ∧
    (chartRepositoriesRequest sampleChartRepositoriesArgs).map Prod.fst
      = ["InstanceId", "RegionId"] :=
  ⟨rfl, rfl, rfl⟩

/-- An attempt that succeeds ends `Retry` at once. -/
theorem Retry_first_success {α : Type} (retryable : GoError → Bool)
    (call : Nat → Option α × error) (budget n : Nat) (response : Option α) (last : error)
    (r : Option α) (hb : 0 < budget) (hc : call n = (r, none)) :
    Retry retryable call budget n response last = ⟨n + 1, r, none⟩ := by
  cases budget with
  | zero => omega
  | succ b => simp [Retry, hc]

/-- On a record whose `Status` is a string the loop body keeps the record
exactly when it passes the filters. -/
theorem pvtzRecordKept_typed (a : PvtzZoneRecordsArgs) (item : GoMap) (s : String)
    (hs : Json.index item "Status" = Json.str s) :
    pvtzRecordKept a (Json.obj item)
      = Go.ret (if pvtzPasses a item = true then some item else none) := by
  simp only [pvtzRecordKept, Json.asMap, bind, Go.bind, pure, pvtzPasses, pvtzStatusIs,
    pvtzStatusDiffers, hs, Json.asString]
  rcases hids : idsMapOf a.ids with _ | ⟨i, is⟩
  · rcases hst : a.status with _ | st
    · simp
    · by_cases he : st = ""
      · simp [he]
      · by_cases heq : st = s
        · simp [he, heq]
        · have heq2 : ¬ s = st := fun h => heq h.symm
          simp [he, heq, heq2]
  · by_cases hmem : (Json.index item "RecordId").sprint ∈ i :: is
    · rcases hst : a.status with _ | st
      · simp [hmem]
      · by_cases he : st = ""
        · simp [he, hmem]
        · by_cases heq : st = s
          · simp [he, heq, hmem]
          · have heq2 : ¬ s = st := fun h => heq h.symm
            simp [he, heq, heq2, hmem]
    · simp [hmem]

/-- On a record whose `Status` can be compared the loop body keeps the record
exactly when it passes the filters. -/
theorem pvtzRecordKept_readable (a : PvtzZoneRecordsArgs) (item : GoMap)
    (h : pvtzStatusReadable a item) :
    pvtzRecordKept a (Json.obj item)
      = Go.ret (if pvtzPasses a item = true then some item else none) := by
  rcases h with hnone | hempty | ⟨s, hs⟩
  · simp only [pvtzRecordKept, Json.asMap, bind, Go.bind, pure, pvtzPasses,
      pvtzStatusDiffers, hnone]
    rcases hids : idsMapOf a.ids with _ | ⟨i, is⟩
    · simp
    · by_cases hmem : (Json.index item "RecordId").sprint ∈ i :: is
      · simp [hmem]
      · simp [hmem]
  · simp only [pvtzRecordKept, Json.asMap, bind, Go.bind, pure, pvtzPasses,
      pvtzStatusDiffers, hempty]
    rcases hids : idsMapOf a.ids with _ | ⟨i, is⟩
    · simp
    · by_cases hmem : (Json.index item "RecordId").sprint ∈ i :: is
      · simp [hmem]
      · simp [hmem]
  · exact pvtzRecordKept_typed a item s hs

/-- On records whose `Status` can be compared the append loop adds the records
of the page that pass the filters, in their order. -/
theorem pvtzRecordsAppend_typed (a : PvtzZoneRecordsArgs) (items objects : List GoMap)
    (hs : ∀ item ∈ items, pvtzStatusReadable a item) :
    pvtzRecordsAppend a (items.map Json.obj) objects
      = Go.ret (objects ++ items.filter (pvtzPasses a)) := by
  induction items generalizing objects with
  | nil => simp [pvtzRecordsAppend]
  | cons item rest ih =>
      have hitem := hs item (List.mem_cons_self _ _)
      have hrest : ∀ it ∈ rest, pvtzStatusReadable a it :=
        fun it hit => hs it (List.mem_cons_of_mem _ hit)
      simp only [List.map_cons, pvtzRecordsAppend, pvtzRecordKept_readable a item hitem]
      by_cases hp : pvtzPasses a item = true
      · simp [hp, ih _ hrest]
      · simp [hp, ih _ hrest]

/-- Assigning `PageNumber` in the request of one page gives the request of another. -/
theorem pvtzZoneRecordsRequest_assign (a : PvtzZoneRecordsArgs) (pageSize : Nat)
    (page page' : Int) :
    mapAssign (pvtzZoneRecordsRequest a pageSize page) "PageNumber" (Json.int page')
      = pvtzZoneRecordsRequest a pageSize page' := by
  simp [pvtzZoneRecordsRequest, mapAssign]

/-- The `PageSize` and `PageNumber` entries of a request. -/
theorem pvtzZoneRecordsRequest_index (a : PvtzZoneRecordsArgs) (pageSize : Nat) (page : Int) :
    Json.index (pvtzZoneRecordsRequest a pageSize page) "PageSize" = Json.int pageSize ∧
    Json.index (pvtzZoneRecordsRequest a pageSize page) "PageNumber" = Json.int page := by
  constructor <;> simp [pvtzZoneRecordsRequest, Json.index, List.lookup]

/-- One round of the zone-records loop on a page that the API serves at the
first attempt and whose records have statuses that can be compared: the request is sent
once, the records that pass are appended, and the loop ends on a short page
or goes on with the next page number. -/
theorem pvtzZoneRecordsLoop_round (c : Classifiers)
    (RpcPost : Nat → GoMap → Option GoMap × error) (budget pageSize : Nat)
    (formatInt : Json → Json) (a : PvtzZoneRecordsArgs) (fuel : Nat) (j : Nat) (call : Nat)
    (objects sent : List GoMap) (items : List GoMap) (body recs : GoMap)
    (hb : 0 < budget)
    (hcall : RpcPost call (pvtzZoneRecordsRequest a pageSize j) = (some body, none))
    (hrecs : body.lookup "Records" = some (Json.obj recs))
    (hrec : recs.lookup "Record" = some (Json.arr (items.map Json.obj)))
    (hs : ∀ item ∈ items, pvtzStatusReadable a item) :
    pvtzZoneRecordsLoop c RpcPost budget formatInt a (fuel + 1)
        (pvtzZoneRecordsRequest a pageSize j) call objects sent =
      if items.length < pageSize then
        ⟨sent ++ [pvtzZoneRecordsRequest a pageSize j],
          some (.ret (some (pvtzZoneRecordsOutput formatInt (pvtzZoneRecordsRequest a pageSize j)
            (objects ++ items.filter (pvtzPasses a))), none))⟩
      else
        pvtzZoneRecordsLoop c RpcPost budget formatInt a fuel
          (pvtzZoneRecordsRequest a pageSize (j + 1 : Nat)) (call + 1)
          (objects ++ items.filter (pvtzPasses a))
          (sent ++ [pvtzZoneRecordsRequest a pageSize j]) := by
  have hretry := Retry_first_success
    (fun e => c.IsExpectedErrors e ["System.Busy", "ServiceUnavailable"] || c.NeedRetry e)
    (fun n => RpcPost n (pvtzZoneRecordsRequest a pageSize j)) budget call none none
    (some body) hb hcall
  have hpath : jsonpathGet2 (some body) "Records" "Record"
      = some (Json.arr (items.map Json.obj)) := by
    simp [jsonpathGet2, hrecs, hrec]
  have hidx := pvtzZoneRecordsRequest_index a pageSize j
  rw [pvtzZoneRecordsLoop]
  simp only [hretry, hpath, sliceOrNil, pvtzRecordsAppend_typed a items objects hs, hidx.1,
    hidx.2, Json.asInt, List.length_map, Nat.add_sub_cancel_left, List.replicate_one,
    pvtzZoneRecordsRequest_assign]
  have hcast : ((j : Int) + 1) = ((j + 1 : Nat) : Int) := by push_cast; rfl
  by_cases hlen : items.length < pageSize
  · have hlen2 : (items.length : Int) < (pageSize : Int) := by exact_mod_cast hlen
    simp [hlen, hlen2]
  · have hlen2 : ¬ (items.length : Int) < (pageSize : Int) := by exact_mod_cast hlen
    simp only [hlen, hlen2, if_false, hcast]

/-- The zone-records loop entered at page `j` with `m` more pages to come sends
the requests of pages `j .. j+m` and appends the passing records of those pages. -/
theorem pvtzZoneRecordsLoop_pages (c : Classifiers)
    (RpcPost : Nat → GoMap → Option GoMap × error) (budget pageSize : Nat)
    (formatInt : Json → Json) (a : PvtzZoneRecordsArgs) (k : Nat) (pages : Nat → List GoMap)
    (hb : 0 < budget)
    (hpages : ∀ j n, 1 ≤ j → j ≤ k → ∃ body recs,
      RpcPost n (pvtzZoneRecordsRequest a pageSize j) = (some body, none) ∧
      body.lookup "Records" = some (Json.obj recs) ∧
      recs.lookup "Record" = some (Json.arr ((pages j).map Json.obj)))
    (hfull : ∀ j, 1 ≤ j → j < k → pageSize ≤ (pages j).length)
    (hlast : (pages k).length < pageSize)
    (hstatus : ∀ j, 1 ≤ j → j ≤ k → ∀ item ∈ pages j,
      pvtzStatusReadable a item)
    (m : Nat) :
    ∀ (j fuel call : Nat) (objects sent : List GoMap), 1 ≤ j → j + m = k → m < fuel →
      pvtzZoneRecordsLoop c RpcPost budget formatInt a fuel
          (pvtzZoneRecordsRequest a pageSize j) call objects sent =
        ⟨sent ++ (List.range (m + 1)).map
            (fun i => pvtzZoneRecordsRequest a pageSize ((j + i : Nat) : Int)),
          some (.ret (some (pvtzZoneRecordsOutput formatInt
            (pvtzZoneRecordsRequest a pageSize k)
            (objects ++ (List.range (m + 1)).flatMap
              (fun i => (pages (j + i)).filter (pvtzPasses a)))), none))⟩ := by
  induction m with
  | zero =>
      intro j fuel call objects sent hj hjk hfuel
      have hjk' : j = k := by omega
      subst hjk'
      obtain ⟨f, rfl⟩ : ∃ f, fuel = f + 1 := ⟨fuel - 1, by omega⟩
      obtain ⟨body, recs, hcall, hrecs, hrec⟩ := hpages j call hj (le_refl j)
      rw [pvtzZoneRecordsLoop_round c RpcPost budget pageSize formatInt a f j call objects sent
        (pages j) body recs hb hcall hrecs hrec (hstatus j hj (le_refl j))]
      rw [if_pos hlast]
      simp [List.range_succ]
  | succ m ih =>
      intro j fuel call objects sent hj hjk hfuel
      obtain ⟨f, rfl⟩ : ∃ f, fuel = f + 1 := ⟨fuel - 1, by omega⟩
      obtain ⟨body, recs, hcall, hrecs, hrec⟩ := hpages j call hj (by omega)
      rw [pvtzZoneRecordsLoop_round c RpcPost budget pageSize formatInt a f j call objects sent
        (pages j) body recs hb hcall hrecs hrec (hstatus j hj (by omega))]
      have hnot : ¬ (pages j).length < pageSize := by
        have := hfull j hj (by omega)
        omega
      rw [if_neg hnot, ih (j + 1) f (call + 1) _ _ (by omega) (by omega) (by omega)]
      have hreq : (List.range (m + 1 + 1)).map
            (fun i => pvtzZoneRecordsRequest a pageSize ((j + i : Nat) : Int))
          = pvtzZoneRecordsRequest a pageSize (j : Int) ::
            (List.range (m + 1)).map
              (fun i => pvtzZoneRecordsRequest a pageSize ((j + 1 + i : Nat) : Int)) := by
        rw [List.range_succ_eq_map (m + 1)]
        simp [List.map_map, Function.comp, Nat.add_assoc, Nat.add_comm 1]
      have hobj : (List.range (m + 1 + 1)).flatMap
            (fun i => (pages (j + i)).filter (pvtzPasses a))
          = (pages j).filter (pvtzPasses a) ++
            (List.range (m + 1)).flatMap
              (fun i => (pages (j + 1 + i)).filter (pvtzPasses a)) := by
        rw [List.range_succ_eq_map (m + 1)]
        simp [List.flatMap_map, Function.comp, Nat.add_assoc, Nat.add_comm 1]
      rw [hreq, hobj]
      simp [List.append_assoc]

/-- The filters of the zone-records read, spelled out. -/
theorem pvtzPasses_iff (a : PvtzZoneRecordsArgs) (item : GoMap) :
    pvtzPasses a item = true ↔
      ((idsMapOf a.ids = [] ∨ (Json.index item "RecordId").sprint ∈ idsMapOf a.ids) ∧
        (a.status = none ∨ a.status = some "" ∨
          Json.index item "Status" = Json.str (a.status.getD ""))) := by
  have hstatusIs : ∀ t : String,
      pvtzStatusIs item t = true ↔ Json.index item "Status" = Json.str t := by
    intro t
    unfold pvtzStatusIs
    cases Json.index item "Status" <;> simp
  unfold pvtzPasses
  rw [Bool.and_eq_true, Bool.or_eq_true, Bool.or_eq_true, Bool.or_eq_true, hstatusIs]
  simp [or_assoc]

/-- C5: when pages `1 .. k` are served, page `k` is the first one holding fewer
than `PageSize` records and the statuses can be compared, the read sends the
requests with `PageNumber` 1, 2, ..., `k` and nothing else; its outputs are
built, page after page and record after record, from the records of those
pages that pass the `ids` and `status` filters: `ids` holds their record IDs
and `records` holds one mapping for each of them, whose entries are the
record's ID, the ID joined with the zone ID, and the record's priority, remark,
host record, TTL, type, value and status. A record passes when `ids` names no
record or names it, and `status` is unset, empty or the record's status. -/
theorem pvtzZoneRecords_pagination (c : Classifiers)
    (RpcPost : Nat → GoMap → Option GoMap × error) (budget pageSize : Nat)
    (formatInt : Json → Json) (a : PvtzZoneRecordsArgs) (k fuel : Nat)
    (pages : Nat → List GoMap)
    (hk : 1 ≤ k) (hfuel : k ≤ fuel) (hb : 0 < budget)
    (hpages : ∀ j n, 1 ≤ j → j ≤ k → ∃ body recs,
      RpcPost n (pvtzZoneRecordsRequest a pageSize j) = (some body, none) ∧
      body.lookup "Records" = some (Json.obj recs) ∧
      recs.lookup "Record" = some (Json.arr ((pages j).map Json.obj)))
    (hfull : ∀ j, 1 ≤ j → j < k → pageSize ≤ (pages j).length)
    (hlast : (pages k).length < pageSize)
    (hstatus : ∀ j, 1 ≤ j → j ≤ k → ∀ item ∈ pages j, pvtzStatusReadable a item) :
    (dataSourceAliCloudPvtzZoneRecordsRead c RpcPost budget pageSize formatInt a fuel).requests
      = (List.range k).map (fun i => pvtzZoneRecordsRequest a pageSize ((i + 1 : Nat) : Int)) ∧
    (∀ i, Json.index (pvtzZoneRecordsRequest a pageSize ((i + 1 : Nat) : Int)) "PageNumber"
      = Json.int ((i + 1 : Nat) : Int)) ∧
    (∃ out kept,
      kept = (List.range k).flatMap (fun i => (pages (i + 1)).filter (pvtzPasses a)) ∧
      (dataSourceAliCloudPvtzZoneRecordsRead c RpcPost budget pageSize formatInt a
        fuel).out = some (Go.ret (some out, none)) ∧
      out.records
        = kept.map (pvtzRecordMapping formatInt (pvtzZoneRecordsRequest a pageSize k)) ∧
      out.records.length = kept.length ∧
      out.ids = kept.map (fun item => (Json.index item "RecordId").sprint) ∧
      out.records.map (fun r => Json.index r "record_id")
        = kept.map (fun item => Json.str (Json.index item "RecordId").sprint) ∧
      out.records.map (fun r => Json.index r "id")
        = kept.map (fun item =>
            Json.str ((Json.index item "RecordId").sprint ++ ":" ++ a.zone_id.sprint)) ∧
      out.records.map (fun r => Json.index r "priority")
        = kept.map (fun item => formatInt (Json.index item "Priority")) ∧
      out.records.map (fun r => Json.index r "remark")
        = kept.map (fun item => Json.index item "Remark") ∧
      out.records.map (fun r => Json.index r "rr")
        = kept.map (fun item => Json.index item "Rr") ∧
      out.records.map (fun r => Json.index r "resource_record")
        = kept.map (fun item => Json.index item "Rr") ∧
      out.records.map (fun r => Json.index r "ttl")
        = kept.map (fun item => formatInt (Json.index item "Ttl")) ∧
      out.records.map (fun r => Json.index r "type")
        = kept.map (fun item => Json.index item "Type") ∧
      out.records.map (fun r => Json.index r "value")
        = kept.map (fun item => Json.index item "Value") ∧
      out.records.map (fun r => Json.index r "status")
        = kept.map (fun item => Json.index item "Status")) ∧
    (∀ item, pvtzPasses a item = true ↔
      ((idsMapOf a.ids = [] ∨ (Json.index item "RecordId").sprint ∈ idsMapOf a.ids) ∧
        (a.status = none ∨ a.status = some "" ∨
          Json.index item "Status" = Json.str (a.status.getD "")))) := by
  refine ⟨?_, fun i => (pvtzZoneRecordsRequest_index a pageSize _).2, ?_, ?_⟩
  · obtain ⟨m, rfl⟩ : ∃ m, k = m + 1 := ⟨k - 1, by omega⟩
    have hrun := pvtzZoneRecordsLoop_pages c RpcPost budget pageSize formatInt a (m + 1) pages
      hb hpages hfull hlast hstatus m 1 fuel 0 [] [] (le_refl 1) (by omega) (by omega)
    have hstart : dataSourceAliCloudPvtzZoneRecordsRead c RpcPost budget pageSize formatInt a
        fuel = pvtzZoneRecordsLoop c RpcPost budget formatInt a fuel
          (pvtzZoneRecordsRequest a pageSize ((1 : Nat) : Int)) 0 [] [] := rfl
    rw [hstart, hrun]
    simp [Nat.add_comm 1]
  · obtain ⟨m, rfl⟩ : ∃ m, k = m + 1 := ⟨k - 1, by omega⟩
    have hrun := pvtzZoneRecordsLoop_pages c RpcPost budget pageSize formatInt a (m + 1) pages
      hb hpages hfull hlast hstatus m 1 fuel 0 [] [] (le_refl 1) (by omega) (by omega)
    have hstart : dataSourceAliCloudPvtzZoneRecordsRead c RpcPost budget pageSize formatInt a
        fuel = pvtzZoneRecordsLoop c RpcPost budget formatInt a fuel
          (pvtzZoneRecordsRequest a pageSize ((1 : Nat) : Int)) 0 [] [] := rfl
    have hzone : Json.index (pvtzZoneRecordsRequest a pageSize ((m + 1 : Nat) : Int)) "ZoneId"
        = a.zone_id := by
      simp [pvtzZoneRecordsRequest, Json.index, List.lookup]
    have hkept : (List.range (m + 1)).flatMap
          (fun i => (pages (1 + i)).filter (pvtzPasses a))
        = (List.range (m + 1)).flatMap (fun i => (pages (i + 1)).filter (pvtzPasses a)) := by
      simp [Nat.add_comm 1]
    rw [hstart, hrun, hkept]
    refine ⟨_, _, rfl, rfl, ?_, ?_, ?_, ?_, ?_, ?_, ?_, ?_, ?_, ?_, ?_, ?_, ?_⟩ <;>
      simp [pvtzZoneRecordsOutput, pvtzRecordMapping, Json.index, List.lookup, hzone,
        Function.comp]
  · exact fun item => pvtzPasses_iff a item

/-- C5 on a zone of three records served in pages of two, with a filter on
status `ENABLE` and on the record IDs 1 and 2: both pages are requested and
record 1 alone is kept. -/
theorem pvtzZoneRecords_pagination_witness :
    (dataSourceAliCloudPvtzZoneRecordsRead sampleClassifiers samplePvtzApi 3 2 id
        samplePvtzArgs 5).requests
      = (List.range 2).map
          (fun i => pvtzZoneRecordsRequest samplePvtzArgs 2 ((i + 1 : Nat) : Int)) ∧
    ∃ out, (dataSourceAliCloudPvtzZoneRecordsRead sampleClassifiers samplePvtzApi 3 2 id
        samplePvtzArgs 5).out = some (Go.ret (some out, none)) ∧
      out.ids = ["1"] ∧
      out.records.map (fun r => Json.index r "id") = [Json.str "1:zone-1"] ∧
      out.records.map (fun r => Json.index r "value") = [Json.str "10.0.0.1"] :=
  have h := pvtzZoneRecords_pagination sampleClassifiers samplePvtzApi 3 2 id samplePvtzArgs
    2 5 samplePvtzPages (by decide) (by decide) (by decide)
    (fun j n h1 h2 => by
      interval_cases j
      · exact ⟨_, _, rfl, rfl, rfl⟩
      · exact ⟨_, _, rfl, rfl, rfl⟩)
    (fun j h1 h2 => by
      interval_cases j
      decide)
    (by decide)
    (fun j h1 h2 item hitem => by
      interval_cases j
      · simp [samplePvtzPages] at hitem
        rcases hitem with rfl | rfl
        · exact Or.inr (Or.inr ⟨"ENABLE", rfl⟩)
        · exact Or.inr (Or.inr ⟨"DISABLE", rfl⟩)
      · simp [samplePvtzPages] at hitem
        subst hitem
        exact Or.inr (Or.inr ⟨"ENABLE", rfl⟩))
  match h.2.2.1 with
  | ⟨out, kept, hkept, hout, _, _, hids, _, hid, _, _, _, _, _, _, hvalue, _⟩ =>
      ⟨h.1, out, hout, hids.trans (by rw [hkept]; rfl), hid.trans (by rw [hkept]; rfl),
        hvalue.trans (by rw [hkept]; rfl)⟩

/-- The error built by `WrapErrorf` is never nil. -/
theorem WrapErrorf_ne_none (cause : error) (msg : MsgTemplate) :
    WrapErrorf cause msg ≠ none := by
  cases cause <;> simp [WrapErrorf]

/-- A quiet poll sends the wait loop round again. -/
theorem waitForLogProjectStep_quiet (c : Classifiers) (id status : String)
    (describe : Option LogProject × error) (late : Bool)
    (h : quietPoll c id status describe late) :
    waitForLogProjectStep c id status describe late = none := by
  obtain ⟨herr, ⟨object, hobj, hname⟩, hlate⟩ := h
  rcases describe with ⟨o, _ | e⟩
  · simp only at hobj
    simp [waitForLogProjectStep, hobj, hname, hlate]
  · simp only at hobj
    obtain ⟨hnf, hst⟩ := herr e rfl
    have hname' : ¬ object.Name = id := fun h => hname ⟨h, hst⟩
    simp [waitForLogProjectStep, hobj, hname', hlate, hnf, hst]

/-- After `n` quiet polls the wait loop stands at poll `i + n` with `n` less fuel. -/
theorem WaitForLogProject_skip_quiet (c : Classifiers) (id status : String)
    (describe : Nat → Option LogProject × error) (late : Nat → Bool) (n : Nat) :
    ∀ (fuel i : Nat),
      (∀ j, i ≤ j → j < i + n → quietPoll c id status (describe j) (late j)) →
      WaitForLogProject c id status describe late (fuel + n) i
        = WaitForLogProject c id status describe late fuel (i + n) := by
  induction n with
  | zero => intro fuel i _; rfl
  | succ n ih =>
      intro fuel i hq
      have hstep := waitForLogProjectStep_quiet c id status (describe i) (late i)
        (hq i (le_refl i) (by omega))
      rw [show fuel + (n + 1) = (fuel + n) + 1 by omega, WaitForLogProject]
      simp only [hstep]
      rw [ih fuel (i + 1) (fun j h1 h2 => hq j (by omega) (by omega))]
      congr 1
      omega

/-- The wait loop returns the timeout error only at a poll after the deadline. -/
theorem WaitForLogProject_timeout_late (c : Classifiers) (id status : String)
    (describe : Nat → Option LogProject × error) (late : Nat → Bool) (cause : error) :
    ∀ (fuel i p : Nat),
      WaitForLogProject c id status describe late fuel i
        = some (Go.ret (WrapErrorf cause MsgTemplate.WaitTimeoutMsg), p) →
      i < p ∧ late (p - 1) = true := by
  intro fuel
  induction fuel with
  | zero => intro i p h; simp [WaitForLogProject] at h
  | succ f ih =>
      intro i p h
      rw [WaitForLogProject] at h
      rcases hstep : waitForLogProjectStep c id status (describe i) (late i) with _ | r
      · simp only [hstep] at h
        obtain ⟨h1, h2⟩ := ih (i + 1) p h
        exact ⟨by omega, h2⟩
      · simp only [hstep, Option.some.injEq, Prod.mk.injEq] at h
        obtain ⟨hr, hp⟩ := h
        subst hp
        subst hr
        refine ⟨by omega, ?_⟩
        simp only [Nat.add_sub_cancel]
        by_contra hl
        have hl' : late i = false := by simpa using hl
        have hw := Ne.symm (WrapErrorf_ne_none cause MsgTemplate.WaitTimeoutMsg)
        rcases hd : describe i with ⟨o, _ | e⟩
        · rcases o with _ | object
          · simp [waitForLogProjectStep, hd] at hstep
          · by_cases hn : object.Name = id ∧ status ≠ Deleted
            · simp [waitForLogProjectStep, hd, hn, hw] at hstep
            · simp [waitForLogProjectStep, hd, hn, hl'] at hstep
        · by_cases hnf : c.NotFoundError e = true
          · by_cases hst : status = Deleted
            · simp [waitForLogProjectStep, hd, hnf, hst, hw] at hstep
            · rcases o with _ | object
              · simp [waitForLogProjectStep, hd, hnf, hst] at hstep
              · by_cases hn : object.Name = id ∧ status ≠ Deleted
                · simp [waitForLogProjectStep, hd, hnf, hst, hn, hw] at hstep
                · simp [waitForLogProjectStep, hd, hnf, hst, hn, hl', hw] at hstep
          · simp [waitForLogProjectStep, hd, hnf, WrapError, WrapErrorf] at hstep
            cases cause <;> simp at hstep

/-- C6: let polls `0 .. n-1` be quiet. Then `WaitForLogProject` returns nil at
poll `n` if that poll reports not-found while the awaited status is `Deleted`,
or if it does not fail hard and returns a project whose name is `id` while the
awaited status is not `Deleted`; it returns a non-nil error at poll `n` if that
poll fails with an error that is not not-found; and whenever it returns the
timeout error, the poll at which it returns was taken after the deadline. -/
theorem WaitForLogProject_first_deciding_poll (c : Classifiers) (id status : String)
    (describe : Nat → Option LogProject × error) (late : Nat → Bool) (n fuel : Nat)
    (hfuel : n < fuel)
    (hquiet : ∀ j, j < n → quietPoll c id status (describe j) (late j)) :
    ((∃ e, (describe n).2 = some e ∧ c.NotFoundError e = true) → status = Deleted →
      WaitForLogProject c id status describe late fuel 0 = some (Go.ret none, n + 1)) ∧
    ((∀ e, (describe n).2 = some e → c.NotFoundError e = true) →
      (∃ object, (describe n).1 = some object ∧ object.Name = id) → status ≠ Deleted →
      WaitForLogProject c id status describe late fuel 0 = some (Go.ret none, n + 1)) ∧
    ((∃ e, (describe n).2 = some e ∧ c.NotFoundError e = false) →
      ∃ e', WaitForLogProject c id status describe late fuel 0
        = some (Go.ret (some e'), n + 1)) ∧
    (∀ cause p, WaitForLogProject c id status describe late fuel 0
        = some (Go.ret (WrapErrorf cause MsgTemplate.WaitTimeoutMsg), p) →
      0 < p ∧ late (p - 1) = true) := by
  obtain ⟨f, rfl⟩ : ∃ f, fuel = (f + 1) + n := ⟨fuel - n - 1, by omega⟩
  have hskip := WaitForLogProject_skip_quiet c id status describe late n (f + 1) 0
    (fun j _ hj => hquiet j (by omega))
  have hat : WaitForLogProject c id status describe late (f + 1 + n) 0 =
      match waitForLogProjectStep c id status (describe n) (late n) with
      | some r => some (r, n + 1)
      | none => WaitForLogProject c id status describe late f (n + 1) := by
    rw [hskip, Nat.zero_add, WaitForLogProject]
  refine ⟨?_, ?_, ?_, ?_⟩
  · rintro ⟨e, he, hnf⟩ hst
    rw [hat]
    rcases hd : describe n with ⟨o, err⟩
    rw [hd] at he
    simp only at he
    subst he
    simp [waitForLogProjectStep, hnf, hst]
  · rintro herr ⟨object, hobj, hname⟩ hst
    rw [hat]
    rcases hd : describe n with ⟨o, err⟩
    rw [hd] at hobj herr
    simp only at hobj herr
    subst hobj
    rcases err with _ | e
    · simp [waitForLogProjectStep, hname, hst]
    · simp [waitForLogProjectStep, herr e rfl, hname, hst]
  · rintro ⟨e, he, hnf⟩
    rw [hat]
    rcases hd : describe n with ⟨o, err⟩
    rw [hd] at he
    simp only at he
    subst he
    exact ⟨GoError.complex e none, by simp [waitForLogProjectStep, hnf, WrapError]⟩
  · intro cause p h
    obtain ⟨_, h2⟩ := WaitForLogProject_timeout_late c id status describe late cause _ 0 p h
    exact ⟨by omega, h2⟩

/-- C6 on a project found under its name at the third poll, before the deadline. -/
theorem WaitForLogProject_first_deciding_poll_witness :
    WaitForLogProject sampleClassifiers "proj" "Available" sampleLogPolls (fun _ => false) 5 0
      = some (Go.ret none, 2 + 1) :=
  (WaitForLogProject_first_deciding_poll sampleClassifiers "proj" "Available" sampleLogPolls
    (fun _ => false) 2 5 (by decide)
    (fun j hj => by
      interval_cases j
      · exact ⟨fun e he => by simp [sampleLogPolls] at he,
          ⟨{ Name := "pending" }, rfl, by decide⟩, rfl⟩
      · exact ⟨fun e he => by simp [sampleLogPolls] at he,
          ⟨{ Name := "pending" }, rfl, by decide⟩, rfl⟩)).2.1
    (fun e he => by simp [sampleLogPolls] at he) ⟨{ Name := "proj" }, rfl, rfl⟩ (by decide)

/-- What `formatBits16` writes goes in front of what is already there. -/
theorem formatBits16_acc (fuel u : Nat) (acc : List Char) :
    formatBits16 fuel u acc = formatBits16 fuel u [] ++ acc := by
  induction fuel generalizing u acc with
  | zero => simp [formatBits16]
  | succ f ih =>
      unfold formatBits16
      split
      · rw [ih (u / 16) (strconvDigit (u % 16) :: acc), ih (u / 16) [strconvDigit (u % 16)]]
        simp
      · simp

/-- The digit written for `d < 16` is a lower-case hexadecimal digit of value `d`. -/
theorem strconvDigit_hex (d : Nat) (h : d < 16) :
    lowerHexValue (strconvDigit d) = d ∧ strconvDigit d ∈ lowerHexDigits := by
  interval_cases d <;> exact ⟨by decide, by decide⟩

/-- The number denoted by a digit string with one more digit at its end. -/
theorem hexNumber_append_digit (digits : List Char) (ch : Char) :
    hexNumber (digits ++ [ch]) = 16 * hexNumber digits + lowerHexValue ch := by
  simp [hexNumber, List.foldl_append]

/-- With enough fuel `formatBits16` writes lower-case hexadecimal digits that
denote `u`. -/
theorem formatBits16_denotes (fuel u : Nat) (h : u ≤ fuel) :
    hexNumber (formatBits16 fuel u []) = u ∧
      ∀ ch ∈ formatBits16 fuel u [], ch ∈ lowerHexDigits := by
  induction fuel generalizing u with
  | zero =>
      have hu : u = 0 := by omega
      subst hu
      exact ⟨by decide, by decide⟩
  | succ f ih =>
      unfold formatBits16
      by_cases hge : u ≥ 16
      · rw [if_pos hge, formatBits16_acc]
        obtain ⟨hv, hc⟩ := ih (u / 16) (by omega)
        obtain ⟨hd, hm⟩ := strconvDigit_hex (u % 16) (Nat.mod_lt _ (by decide))
        refine ⟨?_, ?_⟩
        · rw [hexNumber_append_digit, hv, hd]
          omega
        · intro ch hch
          rcases List.mem_append.mp hch with h1 | h1
          · exact hc ch h1
          · rw [List.mem_singleton] at h1
            exact h1 ▸ hm
      · rw [if_neg hge]
        obtain ⟨hd, hm⟩ := strconvDigit_hex u (by omega)
        refine ⟨by simp [hexNumber, hd], ?_⟩
        intro ch hch
        rw [List.mem_singleton] at hch
        exact hch ▸ hm

/-- C9: the ciphertext `Create` leaves the resource ID set to
`strconv.FormatInt(now, 16)` for the Unix time `now` of the run, however the
run ends; for a time that is not negative this is a string of lower-case
hexadecimal digits that denotes `now`; and any other run at the same time,
whatever its plaintext, key, encryption context or API, sets the same ID. -/
theorem kmsCiphertextCreate_id_is_hex_time (c : Classifiers)
    (RpcPost : Nat → GoMap → Option GoMap × error) (budget : Nat)
    (convertMaptoJsonString : GoMap → String × error) (RegionId : String) (now : Int)
    (d : ResourceData) :
    (resourceAlicloudKmsCiphertextCreate c RpcPost budget convertMaptoJsonString RegionId
      now d).1.Id = strconvFormatInt16 now ∧
    (0 ≤ now → hexNumber (strconvFormatInt16 now).data = now.toNat ∧
      ∀ ch ∈ (strconvFormatInt16 now).data, ch ∈ lowerHexDigits) ∧
    (∀ c2 RpcPost2 budget2 convert2 RegionId2 d2,
      (resourceAlicloudKmsCiphertextCreate c2 RpcPost2 budget2 convert2 RegionId2 now d2).1.Id
        = (resourceAlicloudKmsCiphertextCreate c RpcPost budget convertMaptoJsonString
            RegionId now d).1.Id) := by
  have hid : ∀ c RpcPost budget (convert : GoMap → String × error) RegionId (d : ResourceData),
      (resourceAlicloudKmsCiphertextCreate c RpcPost budget convert RegionId now d).1.Id
        = strconvFormatInt16 now := by
    intro c RpcPost budget convert RegionId d
    unfold resourceAlicloudKmsCiphertextCreate
    simp only
    split
    · rfl
    · rfl
    · split
      · rfl
      · split <;> rfl
  refine ⟨hid _ _ _ _ _ _, ?_, ?_⟩
  · intro hnow
    have hnn : ¬ now < 0 := by omega
    have hnat : now.natAbs = now.toNat := by omega
    simp only [strconvFormatInt16, hnn, if_false]
    rw [hnat]
    exact formatBits16_denotes now.toNat now.toNat (le_refl _)
  · intro c2 RpcPost2 budget2 convert2 RegionId2 d2
    rw [hid, hid]

/-- C9 for the Unix time 1700000000, whose rendering is `6553f100`. -/
theorem kmsCiphertextCreate_id_is_hex_time_witness :
    (resourceAlicloudKmsCiphertextCreate sampleClassifiers sampleEncryptApi 3
      (fun _ => ("{}", none)) "cn-hangzhou" 1700000000 sampleCiphertextData).1.Id
        = "6553f100" ∧
    hexNumber (strconvFormatInt16 1700000000).data = (1700000000 : Int).toNat :=
  have h := kmsCiphertextCreate_id_is_hex_time sampleClassifiers sampleEncryptApi 3
    (fun _ => ("{}", none)) "cn-hangzhou" 1700000000 sampleCiphertextData
  ⟨h.1.trans (by decide), (h.2.1 (by decide)).1⟩

/-- C10: for the ID `c1:np1:extra`, which splits into three parts, the describe
function issues the request for cluster `c1` and node pool `np1` and returns
its response with a nil error; for the ID `c1`, which has a single part, it
panics instead of returning an error. -/
theorem DescribeAckNodepool_invalid_id_not_rejected :
    stringsSplitColon "c1:np1:extra" = ["c1", "np1", "extra"] ∧
    (DescribeAckNodepool sampleClassifiers sampleNodepoolApi 3 "c1:np1:extra").requests
      = ["/clusters/c1/nodepools/np1"] ∧
    (DescribeAckNodepool sampleClassifiers sampleNodepoolApi 3 "c1:np1:extra").out
      = Go.ret (some [("nodepool_info", Json.obj [("name", Json.str "default")])], none) ∧
    stringsSplitColon "c1" = ["c1"] ∧
    (DescribeAckNodepool sampleClassifiers sampleNodepoolApi 3 "c1").out = Go.panic :=
  ⟨by decide, by decide, rfl, by decide, rfl⟩

/-- C8: with `DescribeClusterAddonInstance` answering `AddonNotFound`, the exist
refresh function returns status `deleted` and a nil error, but its result is
the empty component built by the describe function, not nil. -/
theorem CsKubernetesAddonExistRefreshFunc_notFound_object :
    ∃ r, CsKubernetesAddonExistRefreshFunc sampleClassifiers sampleAddonApiNotFound 1 "nginx"
        = Go.ret r ∧
      r.state = "deleted" ∧ r.err = none ∧ r.result ≠ none :=
  ⟨⟨some {}, "deleted", none⟩, rfl, rfl, rfl, by simp⟩

/-- C11: when the task query is rejected with the error code `Forbidden`, which
is not a not-found error, the async refresh function returns the nil map that
came with the error as its object, the status `<nil>` and a nil error, where
`AckNodepoolStateRefreshFunc` returns a non-nil error for the same describe
result. -/
theorem DescribeAsyncAckNodepoolStateRefreshFunc_hard_error_swallowed :
    DescribeAsyncDescribeTaskInfo sampleClassifiers sampleTaskApiForbidden 3 "c1:np1"
        (Json.str "t-1")
      = (none, some (GoError.complex (GoError.sdk "Forbidden" "")
          (some MsgTemplate.DefaultErrorMsg))) ∧
    sampleClassifiers.NotFoundError
      (GoError.complex (GoError.sdk "Forbidden" "") (some MsgTemplate.DefaultErrorMsg))
        = false ∧
    DescribeAsyncAckNodepoolStateRefreshFunc sampleClassifiers sampleJsonpathGet
        (DescribeAsyncDescribeTaskInfo sampleClassifiers sampleTaskApiForbidden 3 "c1:np1"
          (Json.str "t-1")) "$.state" ["fail"]
      = ⟨some (Json.obj []), "<nil>", none⟩ ∧
    (AckNodepoolStateRefreshFunc sampleClassifiers sampleJsonpathGet
        (DescribeAsyncDescribeTaskInfo sampleClassifiers sampleTaskApiForbidden 3 "c1:np1"
          (Json.str "t-1")) "$.state" ["fail"]).err ≠ none :=
  ⟨rfl, rfl, rfl, by decide⟩


/-- The name loop returns the first name whose version key is present. -/
theorem networkNameLoop_first (metadata : GoMap) (before after : List String) (name : String)
    (hname : (metadata.lookup (name ++ "Version")).isSome = true)
    (hbefore : ∀ n ∈ before, (metadata.lookup (n ++ "Version")).isSome = false) :
    networkNameLoop metadata (before ++ name :: after) = (name, none) := by
  induction before with
  | nil => simp [networkNameLoop, hname]
  | cons b rest ih =>
      have hb := hbefore b (List.mem_cons_self _ _)
      simp only [List.cons_append, networkNameLoop, hb]
      exact ih (fun n hn => hbefore n (List.mem_cons_of_mem _ hn))

/-- The name loop reports an error exactly when no name has its version key. -/
theorem networkNameLoop_error (metadata : GoMap) (names : List String) :
    (networkNameLoop metadata names).2 ≠ none ↔
      ∀ n ∈ names, (metadata.lookup (n ++ "Version")).isSome = false := by
  induction names with
  | nil => simp [networkNameLoop]
  | cons b rest ih =>
      rcases hb : (metadata.lookup (b ++ "Version")).isSome with _ | _
      · simp only [networkNameLoop, hb, List.mem_cons, forall_eq_or_imp, true_and]
        exact ih
      · simp only [networkNameLoop, hb, if_true, List.mem_cons, forall_eq_or_imp]
        constructor
        · intro h
          exact absurd rfl h
        · intro h
          exact absurd h.1 (by simp)

/-- C12: for a cluster whose `MetaData` unmarshals into `metadata`, the function
returns the first of the names terway, kube-flannel-ds, terway-eni and
terway-eniip for which `metadata` has the key name + `Version`; and it returns
an error exactly when unmarshalling fails or `metadata` has none of the four keys. -/
theorem GetKubernetesNetworkName_first_name (jsonUnmarshal : String → Option GoMap)
    (cluster : KubernetesClusterDetail) :
    NETWORK_ADDON_NAMES = ["terway", "kube-flannel-ds", "terway-eni", "terway-eniip"] ∧
    (∀ metadata before after name,
      jsonUnmarshal cluster.MetaData = some metadata →
      NETWORK_ADDON_NAMES = before ++ name :: after →
      (metadata.lookup (name ++ "Version")).isSome = true →
      (∀ n ∈ before, (metadata.lookup (n ++ "Version")).isSome = false) →
      GetKubernetesNetworkName jsonUnmarshal (some cluster) = Go.ret (name, none)) ∧
    ∃ r, GetKubernetesNetworkName jsonUnmarshal (some cluster) = Go.ret r ∧
      (r.2 ≠ none ↔
        (jsonUnmarshal cluster.MetaData = none ∨
          ∃ metadata, jsonUnmarshal cluster.MetaData = some metadata ∧
            ∀ n ∈ NETWORK_ADDON_NAMES, (metadata.lookup (n ++ "Version")).isSome = false)) := by
  refine ⟨rfl, ?_, ?_⟩
  · intro metadata before after name hm hsplit hname hbefore
    simp only [GetKubernetesNetworkName, hm]
    rw [hsplit, networkNameLoop_first metadata before after name hname hbefore]
  · rcases hm : jsonUnmarshal cluster.MetaData with _ | metadata
    · refine ⟨("", some (GoError.text "unmarshal metaData failed")), ?_, ?_⟩
      · simp only [GetKubernetesNetworkName, hm]
      · simp
    · refine ⟨networkNameLoop metadata NETWORK_ADDON_NAMES, ?_, ?_⟩
      · simp only [GetKubernetesNetworkName, hm]
      · rw [networkNameLoop_error]
        simp

/-- C12 on metadata holding the keys of terway-eni and kube-flannel-ds: the
earlier of the two names, kube-flannel-ds, is returned. -/
theorem GetKubernetesNetworkName_first_name_witness :
    GetKubernetesNetworkName sampleJsonUnmarshal
      (some ⟨"c-1", "demo", "running", sampleMetaData⟩)
      = Go.ret ("kube-flannel-ds", none) :=
  (GetKubernetesNetworkName_first_name sampleJsonUnmarshal
    ⟨"c-1", "demo", "running", sampleMetaData⟩).2.1
    [("terway-eniVersion", Json.str "1"), ("kube-flannel-dsVersion", Json.str "2")]
    ["terway"] ["terway-eni", "terway-eniip"] "kube-flannel-ds" rfl (by decide)
    (by decide) (by decide)


/-- C13: on a dashboard whose second chart has the display name `b` and the
title `B`, while its first chart has another display name, the function
returns `b` itself, although a chart with that display name exists and the
first such chart has the title `B`. -/
theorem GetCharTitile_only_first_chart :
    GetCharTitile (some [⟨"A", "a"⟩, ⟨"B", "b"⟩], none) "b" = Go.ret "b" ∧
    ([⟨"A", "a"⟩, ⟨"B", "b"⟩] : List Chart).find? (fun v => v.DisplayName = "b")
      = some ⟨"B", "b"⟩ :=
  ⟨by decide, by decide⟩


/-- A run of `Retry` whose attempts `n .. m-1` fail with retryable errors and
whose attempt `m` succeeds returns the response of attempt `m` and no error,
provided the budget reaches that far. -/
theorem Retry_succeeds_at {α : Type} (retryable : GoError → Bool)
    (call : Nat → Option α × error) (budget n m : Nat) (response : Option α) (last : error)
    (r : Option α) (hnm : n ≤ m) (hb : m - n < budget)
    (hprev : ∀ j, n ≤ j → j < m → ∃ r' e', call j = (r', some e') ∧ retryable e' = true)
    (hm : call m = (r, none)) :
    Retry retryable call budget n response last = ⟨m + 1, r, none⟩ := by
  induction budget generalizing n response last with
  | zero => omega
  | succ b ih =>
      unfold Retry
      rcases Nat.eq_or_lt_of_le hnm with heq | hlt
      · subst heq
        simp [hm]
      · obtain ⟨r', e', hc, hr⟩ := hprev n (le_refl n) hlt
        simp only [hc, hr, if_true]
        exact ih (n + 1) r' (some e') hlt (by omega)
          (fun j hj1 hj2 => hprev j (by omega) hj2)

/-- C14: when `DescribeClusterAddonInstance` succeeds, after any number of
retried attempts, with a body whose `State` is nil or empty,
`DescribeCsKubernetesAddonInstance` returns exactly what
`DescribeCsKubernetesAddonStatus` returns for the same addon. -/
theorem DescribeCsKubernetesAddonInstance_empty_state (c : Classifiers) (api : CsAddonApi)
    (budget : Nat) (addonName : String) (m : Nat) (body : AddonInstanceBody)
    (hm : m < budget)
    (hprev : ∀ j, j < m → ∃ r e, api.DescribeClusterAddonInstance j = (r, some e) ∧
      c.NeedRetry e = true)
    (hcall : api.DescribeClusterAddonInstance m = (some body, none))
    (hstate : body.State = none ∨ body.State = some "") :
    DescribeCsKubernetesAddonInstance c api budget addonName
      = DescribeCsKubernetesAddonStatus c api budget addonName := by
  have hrun := Retry_succeeds_at c.NeedRetry api.DescribeClusterAddonInstance budget 0 m
    none none (some body) (Nat.zero_le m) (by omega) (fun j _ hj => hprev j hj) hcall
  simp only [DescribeCsKubernetesAddonInstance, hrun, hstate, if_true]

/-- C14 on an addon whose instance reports no state at the second attempt:
both functions return the component built from the upgrade status. -/
theorem DescribeCsKubernetesAddonInstance_empty_state_witness :
    DescribeCsKubernetesAddonInstance sampleClassifiers sampleAddonApiNoState 3 "nginx"
      = DescribeCsKubernetesAddonStatus sampleClassifiers sampleAddonApiNoState 3 "nginx" ∧
    DescribeCsKubernetesAddonStatus sampleClassifiers sampleAddonApiNoState 3 "nginx"
      = Go.ret (some { Version := "1.2", CanUpgrade := false, Status := "running" }, none) :=
  ⟨DescribeCsKubernetesAddonInstance_empty_state sampleClassifiers sampleAddonApiNoState 3
    "nginx" 1 ⟨some "nginx", some "1.2", none, none⟩ (by decide)
    (fun j hj => ⟨none, GoError.sdk "Throttling" "", by
      have : j = 0 := by omega
      subst this
      rfl, rfl⟩)
    rfl (Or.inl rfl), rfl⟩


/-- The token loop yields the token of the first element that has not expired
and is active, and nothing when there is no such element. -/
theorem permanentTokensLoop_find (tokens : List ClusterTokenResponse) :
    permanentTokensLoop tokens =
      match tokens.find? (fun t => decide (t.Expired = 0 ∧ t.IsActive = 1)) with
      | some t => [t.Token]
      | none => [] := by
  induction tokens with
  | nil => rfl
  | cons token rest ih =>
      by_cases h : token.Expired = 0 ∧ token.IsActive = 1
      · simp [permanentTokensLoop, List.find?, h]
      · simp only [permanentTokensLoop, List.find?, h, if_false, decide_False]
        exact ih

/-- C15: when the token list of the cluster is at hand, the function returns
the token of its first element with `Expired == 0` and `IsActive == 1` without
any `CreateClusterToken` request whenever there is such an element; it makes
one `CreateClusterToken` request, with `IsPermanently` set, exactly when there
is none, and then returns the token that was created. -/
theorem GetPermanentToken_first_permanent (tokens : List ClusterTokenResponse)
    (createClusterToken : Bool → Option ClusterTokenResponse × error) :
    (∀ t, tokens.find? (fun t => decide (t.Expired = 0 ∧ t.IsActive = 1)) = some t →
      (GetPermanentToken (some tokens, none) createClusterToken).out = (t.Token, none) ∧
      (GetPermanentToken (some tokens, none) createClusterToken).creates = []) ∧
    ((GetPermanentToken (some tokens, none) createClusterToken).creates = [true] ↔
      tokens.find? (fun t => decide (t.Expired = 0 ∧ t.IsActive = 1)) = none) ∧
    ((GetPermanentToken (some tokens, none) createClusterToken).creates ≠ [] ↔
      tokens.find? (fun t => decide (t.Expired = 0 ∧ t.IsActive = 1)) = none) ∧
    (∀ created, tokens.find? (fun t => decide (t.Expired = 0 ∧ t.IsActive = 1)) = none →
      createClusterToken true = (some created, none) →
      (GetPermanentToken (some tokens, none) createClusterToken).out
        = (created.Token, none)) := by
  have hloop := permanentTokensLoop_find tokens
  rcases hf : tokens.find? (fun t => decide (t.Expired = 0 ∧ t.IsActive = 1)) with _ | t
  · rw [hf] at hloop
    have hrun : (GetPermanentToken (some tokens, none) createClusterToken).creates = [true] := by
      simp only [GetPermanentToken, hloop, List.length_nil, if_true]
      rcases createClusterToken true with ⟨_ | tok, _ | e⟩ <;> rfl
    refine ⟨fun t ht => ?_, ?_, ?_, ?_⟩
    · rw [hf] at ht
      cases ht
    · exact ⟨fun _ => hf, fun _ => hrun⟩
    · exact ⟨fun _ => hf, fun _ => by rw [hrun]; simp⟩
    · intro created _ hc
      simp only [GetPermanentToken, hloop, List.length_nil, if_true, hc]
  · rw [hf] at hloop
    have hrun : GetPermanentToken (some tokens, none) createClusterToken
        = ⟨[], (t.Token, none)⟩ := by
      simp [GetPermanentToken, hloop]
    rw [hrun]
    refine ⟨fun t' ht' => ?_, ?_, ?_, ?_⟩
    · rw [hf] at ht'
      cases ht'
      exact ⟨rfl, rfl⟩
    · constructor
      · intro h
        cases h
      · intro h
        rw [hf] at h
        cases h
    · constructor
      · intro h
        exact absurd rfl h
      · intro h
        rw [hf] at h
        cases h
    · intro created h
      rw [hf] at h
      cases h

/-- C15 on a list whose second token is the first one that is permanent. -/
theorem GetPermanentToken_first_permanent_witness :
    (GetPermanentToken (some [⟨"t1", 1, 1⟩, ⟨"t2", 0, 1⟩, ⟨"t3", 0, 1⟩], none)
        (fun _ => (some ⟨"new", 0, 1⟩, none))).out = ("t2", none) ∧
    (GetPermanentToken (some [⟨"t1", 1, 1⟩, ⟨"t2", 0, 1⟩, ⟨"t3", 0, 1⟩], none)
        (fun _ => (some ⟨"new", 0, 1⟩, none))).creates = [] :=
  (GetPermanentToken_first_permanent [⟨"t1", 1, 1⟩, ⟨"t2", 0, 1⟩, ⟨"t3", 0, 1⟩]
    (fun _ => (some ⟨"new", 0, 1⟩, none))).1 ⟨"t2", 0, 1⟩ (by decide)


/-- C16: when the describe call of `Read` fails with the error `err`: if `err`
is a not-found error and the resource is not new, `Read` sets the ID to the
empty string and returns nil; if `err` is a not-found error and the resource
is new, it returns a non-nil error and leaves the resource data, hence the ID,
as it was; and if `err` is not a not-found error it returns a non-nil error. -/
theorem sharedResourceRead_describe_error (c : Classifiers) (api : SharedResourceApi)
    (d : ResourceData) (object : GoMap) (err : GoError)
    (h : api.DescribeResourceManagerSharedResource d.Id = (object, some err)) :
    (c.NotFoundError err = true → d.IsNewResource = false →
      resourceAliCloudResourceManagerSharedResourceRead c api d = (d.SetId "", none) ∧
      (resourceAliCloudResourceManagerSharedResourceRead c api d).1.Id = "") ∧
    (c.NotFoundError err = true → d.IsNewResource = true →
      ∃ e, resourceAliCloudResourceManagerSharedResourceRead c api d = (d, some e)) ∧
    (c.NotFoundError err = false →
      ∃ e, resourceAliCloudResourceManagerSharedResourceRead c api d = (d, some e)) := by
  refine ⟨?_, ?_, ?_⟩
  · intro hnf hnew
    have hrun : resourceAliCloudResourceManagerSharedResourceRead c api d
        = (d.SetId "", none) := by
      simp [resourceAliCloudResourceManagerSharedResourceRead, h, hnf, hnew]
    exact ⟨hrun, by rw [hrun]; rfl⟩
  · intro hnf hnew
    exact ⟨GoError.complex err none,
      by simp [resourceAliCloudResourceManagerSharedResourceRead, h, hnf, hnew, WrapError]⟩
  · intro hnf
    exact ⟨GoError.complex err none,
      by simp [resourceAliCloudResourceManagerSharedResourceRead, h, hnf, WrapError]⟩

/-- C16 on a stored resource that the API reports as gone: the ID is cleared. -/
theorem sharedResourceRead_describe_error_witness :
    resourceAliCloudResourceManagerSharedResourceRead sampleClassifiers
        sampleSharedResourceApiGone sampleSharedResourceStored
      = (sampleSharedResourceStored.SetId "", none) ∧
    (resourceAliCloudResourceManagerSharedResourceRead sampleClassifiers
        sampleSharedResourceApiGone sampleSharedResourceStored).1.Id = "" :=
  (sharedResourceRead_describe_error sampleClassifiers sampleSharedResourceApiGone
    sampleSharedResourceStored [] sampleAddonNotFound rfl).1 rfl rfl


/-- For a positive divisor `ceilDiv a b` is the least number of times `b` has
to be taken to reach `a`. -/
theorem ceilDiv_spec (a b : Int) (hb : 0 < b) :
    a ≤ (ceilDiv a b : Int) * b ∧ ∀ k : Nat, a ≤ (k : Int) * b → ceilDiv a b ≤ k := by
  have hmod := Int.emod_lt_of_pos (a + b - 1) hb
  have hmod0 := Int.emod_nonneg (a + b - 1) (ne_of_gt hb)
  have hdiv := Int.ediv_add_emod (a + b - 1) b
  constructor
  · unfold ceilDiv
    by_cases hq : 0 ≤ (a + b - 1) / b
    · rw [Int.toNat_of_nonneg hq]
      nlinarith
    · have hq' : (a + b - 1) / b < 0 := by omega
      have hz : ((a + b - 1) / b).toNat = 0 := by omega
      rw [hz]
      nlinarith
  · intro k hk
    unfold ceilDiv
    have hlt : (a + b - 1) / b < (k : Int) + 1 := by
      apply Int.ediv_lt_of_lt_mul hb
      nlinarith
    omega

/-- After `n` polls that are still waiting, with time left, the wait loop
stands at poll `i + n` with `n` intervals less on the clock. -/
theorem waitForContainerApplicationLoop_skip (unicodeLower : Char → Char) (interval : Int)
    (status : String) (describe : Nat → GetProjectResponse × error) (hI : 0 < interval)
    (n : Nat) :
    ∀ (fuel i : Nat) (timeout : Int),
      (∀ j, i ≤ j → j < i + n → stillWaiting unicodeLower status (describe j)) →
      0 < timeout - (n : Int) * interval →
      waitForContainerApplicationLoop unicodeLower interval status describe (fuel + n) i timeout
        = waitForContainerApplicationLoop unicodeLower interval status describe fuel (i + n)
            (timeout - (n : Int) * interval) := by
  induction n with
  | zero =>
      intro fuel i timeout _ _
      simp
  | succ n ih =>
      intro fuel i timeout hq ht
      obtain ⟨herr, hstate⟩ := hq i (le_refl i) (by omega)
      have hcast : ((n + 1 : Nat) : Int) * interval = (n : Int) * interval + interval := by
        push_cast
        ring
      rw [hcast] at ht
      have hpos : ¬ timeout - interval ≤ 0 := by nlinarith
      rw [show fuel + (n + 1) = (fuel + n) + 1 by omega, waitForContainerApplicationLoop]
      rcases hd : describe i with ⟨app, err⟩
      rw [hd] at herr hstate
      simp only at herr hstate
      subst herr
      simp only [hstate, if_false, hpos]
      rw [ih fuel (i + 1) (timeout - interval) (fun j h1 h2 => hq j (by omega) (by omega))
        (by linarith)]
      rw [hcast]
      congr 1
      · omega
      · ring

/-- With `k` intervals covering the time left and `k` polls of fuel the wait
loop returns after at most `k` further polls. -/
theorem waitForContainerApplicationLoop_bound (unicodeLower : Char → Char) (interval : Int)
    (status : String) (describe : Nat → GetProjectResponse × error) (k : Nat) :
    ∀ (fuel i : Nat) (timeout : Int), 1 ≤ k → k ≤ fuel → timeout ≤ (k : Int) * interval →
      ∃ r polls,
        waitForContainerApplicationLoop unicodeLower interval status describe fuel i timeout
          = some (r, polls) ∧ i < polls ∧ polls ≤ i + k := by
  induction k with
  | zero => intro fuel i timeout hk; omega
  | succ k ih =>
      intro fuel i timeout _ hfuel ht
      obtain ⟨f, rfl⟩ : ∃ f, fuel = f + 1 := ⟨fuel - 1, by omega⟩
      rw [waitForContainerApplicationLoop]
      rcases describe i with ⟨app, _ | e⟩
      · simp only
        split
        · exact ⟨_, _, rfl, by omega, by omega⟩
        · split
          · exact ⟨_, _, rfl, by omega, by omega⟩
          · rename_i hpos
            have hcast : ((k + 1 : Nat) : Int) * interval = (k : Int) * interval + interval := by
              push_cast
              ring
            rw [hcast] at ht
            have hk1 : 1 ≤ k := by
              rcases Nat.eq_zero_or_pos k with hz | hp
              · subst hz
                simp at ht
                omega
              · exact hp
            obtain ⟨r, polls, hrun, h1, h2⟩ := ih f (i + 1) (timeout - interval) hk1
              (by omega) (by linarith)
            exact ⟨r, polls, hrun, by omega, by omega⟩
      · exact ⟨_, _, rfl, by omega, by omega⟩


/-- C17: let `T` be the timeout in effect and `N` the quotient of `T` by a
positive `DefaultIntervalShort`, rounded up. With `N` polls of fuel the wait
returns after at least 1 and at most `N` describe calls; after `n < N` polls
that were still waiting it returns the describe error if poll `n` fails and
nil if poll `n` shows the awaited status up to letter case; and after `N`
polls that were still waiting it returns, at poll `N`, an error that is not
nil: the timeout error built by `GetTimeErrorFromString` from the awaited
status and the last status seen. -/
theorem WaitForContainerApplication_terminates (unicodeLower : Char → Char)
    (DefaultTimeout DefaultIntervalShort : Int) (status : String)
    (describe : Nat → GetProjectResponse × error) (timeout : Int) (fuel : Nat)
    (hI : 0 < DefaultIntervalShort) (hD : 0 < DefaultTimeout)
    (hfuel : ceilDiv (effectiveTimeout DefaultTimeout timeout) DefaultIntervalShort ≤ fuel) :
    (∃ r polls,
      WaitForContainerApplication unicodeLower DefaultTimeout DefaultIntervalShort status
        describe timeout fuel = some (r, polls) ∧
      1 ≤ polls ∧
      polls ≤ ceilDiv (effectiveTimeout DefaultTimeout timeout) DefaultIntervalShort) ∧
    (∀ n, n < ceilDiv (effectiveTimeout DefaultTimeout timeout) DefaultIntervalShort →
      (∀ j, j < n → stillWaiting unicodeLower status (describe j)) →
      (∀ e, (describe n).2 = some e →
        WaitForContainerApplication unicodeLower DefaultTimeout DefaultIntervalShort status
          describe timeout fuel = some (some e, n + 1)) ∧
      ((describe n).2 = none →
        stringsToLower unicodeLower (describe n).1.CurrentState
          = stringsToLower unicodeLower status →
        WaitForContainerApplication unicodeLower DefaultTimeout DefaultIntervalShort status
          describe timeout fuel = some (none, n + 1))) ∧
    ((∀ j, j < ceilDiv (effectiveTimeout DefaultTimeout timeout) DefaultIntervalShort →
        stillWaiting unicodeLower status (describe j)) →
      ∃ e, WaitForContainerApplication unicodeLower DefaultTimeout DefaultIntervalShort status
          describe timeout fuel
          = some (some e,
              ceilDiv (effectiveTimeout DefaultTimeout timeout) DefaultIntervalShort) ∧
        some e = containerApplicationTimeout status
          (describe (ceilDiv (effectiveTimeout DefaultTimeout timeout)
            DefaultIntervalShort - 1)).1.CurrentState ∧
        some e = GetTimeErrorFromString ("Waitting for container application " ++ status
          ++ " is timeout and current status is "
          ++ (describe (ceilDiv (effectiveTimeout DefaultTimeout timeout)
            DefaultIntervalShort - 1)).1.CurrentState ++ ".")) := by
  have hT : 0 < effectiveTimeout DefaultTimeout timeout := by
    unfold effectiveTimeout
    split <;> omega
  obtain ⟨hcover, hleast⟩ :=
    ceilDiv_spec (effectiveTimeout DefaultTimeout timeout) DefaultIntervalShort hI
  generalize hN : ceilDiv (effectiveTimeout DefaultTimeout timeout) DefaultIntervalShort = N
    at hfuel hcover hleast ⊢
  have hN1 : 1 ≤ N := by
    rcases Nat.eq_zero_or_pos N with hz | hp
    · subst hz
      simp at hcover
      omega
    · exact hp
  have hrun : WaitForContainerApplication unicodeLower DefaultTimeout DefaultIntervalShort
      status describe timeout fuel
      = waitForContainerApplicationLoop unicodeLower DefaultIntervalShort status describe fuel 0
          (effectiveTimeout DefaultTimeout timeout) := rfl
  -- time is left before each of the first `N` polls
  have hleft : ∀ n : Nat, n < N →
      0 < effectiveTimeout DefaultTimeout timeout - (n : Int) * DefaultIntervalShort := by
    intro n hn
    by_contra hcon
    have := hleast n (by linarith)
    omega
  have hskip : ∀ n : Nat, n < N →
      (∀ j, j < n → stillWaiting unicodeLower status (describe j)) →
      WaitForContainerApplication unicodeLower DefaultTimeout DefaultIntervalShort status
          describe timeout fuel
        = waitForContainerApplicationLoop unicodeLower DefaultIntervalShort status describe
            (fuel - n - 1 + 1) n
            (effectiveTimeout DefaultTimeout timeout - (n : Int) * DefaultIntervalShort) := by
    intro n hn hq
    have h := waitForContainerApplicationLoop_skip unicodeLower DefaultIntervalShort status
      describe hI n (fuel - n) 0 (effectiveTimeout DefaultTimeout timeout)
      (fun j _ hj => hq j (by omega)) (hleft n hn)
    rw [hrun, show fuel = fuel - n + n by omega, h]
    congr 1 <;> omega
  refine ⟨?_, ?_, ?_⟩
  · obtain ⟨r, polls, h, h1, h2⟩ := waitForContainerApplicationLoop_bound unicodeLower
      DefaultIntervalShort status describe N fuel 0
      (effectiveTimeout DefaultTimeout timeout) hN1 hfuel hcover
    exact ⟨r, polls, by rw [hrun, h], by omega, by omega⟩
  · intro n hn hq
    rw [hskip n hn hq, waitForContainerApplicationLoop]
    constructor
    · intro e he
      rcases hd : describe n with ⟨app, err⟩
      rw [hd] at he
      simp only at he
      subst he
      rfl
    · intro he hstate
      rcases hd : describe n with ⟨app, err⟩
      rw [hd] at he hstate
      simp only at he hstate
      subst he
      simp [hstate]
  · intro hq
    obtain ⟨herr, hstate⟩ := hq (N - 1) (by omega)
    rw [hskip (N - 1) (by omega) (fun j hj => hq j (by omega)),
      waitForContainerApplicationLoop]
    rcases hd : describe (N - 1) with ⟨app, err⟩
    rw [hd] at herr hstate
    simp only at herr hstate
    subst herr
    have hcast : ((N - 1 : Nat) : Int) * DefaultIntervalShort
        = (N : Int) * DefaultIntervalShort - DefaultIntervalShort := by
      rw [Nat.cast_sub hN1]
      push_cast
      ring
    have hover : effectiveTimeout DefaultTimeout timeout
        - ((N - 1 : Nat) : Int) * DefaultIntervalShort - DefaultIntervalShort ≤ 0 := by
      rw [hcast]
      linarith
    simp only [hstate, if_false, hover, if_true]
    refine ⟨GoError.text ("Waitting for container application " ++ status
      ++ " is timeout and current status is " ++ app.CurrentState ++ "."), ?_, rfl, rfl⟩
    have hpolls : N - 1 + 1 = N := by omega
    rw [hpolls]
    rfl

/-- C17 with a timeout of 12 and an interval of 5, which allow `ceil(12 / 5) = 3`
polls: an application that shows the awaited status, in other letter case, at
the third poll ends the wait with nil; an application that never shows it
ends the wait, after the third poll, with the timeout error. -/
theorem WaitForContainerApplication_terminates_witness :
    WaitForContainerApplication (fun ch => ch) 120 5 "running" sampleApplicationPolls 12 3
      = some (none, 2 + 1) ∧
    ∃ e, WaitForContainerApplication (fun ch => ch) 120 5 "stopped" sampleApplicationPolls
        12 3 = some (some e, 3) ∧
      e = GoError.text
        "Waitting for container application stopped is timeout and current status is Running." :=
  ⟨((WaitForContainerApplication_terminates (fun ch => ch) 120 5 "running"
      sampleApplicationPolls 12 3 (by decide) (by decide) (by decide)).2.1 2 (by decide)
      (fun j hj => by
        interval_cases j
        · exact ⟨rfl, by decide⟩
        · exact ⟨rfl, by decide⟩)).2 rfl (by decide),
   match (WaitForContainerApplication_terminates (fun ch => ch) 120 5 "stopped"
      sampleApplicationPolls 12 3 (by decide) (by decide) (by decide)).2.2
      (fun j hj => by
        have hj3 : j < 3 := hj
        interval_cases j
        · exact ⟨rfl, by decide⟩
        · exact ⟨rfl, by decide⟩
        · exact ⟨rfl, by decide⟩) with
   | ⟨e, hrun, _, htext⟩ => ⟨e, hrun, Option.some.inj htext⟩⟩


/-- C18: let the ID split into a cluster and the addon name, and let the addon
instance, the addons metadata and the addon status be described without
error. If the metadata has an entry for the addon name, the function returns
that entry with `Version`, `Status`, `CanUpgrade` and `ErrMessage` taken from
the status and `Config` taken from the instance, all other fields being those
of the entry; if the metadata has no such entry, it returns the not-found error. -/
theorem DescribeCsKubernetesAddon_updates_fields (c : Classifiers) (api : CsAddonApi)
    (DescribeClusterAddonsVersion : Nat → Option GoMap × error)
    (decodeComponent : Json → Option Component) (budget : Nat) (id : String)
    (parts : List String) (addonInstance addonStatus : Component)
    (addonsMetadata : List (String × Component))
    (hparse : ParseResourceId id 2 = (parts, none))
    (hinstance : DescribeCsKubernetesAddonInstance c api budget (parts.getD 1 "")
      = Go.ret (some addonInstance, none))
    (hmetadata : DescribeClusterAddonsMetadata c DescribeClusterAddonsVersion decodeComponent
      budget = Go.ret (some addonsMetadata, none))
    (hstatus : DescribeCsKubernetesAddonStatus c api budget (parts.getD 1 "")
      = Go.ret (some addonStatus, none)) :
    (∀ addon, addonsMetadata.lookup (parts.getD 1 "") = some addon →
      ∃ r, DescribeCsKubernetesAddon c api DescribeClusterAddonsVersion decodeComponent budget
          id = Go.ret (some r, none) ∧
        r.Version = addonStatus.Version ∧ r.Status = addonStatus.Status ∧
        r.CanUpgrade = addonStatus.CanUpgrade ∧ r.ErrMessage = addonStatus.ErrMessage ∧
        r.Config = addonInstance.Config ∧
        r.ComponentName = addon.ComponentName ∧ r.NextVersion = addon.NextVersion ∧
        r.Required = addon.Required ∧ r.ConfigSchema = addon.ConfigSchema ∧
        r.Error = addon.Error ∧ r.SupportedActions = addon.SupportedActions) ∧
    (addonsMetadata.lookup (parts.getD 1 "") = none →
      DescribeCsKubernetesAddon c api DescribeClusterAddonsVersion decodeComponent budget id
        = Go.ret (none, WrapErrorf (NotFoundErr "alicloud_cs_kubernetes_addon" id)
            MsgTemplate.ResourceNotfound)) := by
  constructor
  · intro addon hentry
    refine ⟨updateSomeFields addon addonStatus addonInstance, ?_, rfl, rfl, rfl, rfl, rfl,
      rfl, rfl, rfl, rfl, rfl, rfl⟩
    simp only [DescribeCsKubernetesAddon, hparse, hinstance, hmetadata, hstatus,
      Option.getD_some, hentry]
  · intro hentry
    simp only [DescribeCsKubernetesAddon, hparse, hinstance, hmetadata, hstatus,
      Option.getD_some, hentry]

/-- C18 on the addon `nginx` of cluster `c-1`: the metadata entry comes back
with the version, status and upgrade flag of the status and the configuration
of the instance, and keeps its name, next version and required flag. -/
theorem DescribeCsKubernetesAddon_updates_fields_witness :
    ∃ r, DescribeCsKubernetesAddon sampleClassifiers sampleAddonApiRunning
        sampleAddonsVersionApi sampleDecodeComponent 3 "c-1:nginx" = Go.ret (some r, none) ∧
      r.Version = "1.2" ∧ r.Status = "running" ∧ r.CanUpgrade = true ∧ r.ErrMessage = "" ∧
      r.Config = "cfg" ∧ r.ComponentName = "nginx" ∧ r.NextVersion = "1.3" ∧
      r.Required = true ∧ r.ConfigSchema = "" ∧ r.Error = Json.null ∧
      r.SupportedActions = [] :=
  (DescribeCsKubernetesAddon_updates_fields sampleClassifiers sampleAddonApiRunning
    sampleAddonsVersionApi sampleDecodeComponent 3 "c-1:nginx" ["c-1", "nginx"]
    { ComponentName := "nginx", Version := "1.1", Status := "active", Config := "cfg" }
    { Version := "1.2", CanUpgrade := true, Status := "running" }
    [("nginx", { ComponentName := "nginx", NextVersion := "1.3", Required := true })]
    rfl rfl rfl rfl).1
    { ComponentName := "nginx", NextVersion := "1.3", Required := true } rfl


/-- A string that starts with `p ++ q` starts with `p`. -/
theorem isPrefixOf_of_append (p q s : List Char) (h : (p ++ q).isPrefixOf s = true) :
    p.isPrefixOf s = true := by
  rw [List.isPrefixOf_iff_prefix] at h ⊢
  exact (List.prefix_append p q).trans h

/-- Over the three prefixes of the sweeper the skip loop ends with `skip` false
exactly when the lower-cased name starts with `tf-`. -/
theorem sweepSkipLoop_prefixes (unicodeLower : Char → Char) (name : String) :
    sweepSkipLoop unicodeLower name sweepPrefixes true
      = !stringsStartsWith (stringsToLower unicodeLower name) "tf-" := by
  have h1 : stringsToLower unicodeLower "tf-" = "tf-" := rfl
  have h2 : stringsToLower unicodeLower "tf-rd" = "tf-rd" := rfl
  have h3 : stringsToLower unicodeLower "tf-testacc" = "tf-testacc" := rfl
  simp only [sweepPrefixes, sweepSkipLoop, h1, h2, h3]
  by_cases hp : stringsStartsWith (stringsToLower unicodeLower name) "tf-" = true
  · simp only [hp, if_true]
    split <;> split <;> simp
  · have hp' : stringsStartsWith (stringsToLower unicodeLower name) "tf-" = false := by
      simpa using hp
    have hrd : stringsStartsWith (stringsToLower unicodeLower name) "tf-rd" = false := by
      by_contra hcon
      have hcon' : stringsStartsWith (stringsToLower unicodeLower name) "tf-rd" = true := by
        simpa using hcon
      exact hp (isPrefixOf_of_append "tf-".data "rd".data _ hcon')
    have hacc : stringsStartsWith (stringsToLower unicodeLower name) "tf-testacc" = false := by
      by_contra hcon
      have hcon' : stringsStartsWith (stringsToLower unicodeLower name) "tf-testacc"
          = true := by
        simpa using hcon
      exact hp (isPrefixOf_of_append "tf-".data "testacc".data _ hcon')
    simp [hp', hrd, hacc]

/-- On a group whose name, status and ID are strings the loop body appends the
ID exactly when the group is one that is meant to be deleted. -/
theorem sweepGroupItem_typed (sweepAll : Bool) (unicodeLower : Char → Char) (item : GoMap)
    (groupIds : List String) (defaultGroupId name status id : String)
    (hname : Json.index item "Name" = Json.str name)
    (hstatus : Json.index item "Status" = Json.str status)
    (hid : Json.index item "Id" = Json.str id) :
    ∃ dflt, sweepGroupItem sweepAll unicodeLower (Json.obj item) (groupIds, defaultGroupId)
      = Go.ret (groupIds ++ (if sweepSelected sweepAll unicodeLower item = true
          then [stringField item "Id"] else []), dflt) := by
  have hn : stringField item "Name" = name := by simp [stringField, hname]
  have hs : stringField item "Status" = status := by simp [stringField, hstatus]
  have hi : stringField item "Id" = id := by simp [stringField, hid]
  simp only [sweepGroupItem, Json.asMap, bind, Go.bind, pure, hname, hstatus, hid,
    Json.asString, sweepSelected, hn, hs, hi, sweepSkipLoop_prefixes]
  by_cases h1 : name = "default"
  · exact ⟨id, by simp [h1]⟩
  · by_cases h2 : status = "OK"
    · cases sweepAll
      · by_cases h3 : stringsStartsWith (stringsToLower unicodeLower name) "tf-" = true
        · exact ⟨defaultGroupId, by simp [h1, h2, h3]⟩
        · exact ⟨defaultGroupId, by simp [h1, h2, h3]⟩
      · exact ⟨defaultGroupId, by simp [h1, h2]⟩
    · exact ⟨defaultGroupId, by simp [h1, h2]⟩


/-- On groups whose name, status and ID are strings the item loop appends the
IDs of the groups that are meant to be deleted, in their order. -/
theorem sweepGroupItems_typed (sweepAll : Bool) (unicodeLower : Char → Char)
    (items : List GoMap)
    (htyped : ∀ item ∈ items, ∃ name status id, Json.index item "Name" = Json.str name ∧
      Json.index item "Status" = Json.str status ∧ Json.index item "Id" = Json.str id) :
    ∀ (groupIds : List String) (defaultGroupId : String),
      ∃ dflt, sweepGroupItems sweepAll unicodeLower (items.map Json.obj)
          (groupIds, defaultGroupId)
        = Go.ret (groupIds ++ (items.filter (sweepSelected sweepAll unicodeLower)).map
            (fun item => stringField item "Id"), dflt) := by
  induction items with
  | nil =>
      intro groupIds defaultGroupId
      exact ⟨defaultGroupId, by simp [sweepGroupItems]⟩
  | cons item rest ih =>
      intro groupIds defaultGroupId
      obtain ⟨name, status, id, hname, hstatus, hid⟩ := htyped item (List.mem_cons_self _ _)
      obtain ⟨d1, h1⟩ := sweepGroupItem_typed sweepAll unicodeLower item groupIds
        defaultGroupId name status id hname hstatus hid
      obtain ⟨d2, h2⟩ := ih (fun it hit => htyped it (List.mem_cons_of_mem _ hit))
        (groupIds ++ (if sweepSelected sweepAll unicodeLower item = true
          then [stringField item "Id"] else [])) d1
      refine ⟨d2, ?_⟩
      simp only [List.map_cons, sweepGroupItems, h1, h2]
      by_cases hsel : sweepSelected sweepAll unicodeLower item = true
      · simp [hsel]
      · simp [hsel]

/-- The listing loop of the sweeper entered at page `j` with `m` more pages to
come selects the groups of pages `j .. j+m` that are meant to be deleted. -/
theorem sweepListGroups_pages (sweepAll : Bool) (unicodeLower : Char → Char)
    (RpcPost : Nat → GoMap → Option GoMap × error) (pageSize k : Nat)
    (pages : Nat → List GoMap)
    (hpages : ∀ j n, 1 ≤ j → j ≤ k → ∃ body groups,
      RpcPost n (sweepListRequest pageSize j) = (some body, none) ∧
      body.lookup "ResourceGroups" = some (Json.obj groups) ∧
      groups.lookup "ResourceGroup" = some (Json.arr ((pages j).map Json.obj)))
    (hfull : ∀ j, 1 ≤ j → j < k → pageSize ≤ (pages j).length)
    (hlast : (pages k).length < pageSize)
    (htyped : ∀ j, 1 ≤ j → j ≤ k → ∀ item ∈ pages j, ∃ name status id,
      Json.index item "Name" = Json.str name ∧ Json.index item "Status" = Json.str status ∧
      Json.index item "Id" = Json.str id)
    (m : Nat) :
    ∀ (j fuel call : Nat) (groupIds : List String) (defaultGroupId : String),
      1 ≤ j → j + m = k → m < fuel →
      ∃ dflt, sweepListGroups sweepAll unicodeLower RpcPost pageSize fuel
          (sweepListRequest pageSize j) call (groupIds, defaultGroupId)
        = some (SweepListing.listed
            (groupIds ++ ((List.range (m + 1)).flatMap
              (fun i => (pages (j + i)).filter (sweepSelected sweepAll unicodeLower))).map
                (fun item => stringField item "Id")) dflt) := by
  induction m with
  | zero =>
      intro j fuel call groupIds defaultGroupId hj hjk hfuel
      have hjk' : j = k := by omega
      subst hjk'
      obtain ⟨f, rfl⟩ : ∃ f, fuel = f + 1 := ⟨fuel - 1, by omega⟩
      obtain ⟨body, groups, hcall, hgroups, hgroup⟩ := hpages j call hj (le_refl j)
      obtain ⟨dflt, hitems⟩ := sweepGroupItems_typed sweepAll unicodeLower (pages j)
        (htyped j hj (le_refl j)) groupIds defaultGroupId
      refine ⟨dflt, ?_⟩
      have hpath : jsonpathGet2 (some body) "ResourceGroups" "ResourceGroup"
          = some (Json.arr ((pages j).map Json.obj)) := by
        simp [jsonpathGet2, hgroups, hgroup]
      rw [sweepListGroups]
      simp only [hcall, hpath, sliceOrNil, hitems, List.length_map, hlast, if_true]
      simp [List.range_succ]
  | succ m ih =>
      intro j fuel call groupIds defaultGroupId hj hjk hfuel
      obtain ⟨f, rfl⟩ : ∃ f, fuel = f + 1 := ⟨fuel - 1, by omega⟩
      obtain ⟨body, groups, hcall, hgroups, hgroup⟩ := hpages j call hj (by omega)
      obtain ⟨d1, hitems⟩ := sweepGroupItems_typed sweepAll unicodeLower (pages j)
        (htyped j hj (by omega)) groupIds defaultGroupId
      have hnot : ¬ (pages j).length < pageSize := by
        have := hfull j hj (by omega)
        omega
      obtain ⟨dflt, hrest⟩ := ih (j + 1) f (call + 1)
        (groupIds ++ ((pages j).filter (sweepSelected sweepAll unicodeLower)).map
          (fun item => stringField item "Id")) d1 (by omega) (by omega) (by omega)
      refine ⟨dflt, ?_⟩
      have hpath : jsonpathGet2 (some body) "ResourceGroups" "ResourceGroup"
          = some (Json.arr ((pages j).map Json.obj)) := by
        simp [jsonpathGet2, hgroups, hgroup]
      have hassign : mapAssign (sweepListRequest pageSize j) "PageNumber"
          (Json.int ((j : Int) + 1)) = sweepListRequest pageSize ((j + 1 : Nat) : Int) := by
        simp [sweepListRequest, mapAssign]
      have hnum : Json.index (sweepListRequest pageSize j) "PageNumber" = Json.int j := by
        simp [sweepListRequest, Json.index, List.lookup]
      rw [sweepListGroups]
      simp only [hcall, hpath, sliceOrNil, hitems, List.length_map, hnot, if_false, hnum,
        Json.asInt, hassign, hrest]
      have hobj : (List.range (m + 1 + 1)).flatMap
            (fun i => (pages (j + i)).filter (sweepSelected sweepAll unicodeLower))
          = (pages j).filter (sweepSelected sweepAll unicodeLower) ++
            (List.range (m + 1)).flatMap
              (fun i => (pages (j + 1 + i)).filter (sweepSelected sweepAll unicodeLower)) := by
        rw [List.range_succ_eq_map (m + 1)]
        simp [List.flatMap_map, Function.comp, Nat.add_assoc, Nat.add_comm 1]
      rw [hobj]
      simp [List.append_assoc]


/-- C19: when pages `1 .. k` of resource groups are served, page `k` being the
first short one, and the groups carry string names, statuses and IDs, the
groups that the sweeper selects for deletion are, in listing order, exactly the
listed groups that are not named `default`, have status `OK` and, unless
`sweepAll()` holds, have a lower-cased name starting with `tf-`. -/
theorem sweepResourceGroups_selection (sweepAll : Bool) (unicodeLower : Char → Char)
    (RpcPost : Nat → GoMap → Option GoMap × error) (pageSize k fuel : Nat)
    (pages : Nat → List GoMap) (hk : 1 ≤ k) (hfuel : k ≤ fuel)
    (hpages : ∀ j n, 1 ≤ j → j ≤ k → ∃ body groups,
      RpcPost n (sweepListRequest pageSize j) = (some body, none) ∧
      body.lookup "ResourceGroups" = some (Json.obj groups) ∧
      groups.lookup "ResourceGroup" = some (Json.arr ((pages j).map Json.obj)))
    (hfull : ∀ j, 1 ≤ j → j < k → pageSize ≤ (pages j).length)
    (hlast : (pages k).length < pageSize)
    (htyped : ∀ j, 1 ≤ j → j ≤ k → ∀ item ∈ pages j, ∃ name status id,
      Json.index item "Name" = Json.str name ∧ Json.index item "Status" = Json.str status ∧
      Json.index item "Id" = Json.str id) :
    (∃ dflt, sweepListGroups sweepAll unicodeLower RpcPost pageSize fuel
        (sweepListRequest pageSize 1) 0 ([], "")
      = some (SweepListing.listed
          (((List.range k).flatMap
            (fun i => (pages (i + 1)).filter (sweepSelected sweepAll unicodeLower))).map
              (fun item => stringField item "Id")) dflt)) ∧
    (∀ item, sweepSelected sweepAll unicodeLower item = true ↔
      stringField item "Name" ≠ "default" ∧ stringField item "Status" = "OK" ∧
      (sweepAll = true ∨
        "tf-".data <+: (stringsToLower unicodeLower (stringField item "Name")).data)) := by
  constructor
  · obtain ⟨m, rfl⟩ : ∃ m, k = m + 1 := ⟨k - 1, by omega⟩
    obtain ⟨dflt, hrun⟩ := sweepListGroups_pages sweepAll unicodeLower RpcPost pageSize (m + 1)
      pages hpages hfull hlast htyped m 1 fuel 0 [] "" (le_refl 1) (by omega) (by omega)
    refine ⟨dflt, ?_⟩
    have hstart : sweepListRequest pageSize 1 = sweepListRequest pageSize ((1 : Nat) : Int) := rfl
    rw [hstart, hrun]
    simp [Nat.add_comm 1]
  · intro item
    simp [sweepSelected, stringsStartsWith, List.isPrefixOf_iff_prefix, and_assoc]

/-- C19 on an account with four groups and `sweepAll()` false: only the group
`TF-TestAcc1`, whose ID is `rg-2`, is selected. -/
theorem sweepResourceGroups_selection_witness :
    ∃ dflt, sweepListGroups false (fun ch => ch) sampleGroupsApi 50 3
        (sweepListRequest 50 1) 0 ([], "")
      = some (SweepListing.listed ["rg-2"] dflt) :=
  (sweepResourceGroups_selection false (fun ch => ch) sampleGroupsApi 50 1 3 sampleGroupPages
    (by decide) (by decide)
    (fun j n h1 h2 => by
      have hj : j = 1 := by omega
      subst hj
      exact ⟨_, _, rfl, rfl, rfl⟩)
    (fun j h1 h2 => by omega)
    (by decide)
    (fun j h1 h2 item hitem => by
      have hj : j = 1 := by omega
      subst hj
      simp [sampleGroupPages] at hitem
      rcases hitem with rfl | rfl | rfl | rfl
      · exact ⟨_, _, _, rfl, rfl, rfl⟩
      · exact ⟨_, _, _, rfl, rfl, rfl⟩
      · exact ⟨_, _, _, rfl, rfl, rfl⟩
      · exact ⟨_, _, _, rfl, rfl, rfl⟩)).1


/-- The move loop over resources that are maps, entered at index `i` with the
batch `resources` of at most 10 resources left by the previous round: the
requests carry batches of 1 to 10 resources which, taken in order, are the
resources not yet sent followed by the remaining resources of the list. -/
theorem moveResourcesLoop_batches (defaultGroupId : String) (total : Nat)
    (maps : List GoMap) :
    ∀ (i : Nat) (resources : List Json), maps ≠ [] → i + maps.length = total →
      resources.length ≤ 10 →
      ∃ batches : List (List Json),
        moveResourcesLoop defaultGroupId total i (maps.map Json.obj) resources
          = (batches.map (moveResourcesRequest defaultGroupId), Go.ret ()) ∧
        (∀ b ∈ batches, 1 ≤ b.length ∧ b.length ≤ 10) ∧
        batches.flatten
          = (if resources.length ≥ 10 then [] else resources) ++ maps.map movedResource ∧
        batches.length
          = ((if resources.length ≥ 10 then [] else resources).length + maps.length + 9)
              / 10 := by
  induction maps with
  | nil => intro i resources h; exact absurd rfl h
  | cons r rest ih =>
      intro i resources _ hi hlen
      simp only [List.length_cons] at hi
      -- the batch after this round
      generalize hnext : (if resources.length ≥ 10 then [movedResource r]
        else resources ++ [movedResource r]) = next
      have hnextEq : next
          = (if resources.length ≥ 10 then [] else resources) ++ [movedResource r] := by
        rw [← hnext]
        split <;> simp
      have hpend : (if resources.length ≥ 10 then [] else resources).length < 10 := by
        split
        · simp
        · omega
      have hstep : moveResourcesLoop defaultGroupId total i
            ((r :: rest).map Json.obj) resources
          = if next.length ≠ 10 ∧ i ≠ total - 1 then
              moveResourcesLoop defaultGroupId total (i + 1) (rest.map Json.obj) next
            else
              (moveResourcesRequest defaultGroupId next ::
                (moveResourcesLoop defaultGroupId total (i + 1) (rest.map Json.obj) next).1,
               (moveResourcesLoop defaultGroupId total (i + 1) (rest.map Json.obj) next).2) := by
        simp only [List.map_cons, moveResourcesLoop, Json.asMap, hnext]
      generalize (if resources.length ≥ 10 then [] else resources) = pend at hnextEq hpend ⊢
      have hnextLen : next.length = pend.length + 1 := by
        rw [hnextEq]
        simp
      rcases rest with _ | ⟨r2, rest2⟩
      · -- the last resource: the batch is sent
        have hlast : i = total - 1 := by
          simp only [List.length_nil] at hi
          omega
        refine ⟨[next], ?_, ?_, ?_, ?_⟩
        · rw [hstep, if_neg (fun h => h.2 hlast)]
          rfl
        · intro b hb
          simp only [List.mem_singleton] at hb
          subst hb
          omega
        · rw [hnextEq]
          simp
        · simp only [List.length_singleton, List.length_cons, List.length_nil]
          omega
      · have hnotlast : i ≠ total - 1 := by
          simp only [List.length_cons] at hi
          omega
        obtain ⟨batches, hrun, hsize, hcat, hcount⟩ := ih (i + 1) next (by simp)
          (by simp only [List.length_cons] at hi ⊢; omega) (by omega)
        by_cases hfull : next.length = 10
        · -- a full batch is sent and the next round starts a new one
          have hpn : (if next.length ≥ 10 then [] else next) = [] := by
            rw [if_pos (by omega)]
          rw [hpn] at hcat hcount
          refine ⟨next :: batches, ?_, ?_, ?_, ?_⟩
          · rw [hstep, if_neg (fun h => h.1 hfull), hrun]
            rfl
          · intro b hb
            rcases List.mem_cons.mp hb with h | h
            · subst h
              omega
            · exact hsize b h
          · rw [List.flatten_cons, hcat, hnextEq]
            simp
          · simp only [List.length_cons, List.length_nil] at hcount ⊢
            omega
        · have hpn : (if next.length ≥ 10 then [] else next) = next := by
            rw [if_neg (by omega)]
          rw [hpn] at hcat hcount
          refine ⟨batches, ?_, hsize, ?_, ?_⟩
          · rw [hstep, if_pos ⟨hfull, hnotlast⟩, hrun]
          · rw [hcat, hnextEq]
            simp
          · simp only [List.length_cons] at hcount ⊢
            omega

/-- Looking a key up after `delete(m, k)`: the deleted key is gone and every
other key keeps its value. -/
theorem lookup_mapDelete (m : GoMap) (k key : String) :
    (mapDelete m k).lookup key = if key = k then none else m.lookup key := by
  induction m with
  | nil => simp [mapDelete]
  | cons entry rest ih =>
      obtain ⟨k', v⟩ := entry
      unfold mapDelete at ih ⊢
      by_cases hk : k' = k
      · subst hk
        by_cases hkey : key = k'
        · simp [List.filter, hkey] at ih ⊢
          simpa [hkey] using ih
        · have hne : (key == k') = false := by simpa using hkey
          simp only [List.filter, ne_eq, not_true_eq_false, decide_False, List.lookup, hne]
          simpa [hkey] using ih
      · by_cases hkey : key = k'
        · subst hkey
          simp [List.filter, hk, List.lookup]
        · have hne : (key == k') = false := by simpa using hkey
          simp only [List.filter, ne_eq, hk, not_false_eq_true, decide_True, List.lookup, hne]
          exact ih

/-- C20: for every list of `n` resources of a group the sweeper makes
`ceil(n / 10)` `MoveResources` requests; each request names the default group
and carries, as its `Resources` entry, a batch of 1 to 10 resources; the
batches taken in order make up the whole list in its order; and every
resource is sent as it was listed except that its `CreateDate` and
`ResourceGroupId` entries are deleted. -/
theorem sweepMoveResources_partition (defaultGroupId : String) (maps : List GoMap) :
    (∃ batches : List (List Json),
      sweepMoveResources defaultGroupId (maps.map Json.obj)
        = (batches.map (moveResourcesRequest defaultGroupId), Go.ret ()) ∧
      (sweepMoveResources defaultGroupId (maps.map Json.obj)).1.map
          (fun request => Json.index request "Resources") = batches.map Json.arr ∧
      (sweepMoveResources defaultGroupId (maps.map Json.obj)).1.map
          (fun request => Json.index request "ResourceGroupId")
        = batches.map (fun _ => Json.str defaultGroupId) ∧
      (sweepMoveResources defaultGroupId (maps.map Json.obj)).1.length
        = (maps.length + 9) / 10 ∧
      (∀ b ∈ batches, 1 ≤ b.length ∧ b.length ≤ 10) ∧
      batches.flatten = maps.map movedResource ∧
      batches.length = (maps.length + 9) / 10) ∧
    (∀ r : GoMap, ∃ sent, movedResource r = Json.obj sent ∧
      sent.lookup "CreateDate" = none ∧ sent.lookup "ResourceGroupId" = none ∧
      ∀ key, key ≠ "CreateDate" → key ≠ "ResourceGroupId" →
        sent.lookup key = r.lookup key) := by
  constructor
  · have hmain : ∃ batches : List (List Json),
        sweepMoveResources defaultGroupId (maps.map Json.obj)
          = (batches.map (moveResourcesRequest defaultGroupId), Go.ret ()) ∧
        (∀ b ∈ batches, 1 ≤ b.length ∧ b.length ≤ 10) ∧
        batches.flatten = maps.map movedResource ∧
        batches.length = (maps.length + 9) / 10 := by
      rcases maps with _ | ⟨r, rest⟩
      · exact ⟨[], by simp [sweepMoveResources, moveResourcesLoop], by simp, by simp, by simp⟩
      · obtain ⟨batches, hrun, hsize, hcat, hcount⟩ := moveResourcesLoop_batches
          defaultGroupId (r :: rest).length (r :: rest) 0 [] (by simp) (by simp) (by simp)
        refine ⟨batches, ?_, hsize, ?_, ?_⟩
        · simp only [sweepMoveResources, List.length_map]
          exact hrun
        · simpa using hcat
        · simpa using hcount
    obtain ⟨batches, hrun, hsize, hcat, hcount⟩ := hmain
    refine ⟨batches, hrun, ?_, ?_, ?_, hsize, hcat, hcount⟩
    · rw [hrun]
      simp only [List.map_map]
      exact List.map_congr_left (fun b _ => by
        simp [moveResourcesRequest, Json.index, List.lookup])
    · rw [hrun]
      simp only [List.map_map]
      exact List.map_congr_left (fun b _ => by
        simp [moveResourcesRequest, Json.index, List.lookup])
    · rw [hrun]
      simpa using hcount
  · intro r
    refine ⟨mapDelete (mapDelete r "CreateDate") "ResourceGroupId", rfl, ?_, ?_, ?_⟩
    · rw [lookup_mapDelete, lookup_mapDelete]
      simp
    · rw [lookup_mapDelete]
      simp
    · intro key h1 h2
      rw [lookup_mapDelete, lookup_mapDelete]
      simp [h1, h2]

/-- C20 on a group of twelve resources: they are moved to the default group in
`ceil(12 / 10) = 2` requests, the first with the resources 0 to 9 and the
second with the resources 10 and 11, each resource with its ID alone. -/
theorem sweepMoveResources_partition_witness :
    (∃ batches : List (List Json),
      sweepMoveResources "rg-1" (sampleResources.map Json.obj)
        = (batches.map (moveResourcesRequest "rg-1"), Go.ret ()) ∧
      (sweepMoveResources "rg-1" (sampleResources.map Json.obj)).1.map
          (fun request => Json.index request "Resources") = batches.map Json.arr ∧
      (sweepMoveResources "rg-1" (sampleResources.map Json.obj)).1.map
          (fun request => Json.index request "ResourceGroupId")
        = batches.map (fun _ => Json.str "rg-1") ∧
      (sweepMoveResources "rg-1" (sampleResources.map Json.obj)).1.length
        = (sampleResources.length + 9) / 10 ∧
      (∀ b ∈ batches, 1 ≤ b.length ∧ b.length ≤ 10) ∧
      batches.flatten = sampleResources.map movedResource ∧
      batches.length = (sampleResources.length + 9) / 10) ∧
    (sweepMoveResources "rg-1" (sampleResources.map Json.obj)).1.map
        (fun request => Json.index request "Resources")
      = [Json.arr ((List.range 10).map fun i => Json.obj [("ResourceId", Json.int i)]),
         Json.arr [Json.obj [("ResourceId", Json.int 10)],
                   Json.obj [("ResourceId", Json.int 11)]]] :=
  ⟨(sweepMoveResources_partition "rg-1" sampleResources).1, rfl⟩

/-- On an item that is a map the loop body keeps the item exactly when it
passes the filter. -/
theorem chartRepositoryKept_obj (a : ChartRepositoriesArgs) (item : GoMap) :
    chartRepositoryKept a (Json.obj item)
      = Go.ret (if chartRepositoryPasses a item = true then some item else none) := by
  obtain ⟨instanceId, regionId, ids, nameRegex?⟩ := a
  simp only [chartRepositoryKept, Json.asMap, bind, Go.bind, pure, chartRepositoryPasses,
    chartRepositoryId]
  have hlen : (idsMapOf ids).length > 0 ↔ ¬ idsMapOf ids = [] := by
    rw [gt_iff_lt, List.length_pos]
  rcases nameRegex? with _ | nameRegex
  · by_cases hempty : idsMapOf ids = []
    · simp [hempty]
    · by_cases hmem : Sprint3 (Json.index item "InstanceId")
          (Json.index item "RepoNamespaceName") (Json.index item "RepoName") ∈ idsMapOf ids
      · simp [hlen, hempty, hmem]
      · simp [hlen, hempty, hmem]
  · rcases hm : nameRegex (Json.index item "RepoName").sprint with _ | _
    · simp [hm]
    · by_cases hempty : idsMapOf ids = []
      · simp [hm, hempty]
      · by_cases hmem : Sprint3 (Json.index item "InstanceId")
            (Json.index item "RepoNamespaceName") (Json.index item "RepoName") ∈ idsMapOf ids
        · simp [hm, hlen, hempty, hmem]
        · simp [hm, hlen, hempty, hmem]

/-- On items that are maps the append loop adds the items that pass the
filter, in their order. -/
theorem chartRepositoriesAppend_objs (a : ChartRepositoriesArgs) (items objects : List GoMap) :
    chartRepositoriesAppend a (items.map Json.obj) objects
      = Go.ret (objects ++ items.filter (chartRepositoryPasses a)) := by
  induction items generalizing objects with
  | nil => simp [chartRepositoriesAppend]
  | cons item rest ih =>
      simp only [List.map_cons, chartRepositoriesAppend, chartRepositoryKept_obj]
      by_cases hp : chartRepositoryPasses a item = true
      · simp [hp, ih]
      · simp [hp, ih]

/-- The chart repository loop standing at call `call` with `m` more responses
to come, each served at the first attempt, reads the responses `call .. call+m`
and appends their items that pass the filter. -/
theorem chartRepositoriesLoop_pages (c : Classifiers)
    (RpcPost : Nat → GoMap → Option GoMap × error) (budget pageSize : Nat)
    (a : ChartRepositoriesArgs) (k : Nat) (pages : Nat → List GoMap)
    (hb : 0 < budget)
    (hpages : ∀ n, n < k → ∃ body,
      RpcPost n (chartRepositoriesRequest a) = (some body, none) ∧
      body.lookup "Repositories" = some (Json.arr ((pages n).map Json.obj)))
    (hfull : ∀ n, n + 1 < k → pageSize ≤ (pages n).length)
    (hlast : ∀ n, n + 1 = k → (pages n).length < pageSize)
    (m : Nat) :
    ∀ (fuel pageNo call : Nat) (objects sent : List GoMap), call + m + 1 = k → m < fuel →
      chartRepositoriesLoop c RpcPost budget pageSize a (chartRepositoriesRequest a) fuel
          pageNo call objects sent =
        ⟨sent ++ List.replicate (m + 1) (chartRepositoriesRequest a),
          some (.ret (some (chartRepositoriesOutput
            (objects ++ (List.range (m + 1)).flatMap
              (fun i => (pages (call + i)).filter (chartRepositoryPasses a)))), none))⟩ := by
  induction m with
  | zero =>
      intro fuel pageNo call objects sent hk hfuel
      obtain ⟨f, rfl⟩ : ∃ f, fuel = f + 1 := ⟨fuel - 1, by omega⟩
      obtain ⟨body, hcall, hrepos⟩ := hpages call (by omega)
      have hretry := Retry_first_success c.NeedRetry
        (fun n => RpcPost n (chartRepositoriesRequest a)) budget call none none (some body)
        hb hcall
      have hshort := hlast call (by omega)
      rw [chartRepositoriesLoop]
      simp only [hretry, Option.getD_some, hrepos, sliceOrNil, chartRepositoriesAppend_objs,
        List.length_map, hshort, if_true, Nat.add_sub_cancel_left]
      simp [List.range_succ]
  | succ m ih =>
      intro fuel pageNo call objects sent hk hfuel
      obtain ⟨f, rfl⟩ : ∃ f, fuel = f + 1 := ⟨fuel - 1, by omega⟩
      obtain ⟨body, hcall, hrepos⟩ := hpages call (by omega)
      have hretry := Retry_first_success c.NeedRetry
        (fun n => RpcPost n (chartRepositoriesRequest a)) budget call none none (some body)
        hb hcall
      have hnot : ¬ (pages call).length < pageSize := by
        have := hfull call (by omega)
        omega
      rw [chartRepositoriesLoop]
      simp only [hretry, Option.getD_some, hrepos, sliceOrNil, chartRepositoriesAppend_objs,
        List.length_map, hnot, if_false, Nat.add_sub_cancel_left]
      rw [ih f (pageNo + 1) (call + 1) _ _ (by omega) (by omega)]
      have hobj : (List.range (m + 1 + 1)).flatMap
            (fun i => (pages (call + i)).filter (chartRepositoryPasses a))
          = (pages call).filter (chartRepositoryPasses a) ++
            (List.range (m + 1)).flatMap
              (fun i => (pages (call + 1 + i)).filter (chartRepositoryPasses a)) := by
        rw [List.range_succ_eq_map (m + 1)]
        simp [List.flatMap_map, Function.comp, Nat.add_assoc, Nat.add_comm 1]
      rw [hobj]
      simp [List.append_assoc, List.replicate_succ]


/-- C21: when the responses read by the page loop are served at the first
attempt and hold repositories that are maps, the read sets `repositories` to
the mappings of the listed items that pass the filter, in listing order: an
item passes exactly when `name_regex` is unset or matches its `RepoName` and
`ids` names no repository or names the item by its composite ID. The outputs
`ids` and `names` are as long as `repositories`; `ids` holds the composite IDs
of the kept items, which are the `id` entries of `repositories`, and `names`
holds the `repo_name` entries of `repositories`, position by position. -/
theorem chartRepositories_output_filter (c : Classifiers)
    (RpcPost : Nat → GoMap → Option GoMap × error) (budget pageSize : Nat)
    (a : ChartRepositoriesArgs) (k fuel : Nat) (pages : Nat → List GoMap)
    (hk : 1 ≤ k) (hfuel : k ≤ fuel) (hb : 0 < budget)
    (hpages : ∀ n, n < k → ∃ body,
      RpcPost n (chartRepositoriesRequest a) = (some body, none) ∧
      body.lookup "Repositories" = some (Json.arr ((pages n).map Json.obj)))
    (hfull : ∀ n, n + 1 < k → pageSize ≤ (pages n).length)
    (hlast : ∀ n, n + 1 = k → (pages n).length < pageSize) :
    (∃ out, (dataSourceAlicloudCrChartRepositoriesRead c RpcPost budget pageSize a fuel).out
        = some (Go.ret (some out, none)) ∧
      out.repositories = ((List.range k).flatMap
        (fun n => (pages n).filter (chartRepositoryPasses a))).map chartRepositoryMapping ∧
      out.ids.length = out.repositories.length ∧
      out.names.length = out.repositories.length ∧
      out.ids = out.repositories.map (fun mapping => (Json.index mapping "id").sprint) ∧
      out.ids = ((List.range k).flatMap
        (fun n => (pages n).filter (chartRepositoryPasses a))).map chartRepositoryId ∧
      out.names = out.repositories.map (fun mapping => Json.index mapping "repo_name")) ∧
    (∀ item, chartRepositoryPasses a item = true ↔
      ((∀ nameRegex, a.name_regex = some nameRegex →
          nameRegex (Json.index item "RepoName").sprint = true) ∧
        (idsMapOf a.ids = [] ∨ chartRepositoryId item ∈ idsMapOf a.ids))) := by
  constructor
  · obtain ⟨m, rfl⟩ : ∃ m, k = m + 1 := ⟨k - 1, by omega⟩
    have hrun := chartRepositoriesLoop_pages c RpcPost budget pageSize a (m + 1) pages hb
      hpages hfull hlast m fuel 1 0 [] [] (by omega) (by omega)
    refine ⟨_, by rw [dataSourceAlicloudCrChartRepositoriesRead, hrun], ?_, ?_, ?_, ?_, ?_, ?_⟩
    · simp [chartRepositoriesOutput]
    · simp [chartRepositoriesOutput]
    · simp [chartRepositoriesOutput]
    · simp [chartRepositoriesOutput]
    · simp [chartRepositoriesOutput, chartRepositoryMapping, chartRepositoryId, Json.index,
        List.lookup, Json.sprint]
    · simp [chartRepositoriesOutput]
  · intro item
    obtain ⟨instanceId, regionId, ids, nameRegex?⟩ := a
    rcases nameRegex? with _ | nameRegex <;> simp [chartRepositoryPasses]

/-- C21 on three repositories listed in two responses, with a filter that
names `app1` and `app3`: these two are kept, in listing order. -/
theorem chartRepositories_output_filter_witness :
    ∃ out, (dataSourceAlicloudCrChartRepositoriesRead sampleClassifiers sampleChartPagesApi
        3 2 sampleChartFilterArgs 5).out = some (Go.ret (some out, none)) ∧
      out.ids = ["cri-1:ns:app1", "cri-1:ns:app3"] ∧
      out.names.length = out.repositories.length :=
  match (chartRepositories_output_filter sampleClassifiers sampleChartPagesApi 3 2
    sampleChartFilterArgs 2 5 sampleChartPages (by decide) (by decide) (by decide)
    (fun n hn => ⟨_, rfl, rfl⟩)
    (fun n hn => by
      have h0 : n = 0 := by omega
      subst h0
      decide)
    (fun n hn => by
      have h1 : n = 1 := by omega
      subst h1
      decide)).1 with
  | ⟨out, hout, _, _, hnames, _, hids, _⟩ => ⟨out, hout, hids.trans (by decide), hnames⟩


/-- C3: let `share`, `entity` and `typ` be strings without a colon, and let the
`AssociateResourceShare` call succeed, after any number of retried attempts,
with a first association carrying them as `ResourceShareId`, `EntityId` and
`EntityType`, the state wait and the describe call succeeding too. Then
`Create` returns nil and leaves the ID `share:entity:typ`; splitting that ID
into 3 parts succeeds with the parts `share`, `entity`, `typ`; the `Read` that
ends `Create` has set `resource_share_id`, `resource_id` and `resource_type`
to them, whatever the configuration held; and a later `Read` of the resource
that `Create` left sets them again from the ID alone, as shown on a copy whose
`resource_share_id` has been cleared. -/
theorem sharedResource_id_roundtrip (c : Classifiers) (api : SharedResourceApi)
    (budget : Nat) (d : ResourceData) (share entity typ : String)
    (hs : ':' ∉ share.data) (he : ':' ∉ entity.data) (ht : ':' ∉ typ.data)
    (m : Nat) (response association object : GoMap) (more : List Json)
    (hm : m < budget)
    (hprev : ∀ j, j < m → ∃ r e, api.RpcPost j (sharedResourceCreateRequest d) = (r, some e) ∧
      c.NeedRetry e = true)
    (hcall : api.RpcPost m (sharedResourceCreateRequest d) = (some response, none))
    (hassociations : response.lookup "ResourceShareAssociations"
      = some (Json.arr (Json.obj association :: more)))
    (hshare : Json.index association "ResourceShareId" = Json.str share)
    (hentity : Json.index association "EntityId" = Json.str entity)
    (htyp : Json.index association "EntityType" = Json.str typ)
    (hwait : api.WaitForState (share ++ ":" ++ entity ++ ":" ++ typ) = none)
    (hdesc : api.DescribeResourceManagerSharedResource
      (share ++ ":" ++ entity ++ ":" ++ typ) = (object, none)) :
    (resourceAliCloudResourceManagerSharedResourceCreate c api budget d).out = Go.ret none ∧
    (resourceAliCloudResourceManagerSharedResourceCreate c api budget d).d.Id
      = share ++ ":" ++ entity ++ ":" ++ typ ∧
    ParseResourceId (resourceAliCloudResourceManagerSharedResourceCreate c api budget d).d.Id 3
      = ([share, entity, typ], none) ∧
    (resourceAliCloudResourceManagerSharedResourceCreate c api budget d).d.Get
      "resource_share_id" = Json.str share ∧
    (resourceAliCloudResourceManagerSharedResourceCreate c api budget d).d.Get
      "resource_id" = Json.str entity ∧
    (resourceAliCloudResourceManagerSharedResourceCreate c api budget d).d.Get
      "resource_type" = Json.str typ ∧
    ∃ d', resourceAliCloudResourceManagerSharedResourceRead c api
        ((resourceAliCloudResourceManagerSharedResourceCreate c api budget d).d.Set
          "resource_share_id" Json.null) = (d', none) ∧
      d'.Id = share ++ ":" ++ entity ++ ":" ++ typ ∧
      d'.Get "resource_share_id" = Json.str share ∧
      d'.Get "resource_id" = Json.str entity ∧
      d'.Get "resource_type" = Json.str typ := by
  have hparse : ParseResourceId (share ++ ":" ++ entity ++ ":" ++ typ) 3
      = ([share, entity, typ], none) := by
    simp [ParseResourceId, stringsSplitColon_three share entity typ hs he ht]
  have hread : ∀ d0 : ResourceData,
      resourceAliCloudResourceManagerSharedResourceRead c api
        (d0.SetId (share ++ ":" ++ entity ++ ":" ++ typ)) =
      (((((d0.SetId (share ++ ":" ++ entity ++ ":" ++ typ)).Set "resource_id"
        (Json.str entity)).Set "resource_share_id" (Json.str share)).Set "resource_type"
        (Json.str typ)).Set "status" (Json.index object "AssociationStatus"), none) := by
    intro d0
    simp only [resourceAliCloudResourceManagerSharedResourceRead, ResourceData.SetId, hdesc,
      hparse]
    rfl
  have hretry := Retry_succeeds_at c.NeedRetry
    (fun n => api.RpcPost n (sharedResourceCreateRequest d)) budget 0 m none none
    (some response) (Nat.zero_le m) (by omega) (fun j _ hj => hprev j hj) hcall
  have hfirst : firstAssociation (some response) = Go.ret association := by
    simp [firstAssociation, Json.index, hassociations, Json.asSlice, Json.asMap, bind, Go.bind]
  have hid : Sprint3 (Json.index association "ResourceShareId")
      (Json.index association "EntityId") (Json.index association "EntityType")
      = share ++ ":" ++ entity ++ ":" ++ typ := by
    simp [Sprint3, hshare, hentity, htyp, Json.sprint]
  have hcreate : resourceAliCloudResourceManagerSharedResourceCreate c api budget d
      = ⟨m + 1,
         ((((d.SetId (share ++ ":" ++ entity ++ ":" ++ typ)).Set "resource_id"
          (Json.str entity)).Set "resource_share_id" (Json.str share)).Set "resource_type"
          (Json.str typ)).Set "status" (Json.index object "AssociationStatus"),
         Go.ret none⟩ := by
    have hwait' : api.WaitForState
        (d.SetId (share ++ ":" ++ entity ++ ":" ++ typ)).Id = none := hwait
    simp only [resourceAliCloudResourceManagerSharedResourceCreate, hretry, hfirst, hid,
      hwait', hread d]
  rw [hcreate]
  refine ⟨rfl, rfl, hparse, ?_, ?_, ?_, ?_⟩
  · simp [ResourceData.Get, ResourceData.Set]
  · simp [ResourceData.Get, ResourceData.Set]
  · simp [ResourceData.Get, ResourceData.Set]
  · have hagain := hread ((((((d.SetId (share ++ ":" ++ entity ++ ":" ++ typ)).Set
      "resource_id" (Json.str entity)).Set "resource_share_id" (Json.str share)).Set
      "resource_type" (Json.str typ)).Set "status"
      (Json.index object "AssociationStatus")).Set "resource_share_id" Json.null)
    refine ⟨_, hagain, rfl, ?_, ?_, ?_⟩ <;>
      simp [ResourceData.Get, ResourceData.Set, ResourceData.SetId]

/-- C3 on an association of `vsw-1` to `rs-1` accepted at the second attempt:
`Create` leaves the ID `rs-1:vsw-1:VSwitch` and the three attributes read back
from it. -/
theorem sharedResource_id_roundtrip_witness :
    (resourceAliCloudResourceManagerSharedResourceCreate sampleClassifiers
      sampleSharedResourceApiAccepting 5 sampleSharedResourceBlank).out = Go.ret none ∧
    (resourceAliCloudResourceManagerSharedResourceCreate sampleClassifiers
      sampleSharedResourceApiAccepting 5 sampleSharedResourceBlank).d.Id
        = "rs-1:vsw-1:VSwitch" ∧
    ParseResourceId (resourceAliCloudResourceManagerSharedResourceCreate sampleClassifiers
      sampleSharedResourceApiAccepting 5 sampleSharedResourceBlank).d.Id 3
        = (["rs-1", "vsw-1", "VSwitch"], none) ∧
    (resourceAliCloudResourceManagerSharedResourceCreate sampleClassifiers
      sampleSharedResourceApiAccepting 5 sampleSharedResourceBlank).d.Get
        "resource_share_id" = Json.str "rs-1" ∧
    (resourceAliCloudResourceManagerSharedResourceCreate sampleClassifiers
      sampleSharedResourceApiAccepting 5 sampleSharedResourceBlank).d.Get
        "resource_id" = Json.str "vsw-1" ∧
    (resourceAliCloudResourceManagerSharedResourceCreate sampleClassifiers
      sampleSharedResourceApiAccepting 5 sampleSharedResourceBlank).d.Get
        "resource_type" = Json.str "VSwitch" :=
  have h := sharedResource_id_roundtrip sampleClassifiers sampleSharedResourceApiAccepting 5
    sampleSharedResourceBlank "rs-1" "vsw-1" "VSwitch" (by decide) (by decide) (by decide) 1
    [("ResourceShareAssociations", Json.arr
      [Json.obj [("ResourceShareId", Json.str "rs-1"), ("EntityId", Json.str "vsw-1"),
                 ("EntityType", Json.str "VSwitch")]])]
    [("ResourceShareId", Json.str "rs-1"), ("EntityId", Json.str "vsw-1"),
     ("EntityType", Json.str "VSwitch")]
    [("AssociationStatus", Json.str "Associated")] [] (by decide)
    (fun j hj => ⟨none, GoError.sdk "Throttling" "", by
      have : j = 0 := by omega
      subst this
      rfl, rfl⟩)
    rfl rfl rfl rfl rfl rfl rfl
  ⟨h.1, h.2.1, h.2.2.1, h.2.2.2.1, h.2.2.2.2.1, h.2.2.2.2.2.1⟩


end Alicloud
